import Mathlib

/-!
Wire codec, RIB and flow allocation of the IRATI stack.

A shallow embedding of the serialisation helpers of `src/common/serdes-utils.c`, of the
RIB and the RIB daemon of `src/librina/src/rib_v2.cc`, of the flow specifications and
QoS cubes of `src/librina/src/librina-common.cc`, of the flow allocation result handler
of `src/rinad/src/ipcm/flow-allocation.cc`, and of the flow allocator instance declared
in `src/rinad/src/ipcp/flow-allocator.h`.

Conventions of the embedding.

* A byte is a natural number below 256. Memory that is read is a function
  from offsets to bytes; a cursor (`*pptr` in the C code) is an offset.
* A writer returns the list of bytes it stores at the cursor; the cursor
  advances by the length of that list.
* `serialize_obj` and `deserialize_obj` store and load a value of a numeric
  type in host byte order; the embedding fixes little-endian order.
* A `char *` is an optional list of non-zero bytes: `none` is the null
  pointer, `some s` the NUL-terminated string with contents `s`.
* `COMMON_ALLOC` may fail. A reader carries the outcomes of the allocations
  still to come (`rstate.heap`).
* A pointer argument that a function dereferences without a test is a plain
  value; a pointer field of a structure is an `Option`.
* A `std::map` is a function from keys to optional values. What a function does
  to the outside (a handler it calls, a result it hands over) is a list of
  events in the order in which they happen.
* A loop or a recursion that need not end is run for a given number of steps
  and gives `none` when it is still running then.
* A length that the C code holds in `unsigned int` is reduced modulo `2 ^ 32`; a
  length it returns as `int` is reduced into the range of `int` (`to_int`).
* Where a statement of the source is not valid C as it stands (a store through a
  field that lacks its `&`, a call that lacks an argument), the definition says
  which reading it takes.
* Locks, logging and real time are not part of the embedding.
-/

namespace Irati

/-! ## Faults -/

/-- Ways in which the C code leaves defined behaviour. -/
inductive fault where
  /-- `numtables` is read at an index at or beyond its length. -/
  | table_oob
  /-- a null pointer is dereferenced. -/
  | null_deref
  /-- a message has fewer trailing elements than its layout entry declares. -/
  | msg_oob
  /-- `COMMON_FREE` is applied to an address inside the message. -/
  | invalid_free
  /-- an uninitialised pointer is used. -/
  | wild_pointer
  /-- a write goes past the end of an allocation. -/
  | alloc_overrun
  deriving DecidableEq, Repr

/-! ## Numeric objects -/

/-- Bytes stored by `serialize_obj(_p, _t, _v)` for an unsigned type of `w` bytes:
the value is reduced modulo `256 ^ w` by the conversion to `_t`. -/
def wr_le : Nat → Nat → List Nat
  | 0, _ => []
  | w + 1, v => v % 256 :: wr_le w (v / 256)

/-- Value loaded by `deserialize_obj(_p, _t, _r)` for an unsigned type of `w` bytes
from memory `mem` at offset `p`. -/
def rd_le (mem : Nat → Nat) (p : Nat) : Nat → Nat
  | 0 => 0
  | w + 1 => mem p % 256 + 256 * rd_le mem (p + 1) w

/-- Bytes copied by `memcpy(dst, mem + p, n)`. -/
def rd_bytes (mem : Nat → Nat) (p : Nat) : Nat → List Nat
  | 0 => []
  | n + 1 => mem p % 256 :: rd_bytes mem (p + 1) n

/-- Two's complement image of a signed value in an unsigned type of `w` bytes. -/
def to_unsigned (w : Nat) (v : Int) : Nat := (v % (256 ^ w : Nat)).toNat

/-- Signed value of the two's complement pattern `n` of `w` bytes. -/
def to_signed (w : Nat) (n : Nat) : Int :=
  if 2 * n < 256 ^ w then (n : Int) else (n : Int) - (256 ^ w : Nat)

/-- The value of an `int` expression that C computes in `unsigned int` or `size_t` and
converts to `int` on assignment or `return`: `v` reduced modulo `2 ^ 32` into the range
of `int`. A sum of two `int` operands outside that range (`ret + f(x)` with `int ret`)
is undefined in C; the embedding takes the same reduction for it, which is what two's
complement hardware gives. -/
def to_int (v : Int) : Int := to_signed 4 (to_unsigned 4 v)

/-- Byte stored for a `bool`. -/
def wr_bool (b : Bool) : List Nat := wr_le 1 (if b then 1 else 0)

/-- The `bool` loaded from one byte. -/
def rd_bool (mem : Nat → Nat) (p : Nat) : Bool := decide (rd_le mem p 1 ≠ 0)

/-- Memory `mem` contains the bytes `l` from offset `p` on. -/
def holds (mem : Nat → Nat) : Nat → List Nat → Prop
  | _, [] => True
  | p, b :: bs => mem p = b ∧ holds mem (p + 1) bs

/-- Memory whose first bytes are `l`, followed by zeros. -/
def mem_of (l : List Nat) : Nat → Nat := fun i => l.getD i 0

/-! ## The allocator -/

/-- State of a reader: the cursor `*pptr` and the outcomes of the allocations
still to come (`heap 0` tells whether the next `COMMON_ALLOC` succeeds). -/
structure rstate where
  ptr : Nat
  heap : Nat → Bool

/-- `COMMON_ALLOC`: consumes the outcome of the next allocation. -/
def COMMON_ALLOC (h : Nat → Bool) : Bool × (Nat → Bool) := (h 0, fun n => h (n + 1))

/-- The heap on which no allocation fails. -/
def heap_ok : Nat → Bool := fun _ => true

/-! ## Strings -/

/-- The string held by a NUL-terminated buffer: the bytes before the first NUL. -/
def cstr (l : List Nat) : List Nat := l.takeWhile (fun b => b ≠ 0)

/-- A list of bytes is the contents of a C string: no NUL, every element a byte. -/
def cstr_ok (s : List Nat) : Prop := ∀ b ∈ s, 0 < b ∧ b < 256

instance (s : List Nat) : Decidable (cstr_ok s) := by
  unfold cstr_ok; infer_instance

/-- A string argument is well formed and short enough for its length to fit the
`uint16_t` length field: absent, or a C string of at most 65535 bytes. -/
def str_ok (s : Option (List Nat)) : Prop :=
  cstr_ok (s.getD []) ∧ (s.getD []).length ≤ 65535

instance (s : Option (List Nat)) : Decidable (str_ok s) := by
  unfold str_ok; infer_instance

/-- `string_prlen`: `strlen` is stored in an `unsigned int`, then capped. -/
def string_prlen (s : Option (List Nat)) : Nat :=
  let slen := match s with
    | some l => l.length % 4294967296
    | none => 0
  if slen > 65535 then 65535 else slen

/-- `serialize_string`: a `uint16_t` length, then that many bytes of `s`. -/
def serialize_string (s : Option (List Nat)) : List Nat :=
  let slen := string_prlen s % 65536
  wr_le 2 slen ++ (s.getD []).take slen

/-- `deserialize_string`: result code, state after the call, and `*s`. -/
def deserialize_string (mem : Nat → Nat) (st : rstate) :
    Int × rstate × Option (List Nat) :=
  let slen := rd_le mem st.ptr 2
  let p := st.ptr + 2
  if slen ≠ 0 then
    match COMMON_ALLOC st.heap with
    | (false, h) => (-1, ⟨p, h⟩, none)
    | (true, h) => (0, ⟨p + slen, h⟩, some (cstr (rd_bytes mem p slen)))
  else
    (0, ⟨p, st.heap⟩, none)

/-! ## Names -/

/-- `struct name`. -/
structure name where
  process_name : Option (List Nat)
  process_instance : Option (List Nat)
  entity_name : Option (List Nat)
  entity_instance : Option (List Nat)
  deriving DecidableEq, Repr

/-- The name left by `memset(name, 0, sizeof(*name))`. -/
def name_zero : name := ⟨none, none, none, none⟩

/-- `rina_name_serlen`. -/
def rina_name_serlen (n : Option name) : Nat :=
  let ret := 4 * 2
  match n with
  | none => ret
  | some n => ret + string_prlen n.process_name + string_prlen n.process_instance
      + string_prlen n.entity_name + string_prlen n.entity_instance

/-- `serialize_rina_name`. -/
def serialize_rina_name (n : name) : List Nat :=
  serialize_string n.process_name ++ serialize_string n.process_instance
    ++ serialize_string n.entity_name ++ serialize_string n.entity_instance

/-- `deserialize_rina_name`. -/
def deserialize_rina_name (mem : Nat → Nat) (st : rstate) : Int × rstate × name :=
  let n := name_zero
  let (ret, st, s) := deserialize_string mem st
  let n := { n with process_name := s }
  if ret ≠ 0 then (ret, st, n) else
  let (ret, st, s) := deserialize_string mem st
  let n := { n with process_instance := s }
  if ret ≠ 0 then (ret, st, n) else
  let (ret, st, s) := deserialize_string mem st
  let n := { n with entity_name := s }
  if ret ≠ 0 then (ret, st, n) else
  let (ret, st, s) := deserialize_string mem st
  (ret, st, { n with entity_instance := s })

/-- One field of `rina_name_cmp`: true when the comparison returns -1 at this field.
`strcmp` is non-zero exactly when the contents differ. -/
def field_differs (a b : Option (List Nat)) : Bool :=
  if a.isSome != b.isSome then true
  else match a, b with
    | some x, some y => decide (x ≠ y)
    | _, _ => false

/-- `rina_name_cmp`. -/
def rina_name_cmp (one two : Option name) : Int :=
  match one, two with
  | none, none => 0
  | none, some _ => 1
  | some _, none => 1
  | some a, some b =>
    if field_differs a.process_name b.process_name then -1
    else if field_differs a.process_instance b.process_instance then -1
    else if field_differs a.entity_name b.entity_name then -1
    else if field_differs a.entity_instance b.entity_instance then -1
    else 0

/-! ## Flow specifications -/

/-- `struct flow_spec`: the eleven fields the codec handles. -/
structure flow_spec where
  average_bandwidth : Nat
  average_sdu_bandwidth : Nat
  delay : Nat
  jitter : Nat
  max_allowable_gap : Int
  max_sdu_size : Nat
  ordered_delivery : Bool
  partial_delivery : Bool
  peak_bandwidth_duration : Nat
  peak_sdu_bandwidth_duration : Nat
  undetected_bit_error_rate : Int
  deriving DecidableEq, Repr

/-- Every field of a flow specification fits the type it is serialised with. -/
def flow_spec_ok (f : flow_spec) : Prop :=
  f.average_bandwidth < 2 ^ 32 ∧ f.average_sdu_bandwidth < 2 ^ 32 ∧ f.delay < 2 ^ 32
    ∧ f.jitter < 2 ^ 32
    ∧ (-(2 ^ 31 : Int) ≤ f.max_allowable_gap ∧ f.max_allowable_gap < 2 ^ 31)
    ∧ f.max_sdu_size < 2 ^ 32 ∧ f.peak_bandwidth_duration < 2 ^ 32
    ∧ f.peak_sdu_bandwidth_duration < 2 ^ 32
    ∧ (-(2 ^ 31 : Int) ≤ f.undetected_bit_error_rate ∧ f.undetected_bit_error_rate < 2 ^ 31)

instance (f : flow_spec) : Decidable (flow_spec_ok f) := by
  unfold flow_spec_ok; infer_instance

/-- `flow_spec_serlen`: `8 * sizeof(uint32_t) + sizeof(int32_t) + 2 * sizeof(bool)`. -/
def flow_spec_serlen (_f : flow_spec) : Nat := 8 * 4 + 4 + 2 * 1

/-- `serialize_flow_spec`. -/
def serialize_flow_spec (f : flow_spec) : List Nat :=
  wr_le 4 f.average_bandwidth ++ wr_le 4 f.average_sdu_bandwidth ++ wr_le 4 f.delay
    ++ wr_le 4 f.jitter ++ wr_le 4 (to_unsigned 4 f.max_allowable_gap)
    ++ wr_le 4 f.max_sdu_size ++ wr_bool f.ordered_delivery ++ wr_bool f.partial_delivery
    ++ wr_le 4 f.peak_bandwidth_duration ++ wr_le 4 f.peak_sdu_bandwidth_duration
    ++ wr_le 4 (to_unsigned 4 f.undetected_bit_error_rate)

/-- The flow specification left by `memset(fspec, 0, sizeof(*fspec))`. -/
def flow_spec_zero : flow_spec := ⟨0, 0, 0, 0, 0, 0, false, false, 0, 0, 0⟩

/-- The fault of the store `*(_r) = ...` of `deserialize_obj` when `_r` is a number
and not an address: the store goes through that number taken as an address. -/
def store_through (r : Nat) : fault :=
  if r = 0 then fault.null_deref else fault.wild_pointer

/-- `deserialize_flow_spec` as the source has it. After the `memset`, each of its eleven
statements is `deserialize_obj(*pptr, T, fspec->field)`, which expands to
`*(fspec->field) = *((T *)*pptr)`: the operand of `*` is the value of the field, not
its address (`deserialize_string` passes `&slen`, `deserialize_policy` passes
`&num_attrs`). The first of these stores goes through the zero that `memset` left in
`average_bandwidth`, so no field is set and the cursor does not move. The function is
declared `int` and has no `return` statement. -/
def deserialize_flow_spec (_mem : Nat → Nat) (_st : rstate) :
    Except fault (rstate × flow_spec) :=
  let fspec := flow_spec_zero
  Except.error (store_through fspec.average_bandwidth)

/-- `deserialize_flow_spec` with the address of the field supplied in each of the
eleven statements, `deserialize_obj(*pptr, T, &fspec->field)`: the state after the call
and `*fspec`. There is no result code, as in the source. The message decoder is
followed with this reader, so that what it does after a flow specification can be
stated. -/
def deserialize_flow_spec_fields (mem : Nat → Nat) (st : rstate) : rstate × flow_spec :=
  let p := st.ptr
  (⟨p + 38, st.heap⟩,
   { average_bandwidth := rd_le mem p 4
     average_sdu_bandwidth := rd_le mem (p + 4) 4
     delay := rd_le mem (p + 8) 4
     jitter := rd_le mem (p + 12) 4
     max_allowable_gap := to_signed 4 (rd_le mem (p + 16) 4)
     max_sdu_size := rd_le mem (p + 20) 4
     ordered_delivery := rd_bool mem (p + 24)
     partial_delivery := rd_bool mem (p + 25)
     peak_bandwidth_duration := rd_le mem (p + 26) 4
     peak_sdu_bandwidth_duration := rd_le mem (p + 30) 4
     undetected_bit_error_rate := to_signed 4 (rd_le mem (p + 34) 4) })

/-! ## Intrusive lists -/

/-- State of a `struct list_head` that heads a list of `α`: either both links are
null, as `memset` leaves them, or the head was set up by `INIT_LIST_HEAD` and links
the entries `l` in order. -/
inductive list_head (α : Type) where
  | zeroed
  | linked (l : List α)
  deriving DecidableEq, Repr

/-- `INIT_LIST_HEAD`. -/
def INIT_LIST_HEAD {α : Type} : list_head α := list_head.linked []

/-- `list_add_tail(new, head)`: it stores through `head->prev`, which is null in a
zeroed head. -/
def list_add_tail {α : Type} (x : α) : list_head α → Except fault (list_head α)
  | list_head.zeroed => Except.error fault.null_deref
  | list_head.linked l => Except.ok (list_head.linked (l ++ [x]))

/-- `list_for_each_entry(pos, head, member)`: the entries visited. The walk starts at
`head->next`, which is null in a zeroed head. -/
def list_entries {α : Type} : list_head α → Except fault (List α)
  | list_head.zeroed => Except.error fault.null_deref
  | list_head.linked l => Except.ok l

/-- A nested structure handled only when its gating flag is set:
`if (flag) f(ptr);`, the pointer being dereferenced by `f`. -/
def when_set {α β : Type} (flag : Bool) (ptr : Option α) (f : α → Except fault β)
    (skip : β) : Except fault β :=
  if flag then
    match ptr with
    | none => Except.error fault.null_deref
    | some x => f x
  else Except.ok skip

/-! ## Policies -/

/-- `struct policy_parm`. -/
structure policy_parm where
  name : Option (List Nat)
  value : Option (List Nat)
  deriving DecidableEq, Repr

/-- `struct policy`. -/
structure policy where
  name : Option (List Nat)
  version : Option (List Nat)
  params : list_head policy_parm
  deriving DecidableEq, Repr

/-- The policy left by `memset(policy, 0, sizeof(*policy))`. -/
def policy_zero : policy := ⟨none, none, list_head.zeroed⟩

/-- `policy_parm_serlen`. The sum is formed in `unsigned int` and returned as `int`; it
is at most `4 + 2 * 65535` and so the same number in both types. -/
def policy_parm_serlen (prm : Option policy_parm) : Nat :=
  let ret := 2 * 2
  match prm with
  | none => ret
  | some prm => ret + string_prlen prm.name + string_prlen prm.value

/-- `serialize_policy_parm`. -/
def serialize_policy_parm (prm : policy_parm) : List Nat :=
  serialize_string prm.name ++ serialize_string prm.value

/-- `deserialize_policy_parm`. -/
def deserialize_policy_parm (mem : Nat → Nat) (st : rstate) : Int × rstate × policy_parm :=
  let (ret, st, s) := deserialize_string mem st
  if ret ≠ 0 then (ret, st, ⟨s, none⟩) else
  let (ret, st, v) := deserialize_string mem st
  (ret, st, ⟨s, v⟩)

/-- The loop of `policy_serlen` over the parameters:
`ret = ret + policy_parm_serlen(pos)` with `unsigned int ret`. -/
def policy_parms_serlen (ret : Nat) : List policy_parm → Nat
  | [] => ret
  | x :: xs => policy_parms_serlen ((ret + policy_parm_serlen (some x)) % 4294967296) xs

/-- `policy_serlen`: the length is accumulated in `unsigned int ret` and returned as
`int`. -/
def policy_serlen (p : Option policy) : Except fault Int :=
  let ret : Nat := 2 * 2
  match p with
  | none => Except.ok (to_signed 4 ret)
  | some p =>
    let ret : Nat := (ret + string_prlen p.name + string_prlen p.version + 2) % 4294967296
    match list_entries p.params with
    | Except.error e => Except.error e
    | Except.ok ps => Except.ok (to_signed 4 (policy_parms_serlen ret ps))

/-- The last loop of `serialize_policy`. The call in the source,
`serialize_policy_parm(pos)`, lacks the cursor argument; it is read as
`serialize_policy_parm(pptr, pos)`. -/
def serialize_policy_parms : List policy_parm → List Nat
  | [] => []
  | x :: xs => serialize_policy_parm x ++ serialize_policy_parms xs

/-- `serialize_policy`: `num_parms` is a `uint16_t` counter. The call in its last loop
lacks the cursor argument and is read as `serialize_policy_parm(pptr, pos)`, see
`serialize_policy_parms`. -/
def serialize_policy (p : policy) : Except fault (List Nat) :=
  match list_entries p.params with
  | Except.error e => Except.error e
  | Except.ok ps =>
    let num_parms := ps.length % 65536
    Except.ok (serialize_string p.name ++ serialize_string p.version ++ wr_le 2 num_parms
      ++ serialize_policy_parms ps)

/-- The `for` loop of `deserialize_policy`; `ret` is the result code so far. -/
def deserialize_policy_loop (mem : Nat → Nat) :
    Nat → rstate → policy → Int → Except fault (Int × rstate × policy)
  | 0, st, pol, ret => Except.ok (ret, st, pol)
  | n + 1, st, pol, _ =>
    match COMMON_ALLOC st.heap with
    | (false, h) => Except.ok (-1, ⟨st.ptr, h⟩, pol)
    | (true, h) =>
      match deserialize_policy_parm mem ⟨st.ptr, h⟩ with
      | (ret, st1, prm) =>
        if ret ≠ 0 then Except.ok (ret, st1, pol)
        else match list_add_tail prm pol.params with
          | Except.error e => Except.error e
          | Except.ok ps => deserialize_policy_loop mem n st1 { pol with params := ps } ret

/-- `deserialize_policy`: `dst` is the policy the caller passes in; the function
starts by clearing it with `memset`, list head included. -/
def deserialize_policy (mem : Nat → Nat) (st : rstate) (_dst : policy) :
    Except fault (Int × rstate × policy) :=
  let pol := policy_zero
  match deserialize_string mem st with
  | (ret, st, s) =>
    let pol := { pol with name := s }
    if ret ≠ 0 then Except.ok (ret, st, pol) else
    match deserialize_string mem st with
    | (ret, st, s) =>
      let pol := { pol with version := s }
      if ret ≠ 0 then Except.ok (ret, st, pol) else
      let num_attrs := rd_le mem st.ptr 2
      deserialize_policy_loop mem num_attrs ⟨st.ptr + 2, st.heap⟩ pol ret

/-- The sequence repeated for every embedded policy of a config:
`p = COMMON_ALLOC(sizeof(struct policy), 1); if (!p) return -1;`
`INIT_LIST_HEAD(&p->params); ret = deserialize_policy(pptr, p);`. -/
def alloc_policy (mem : Nat → Nat) (st : rstate) :
    Except fault (Int × rstate × Option policy) :=
  match COMMON_ALLOC st.heap with
  | (false, h) => Except.ok (-1, ⟨st.ptr, h⟩, none)
  | (true, h) =>
    match deserialize_policy mem ⟨st.ptr, h⟩ { policy_zero with params := INIT_LIST_HEAD } with
    | Except.error e => Except.error e
    | Except.ok (ret, st, pol) => Except.ok (ret, st, some pol)

/-- `serialize_policy` applied to a pointer field. -/
def serialize_policy_ptr (p : Option policy) : Except fault (List Nat) :=
  match p with
  | none => Except.error fault.null_deref
  | some p => serialize_policy p

/-! ## Type declarations that are not part of the sources -/

/-- Sizes and offsets fixed by declarations outside the sources at hand. -/
structure abi where
  /-- `sizeof(timeout_t)`. -/
  sizeof_timeout_t : Nat
  /-- `sizeof(seq_num_t)`. -/
  sizeof_seq_num_t : Nat
  /-- `offsetof(struct irati_msg_base, msg_type)`. -/
  msg_type_off : Nat
  /-- `sizeof(((struct irati_msg_base *)0)->msg_type)`. -/
  sizeof_msg_type : Nat
  /-- `sizeof(((struct buffer *)0)->size)`. -/
  sizeof_buffer_size : Nat

/-! ## DTP configuration -/

/-- `struct dtp_config`. -/
structure dtp_config where
  dtcp_present : Bool
  seq_num_ro_th : Int
  initial_a_timer : Nat
  partial_delivery : Bool
  incomplete_delivery : Bool
  in_order_delivery : Bool
  max_sdu_gap : Nat
  dtp_ps : Option policy
  deriving DecidableEq, Repr

/-- `dtp_config_serlen`: a sum of `sizeof` terms and of the `int` that `policy_serlen`
returns, returned as `int`. -/
def dtp_config_serlen (A : abi) (c : dtp_config) : Except fault Int :=
  match policy_serlen c.dtp_ps with
  | Except.error e => Except.error e
  | Except.ok n =>
    Except.ok (to_int (4 * 1 + 4 + A.sizeof_timeout_t + A.sizeof_seq_num_t + n))

/-- `serialize_dtp_config`. -/
def serialize_dtp_config (A : abi) (c : dtp_config) : Except fault (List Nat) :=
  match serialize_policy_ptr c.dtp_ps with
  | Except.error e => Except.error e
  | Except.ok ps =>
    Except.ok (wr_bool c.dtcp_present ++ wr_le 4 (to_unsigned 4 c.seq_num_ro_th)
      ++ wr_le A.sizeof_timeout_t c.initial_a_timer ++ wr_bool c.partial_delivery
      ++ wr_bool c.incomplete_delivery ++ wr_bool c.in_order_delivery
      ++ wr_le A.sizeof_seq_num_t c.max_sdu_gap ++ ps)

/-- `deserialize_dtp_config`. Its seven `deserialize_obj(*pptr, T, dtp_config->field)`
statements lack the `&` in front of the field, as those of `deserialize_flow_spec` do;
they are read as stores into the named field, `&dtp_config->field`, so that the
allocation and the call of `deserialize_policy` that follow them can be reached. -/
def deserialize_dtp_config (A : abi) (mem : Nat → Nat) (st : rstate) :
    Except fault (Int × rstate × dtp_config) :=
  let p := st.ptr
  let t := A.sizeof_timeout_t
  let c : dtp_config :=
    { dtcp_present := rd_bool mem p
      seq_num_ro_th := to_signed 4 (rd_le mem (p + 1) 4)
      initial_a_timer := rd_le mem (p + 5) t
      partial_delivery := rd_bool mem (p + 5 + t)
      incomplete_delivery := rd_bool mem (p + 5 + t + 1)
      in_order_delivery := rd_bool mem (p + 5 + t + 2)
      max_sdu_gap := rd_le mem (p + 5 + t + 3) A.sizeof_seq_num_t
      dtp_ps := none }
  match alloc_policy mem ⟨p + 5 + t + 3 + A.sizeof_seq_num_t, st.heap⟩ with
  | Except.error e => Except.error e
  | Except.ok (ret, st, pol) => Except.ok (ret, st, { c with dtp_ps := pol })

/-! ## Flow control configurations -/

/-- `struct window_fctrl_config`. -/
structure window_fctrl_config where
  initial_credit : Nat
  max_closed_winq_length : Nat
  rcvr_flow_control : Option policy
  tx_control : Option policy
  deriving DecidableEq, Repr

/-- `struct rate_fctrl_config`. -/
structure rate_fctrl_config where
  sending_rate : Nat
  time_period : Nat
  no_override_default_peak : Option policy
  no_rate_slow_down : Option policy
  rate_reduction : Option policy
  deriving DecidableEq, Repr

/-- `struct dtcp_fctrl_config`. -/
structure dtcp_fctrl_config where
  rcvd_buffers_th : Nat
  rcvd_bytes_percent_th : Nat
  rcvd_bytes_th : Nat
  sent_buffers_th : Nat
  sent_bytes_percent_th : Nat
  sent_bytes_th : Nat
  window_based_fctrl : Bool
  rate_based_fctrl : Bool
  closed_window : Option policy
  receiving_flow_control : Option policy
  reconcile_flow_conflict : Option policy
  wfctrl_cfg : Option window_fctrl_config
  rfctrl_cfg : Option rate_fctrl_config
  deriving DecidableEq, Repr

/-- `window_fctrl_config_serlen`, returned as `int`; the argument is dereferenced
without a test. -/
def window_fctrl_config_serlen (wfc : window_fctrl_config) : Except fault Int := do
  let a ← policy_serlen wfc.rcvr_flow_control
  let b ← policy_serlen wfc.tx_control
  pure (to_int (2 * 4 + a + b))

/-- `serialize_window_fctrl_config`. -/
def serialize_window_fctrl_config (wfc : window_fctrl_config) : Except fault (List Nat) := do
  let a ← serialize_policy_ptr wfc.rcvr_flow_control
  let b ← serialize_policy_ptr wfc.tx_control
  pure (wr_le 4 wfc.initial_credit ++ wr_le 4 wfc.max_closed_winq_length ++ a ++ b)

/-- `deserialize_window_fctrl_config`. Its `deserialize_obj` statements lack the `&` in
front of the field and are read as stores into the named field, as in
`deserialize_dtp_config`. -/
def deserialize_window_fctrl_config (mem : Nat → Nat) (st : rstate) :
    Except fault (Int × rstate × window_fctrl_config) :=
  let p := st.ptr
  let c : window_fctrl_config :=
    { initial_credit := rd_le mem p 4
      max_closed_winq_length := rd_le mem (p + 4) 4
      rcvr_flow_control := none
      tx_control := none }
  match alloc_policy mem ⟨p + 8, st.heap⟩ with
  | Except.error e => Except.error e
  | Except.ok (ret, st, pol) =>
    let c := { c with rcvr_flow_control := pol }
    if ret ≠ 0 then Except.ok (ret, st, c) else
    match alloc_policy mem st with
    | Except.error e => Except.error e
    | Except.ok (ret, st, pol) => Except.ok (ret, st, { c with tx_control := pol })

/-- `rate_fctrl_config_serlen`, returned as `int`. -/
def rate_fctrl_config_serlen (rfc : rate_fctrl_config) : Except fault Int := do
  let a ← policy_serlen rfc.rate_reduction
  let b ← policy_serlen rfc.no_rate_slow_down
  let c ← policy_serlen rfc.no_override_default_peak
  pure (to_int (2 * 4 + a + b + c))

/-- `serialize_rate_fctrl_config`. -/
def serialize_rate_fctrl_config (rfc : rate_fctrl_config) : Except fault (List Nat) := do
  let a ← serialize_policy_ptr rfc.no_override_default_peak
  let b ← serialize_policy_ptr rfc.no_rate_slow_down
  let c ← serialize_policy_ptr rfc.rate_reduction
  pure (wr_le 4 rfc.sending_rate ++ wr_le 4 rfc.time_period ++ a ++ b ++ c)

/-- `deserialize_rate_fctrl_config`. Its `deserialize_obj` statements lack the `&` in
front of the field and are read as stores into the named field, as in
`deserialize_dtp_config`. -/
def deserialize_rate_fctrl_config (mem : Nat → Nat) (st : rstate) :
    Except fault (Int × rstate × rate_fctrl_config) :=
  let p := st.ptr
  let c : rate_fctrl_config :=
    { sending_rate := rd_le mem p 4
      time_period := rd_le mem (p + 4) 4
      no_override_default_peak := none
      no_rate_slow_down := none
      rate_reduction := none }
  match alloc_policy mem ⟨p + 8, st.heap⟩ with
  | Except.error e => Except.error e
  | Except.ok (ret, st, pol) =>
    let c := { c with no_override_default_peak := pol }
    if ret ≠ 0 then Except.ok (ret, st, c) else
    match alloc_policy mem st with
    | Except.error e => Except.error e
    | Except.ok (ret, st, pol) =>
      let c := { c with no_rate_slow_down := pol }
      if ret ≠ 0 then Except.ok (ret, st, c) else
      match alloc_policy mem st with
      | Except.error e => Except.error e
      | Except.ok (ret, st, pol) => Except.ok (ret, st, { c with rate_reduction := pol })

/-- `dtcp_fctrl_config_serlen`: `int ret` takes the first sum, and the length of each
gated configuration is added to it as `ret = ret + f(cfg)`. -/
def dtcp_fctrl_config_serlen (dfc : dtcp_fctrl_config) : Except fault Int := do
  let a ← policy_serlen dfc.closed_window
  let b ← policy_serlen dfc.receiving_flow_control
  let c ← policy_serlen dfc.reconcile_flow_conflict
  let ret := to_int (6 * 4 + 2 * 1 + a + b + c)
  let w ← when_set dfc.window_based_fctrl dfc.wfctrl_cfg window_fctrl_config_serlen 0
  let ret := to_int (ret + w)
  let r ← when_set dfc.rate_based_fctrl dfc.rfctrl_cfg rate_fctrl_config_serlen 0
  pure (to_int (ret + r))

/-- `serialize_dtcp_fctrl_config`. -/
def serialize_dtcp_fctrl_config (dfc : dtcp_fctrl_config) : Except fault (List Nat) := do
  let a ← serialize_policy_ptr dfc.closed_window
  let b ← serialize_policy_ptr dfc.receiving_flow_control
  let c ← serialize_policy_ptr dfc.reconcile_flow_conflict
  let w ← when_set dfc.window_based_fctrl dfc.wfctrl_cfg serialize_window_fctrl_config []
  let r ← when_set dfc.rate_based_fctrl dfc.rfctrl_cfg serialize_rate_fctrl_config []
  pure (wr_le 4 dfc.rcvd_buffers_th ++ wr_le 4 dfc.rcvd_bytes_percent_th
    ++ wr_le 4 dfc.rcvd_bytes_th ++ wr_le 4 dfc.sent_buffers_th
    ++ wr_le 4 dfc.sent_bytes_percent_th ++ wr_le 4 dfc.sent_bytes_th
    ++ wr_bool dfc.window_based_fctrl ++ wr_bool dfc.rate_based_fctrl
    ++ a ++ b ++ c ++ w ++ r)

/-- The tail of `deserialize_dtcp_fctrl_config`: the two gated configs. -/
def deserialize_dtcp_fctrl_gated (mem : Nat → Nat) (st : rstate) (c : dtcp_fctrl_config)
    (ret : Int) : Except fault (Int × rstate × dtcp_fctrl_config) :=
  let step1 : Except fault (Bool × Int × rstate × dtcp_fctrl_config) :=
    if c.window_based_fctrl then
      match COMMON_ALLOC st.heap with
      | (false, h) => Except.ok (true, -1, ⟨st.ptr, h⟩, c)
      | (true, h) =>
        match deserialize_window_fctrl_config mem ⟨st.ptr, h⟩ with
        | Except.error e => Except.error e
        | Except.ok (ret, st, w) =>
          Except.ok (decide (ret ≠ 0), ret, st, { c with wfctrl_cfg := some w })
    else Except.ok (false, ret, st, c)
  match step1 with
  | Except.error e => Except.error e
  | Except.ok (true, ret, st, c) => Except.ok (ret, st, c)
  | Except.ok (false, ret, st, c) =>
    if c.rate_based_fctrl then
      match COMMON_ALLOC st.heap with
      | (false, h) => Except.ok (-1, ⟨st.ptr, h⟩, c)
      | (true, h) =>
        match deserialize_rate_fctrl_config mem ⟨st.ptr, h⟩ with
        | Except.error e => Except.error e
        | Except.ok (ret, st, r) => Except.ok (ret, st, { c with rfctrl_cfg := some r })
    else Except.ok (ret, st, c)

/-- `deserialize_dtcp_fctrl_config`. Its `deserialize_obj` statements lack the `&` in
front of the field and are read as stores into the named field, as in
`deserialize_dtp_config`. -/
def deserialize_dtcp_fctrl_config (mem : Nat → Nat) (st : rstate) :
    Except fault (Int × rstate × dtcp_fctrl_config) :=
  let p := st.ptr
  let c : dtcp_fctrl_config :=
    { rcvd_buffers_th := rd_le mem p 4
      rcvd_bytes_percent_th := rd_le mem (p + 4) 4
      rcvd_bytes_th := rd_le mem (p + 8) 4
      sent_buffers_th := rd_le mem (p + 12) 4
      sent_bytes_percent_th := rd_le mem (p + 16) 4
      sent_bytes_th := rd_le mem (p + 20) 4
      window_based_fctrl := rd_bool mem (p + 24)
      rate_based_fctrl := rd_bool mem (p + 25)
      closed_window := none
      receiving_flow_control := none
      reconcile_flow_conflict := none
      wfctrl_cfg := none
      rfctrl_cfg := none }
  match alloc_policy mem ⟨p + 26, st.heap⟩ with
  | Except.error e => Except.error e
  | Except.ok (ret, st, pol) =>
    let c := { c with closed_window := pol }
    if ret ≠ 0 then Except.ok (ret, st, c) else
    match alloc_policy mem st with
    | Except.error e => Except.error e
    | Except.ok (ret, st, pol) =>
      let c := { c with receiving_flow_control := pol }
      if ret ≠ 0 then Except.ok (ret, st, c) else
      match alloc_policy mem st with
      | Except.error e => Except.error e
      | Except.ok (ret, st, pol) =>
        let c := { c with reconcile_flow_conflict := pol }
        if ret ≠ 0 then Except.ok (ret, st, c) else
        deserialize_dtcp_fctrl_gated mem st c ret

/-! ## Retransmission control and DTCP configuration -/

/-- `struct dtcp_rxctrl_config`. -/
structure dtcp_rxctrl_config where
  data_retransmit_max : Nat
  initial_tr : Nat
  max_time_retry : Nat
  rcvr_ack : Option policy
  rcvr_control_ack : Option policy
  receiving_ack_list : Option policy
  retransmission_timer_expiry : Option policy
  sender_ack : Option policy
  sending_ack : Option policy
  deriving DecidableEq, Repr

/-- `struct dtcp_config`. -/
structure dtcp_config where
  flow_ctrl : Bool
  rtx_ctrl : Bool
  dtcp_ps : Option policy
  lost_control_pdu : Option policy
  rtt_estimator : Option policy
  fctrl_cfg : Option dtcp_fctrl_config
  rxctrl_cfg : Option dtcp_rxctrl_config
  deriving DecidableEq, Repr

/-- `dtcp_rxctrl_config_serlen`, returned as `int`. -/
def dtcp_rxctrl_config_serlen (rxfc : dtcp_rxctrl_config) : Except fault Int := do
  let a ← policy_serlen rxfc.rcvr_ack
  let b ← policy_serlen rxfc.rcvr_control_ack
  let c ← policy_serlen rxfc.receiving_ack_list
  let d ← policy_serlen rxfc.retransmission_timer_expiry
  let e ← policy_serlen rxfc.sender_ack
  let f ← policy_serlen rxfc.sending_ack
  pure (to_int (3 * 4 + a + b + c + d + e + f))

/-- `serialize_dtcp_rxctrl_config`. -/
def serialize_dtcp_rxctrl_config (rxfc : dtcp_rxctrl_config) : Except fault (List Nat) := do
  let a ← serialize_policy_ptr rxfc.rcvr_ack
  let b ← serialize_policy_ptr rxfc.rcvr_control_ack
  let c ← serialize_policy_ptr rxfc.receiving_ack_list
  let d ← serialize_policy_ptr rxfc.retransmission_timer_expiry
  let e ← serialize_policy_ptr rxfc.sender_ack
  let f ← serialize_policy_ptr rxfc.sending_ack
  pure (wr_le 4 rxfc.data_retransmit_max ++ wr_le 4 rxfc.initial_tr
    ++ wr_le 4 rxfc.max_time_retry ++ a ++ b ++ c ++ d ++ e ++ f)

/-- `deserialize_dtcp_rxctrl_config`. Its `deserialize_obj` statements lack the `&` in
front of the field and are read as stores into the named field, as in
`deserialize_dtp_config`. -/
def deserialize_dtcp_rxctrl_config (mem : Nat → Nat) (st : rstate) :
    Except fault (Int × rstate × dtcp_rxctrl_config) :=
  let p := st.ptr
  let c : dtcp_rxctrl_config :=
    { data_retransmit_max := rd_le mem p 4
      initial_tr := rd_le mem (p + 4) 4
      max_time_retry := rd_le mem (p + 8) 4
      rcvr_ack := none
      rcvr_control_ack := none
      receiving_ack_list := none
      retransmission_timer_expiry := none
      sender_ack := none
      sending_ack := none }
  match alloc_policy mem ⟨p + 12, st.heap⟩ with
  | Except.error e => Except.error e
  | Except.ok (ret, st, pol) =>
    let c := { c with rcvr_ack := pol }
    if ret ≠ 0 then Except.ok (ret, st, c) else
    match alloc_policy mem st with
    | Except.error e => Except.error e
    | Except.ok (ret, st, pol) =>
      let c := { c with rcvr_control_ack := pol }
      if ret ≠ 0 then Except.ok (ret, st, c) else
      match alloc_policy mem st with
      | Except.error e => Except.error e
      | Except.ok (ret, st, pol) =>
        let c := { c with receiving_ack_list := pol }
        if ret ≠ 0 then Except.ok (ret, st, c) else
        match alloc_policy mem st with
        | Except.error e => Except.error e
        | Except.ok (ret, st, pol) =>
          let c := { c with retransmission_timer_expiry := pol }
          if ret ≠ 0 then Except.ok (ret, st, c) else
          match alloc_policy mem st with
          | Except.error e => Except.error e
          | Except.ok (ret, st, pol) =>
            let c := { c with sender_ack := pol }
            if ret ≠ 0 then Except.ok (ret, st, c) else
            match alloc_policy mem st with
            | Except.error e => Except.error e
            | Except.ok (ret, st, pol) => Except.ok (ret, st, { c with sending_ack := pol })

/-- `dtcp_config_serlen`. The function computes `ret` and then ends without a
`return` statement, so the value the caller receives is indeterminate; `indet`
stands for it. -/
def dtcp_config_serlen (indet : Nat) (c : dtcp_config) : Except fault Nat := do
  let a ← policy_serlen c.dtcp_ps
  let b ← policy_serlen c.lost_control_pdu
  let d ← policy_serlen c.rtt_estimator
  let _ret := to_int (2 * 1 + a + b + d)
  let _f ← when_set c.flow_ctrl c.fctrl_cfg dtcp_fctrl_config_serlen 0
  let _r ← when_set c.rtx_ctrl c.rxctrl_cfg dtcp_rxctrl_config_serlen 0
  pure indet

/-- `serialize_dctp_config` (the spelling of the source). Its two nested calls lack
the cursor argument and are read as `serialize_dtcp_fctrl_config(pptr, ...)` and
`serialize_dtcp_rxctrl_config(pptr, ...)`. -/
def serialize_dctp_config (c : dtcp_config) : Except fault (List Nat) := do
  let a ← serialize_policy_ptr c.dtcp_ps
  let b ← serialize_policy_ptr c.lost_control_pdu
  let d ← serialize_policy_ptr c.rtt_estimator
  let f ← when_set c.flow_ctrl c.fctrl_cfg serialize_dtcp_fctrl_config []
  let r ← when_set c.rtx_ctrl c.rxctrl_cfg serialize_dtcp_rxctrl_config []
  pure (wr_bool c.flow_ctrl ++ wr_bool c.rtx_ctrl ++ a ++ b ++ d ++ f ++ r)

/-- The tail of `deserialize_dtcp_config`: the two gated configs. -/
def deserialize_dtcp_gated (mem : Nat → Nat) (st : rstate) (c : dtcp_config)
    (ret : Int) : Except fault (Int × rstate × dtcp_config) :=
  let step1 : Except fault (Bool × Int × rstate × dtcp_config) :=
    if c.flow_ctrl then
      match COMMON_ALLOC st.heap with
      | (false, h) => Except.ok (true, -1, ⟨st.ptr, h⟩, c)
      | (true, h) =>
        match deserialize_dtcp_fctrl_config mem ⟨st.ptr, h⟩ with
        | Except.error e => Except.error e
        | Except.ok (ret, st, f) =>
          Except.ok (decide (ret ≠ 0), ret, st, { c with fctrl_cfg := some f })
    else Except.ok (false, ret, st, c)
  match step1 with
  | Except.error e => Except.error e
  | Except.ok (true, ret, st, c) => Except.ok (ret, st, c)
  | Except.ok (false, ret, st, c) =>
    if c.rtx_ctrl then
      match COMMON_ALLOC st.heap with
      | (false, h) => Except.ok (-1, ⟨st.ptr, h⟩, c)
      | (true, h) =>
        match deserialize_dtcp_rxctrl_config mem ⟨st.ptr, h⟩ with
        | Except.error e => Except.error e
        | Except.ok (ret, st, r) => Except.ok (ret, st, { c with rxctrl_cfg := some r })
    else Except.ok (ret, st, c)

/-- `deserialize_dtcp_config`. Its `deserialize_obj` statements lack the `&` in front
of the field and are read as stores into the named field, as in
`deserialize_dtp_config`. -/
def deserialize_dtcp_config (mem : Nat → Nat) (st : rstate) :
    Except fault (Int × rstate × dtcp_config) :=
  let p := st.ptr
  let c : dtcp_config :=
    { flow_ctrl := rd_bool mem p
      rtx_ctrl := rd_bool mem (p + 1)
      dtcp_ps := none
      lost_control_pdu := none
      rtt_estimator := none
      fctrl_cfg := none
      rxctrl_cfg := none }
  match alloc_policy mem ⟨p + 2, st.heap⟩ with
  | Except.error e => Except.error e
  | Except.ok (ret, st, pol) =>
    let c := { c with dtcp_ps := pol }
    if ret ≠ 0 then Except.ok (ret, st, c) else
    match alloc_policy mem st with
    | Except.error e => Except.error e
    | Except.ok (ret, st, pol) =>
      let c := { c with lost_control_pdu := pol }
      if ret ≠ 0 then Except.ok (ret, st, c) else
      match alloc_policy mem st with
      | Except.error e => Except.error e
      | Except.ok (ret, st, pol) =>
        let c := { c with rtt_estimator := pol }
        if ret ≠ 0 then Except.ok (ret, st, c) else
        deserialize_dtcp_gated mem st c ret

/-! ## Messages -/

/-- `struct irati_msg_layout`: one entry of `numtables`. -/
structure irati_msg_layout where
  copylen : Nat
  names : Nat
  strings : Nat
  flow_specs : Nat
  dif_configs : Nat
  dtp_configs : Nat
  dtcp_configs : Nat
  buffers : Nat
  deriving DecidableEq, Repr

/-- Functions the message walkers call that are not part of the sources at hand:
the codec of `struct dif_config` (type `D`) and of `struct buffer` (type `B`). -/
structure externs (D B : Type) where
  serialize_dif_config : D → Except fault (List Nat)
  deserialize_dif_config : (Nat → Nat) → rstate → Except fault (Int × rstate × D)
  dif_config_serlen : D → Except fault Nat
  serialize_buffer : B → Except fault (List Nat)
  deserialize_buffer : (Nat → Nat) → rstate → Except fault (Int × rstate × B)
  /-- the field `size` of a buffer. -/
  buffer_size : B → Nat

/-- A message in memory: the bytes of the structure (`base`, of which the walkers use
the first `copylen`) and the elements of its trailing sections. -/
structure irati_msg (D B : Type) where
  base : Nat → Nat
  names : List name
  strings : List (Option (List Nat))
  flow_specs : List flow_spec
  dif_configs : List D
  dtp_configs : List dtp_config
  dtcp_configs : List dtcp_config
  buffers : List B

/-- `IRATI_MB(p)->msg_type` for a message whose bytes are `mem`. -/
def msg_type (A : abi) (mem : Nat → Nat) : Nat := rd_le mem A.msg_type_off A.sizeof_msg_type

/-- One section loop of `serialize_irati_msg`: `n` elements are written. -/
def ser_section {α : Type} (f : α → Except fault (List Nat)) :
    Nat → List α → Except fault (List Nat)
  | 0, _ => Except.ok []
  | _ + 1, [] => Except.error fault.msg_oob
  | n + 1, x :: xs =>
    match f x with
    | Except.error e => Except.error e
    | Except.ok a =>
      match ser_section f n xs with
      | Except.error e => Except.error e
      | Except.ok b => Except.ok (a ++ b)

/-- One section loop of `irati_msg_serlen`: the lengths of `n` elements are added. -/
def len_section {α : Type} (f : α → Except fault Nat) : Nat → List α → Except fault Nat
  | 0, _ => Except.ok 0
  | _ + 1, [] => Except.error fault.msg_oob
  | n + 1, x :: xs =>
    match f x with
    | Except.error e => Except.error e
    | Except.ok a =>
      match len_section f n xs with
      | Except.error e => Except.error e
      | Except.ok b => Except.ok (a + b)

/-- The bytes `serialize_irati_msg` writes for a message with layout entry `L`. The
source calls `serialize_dtcp_config`, which it defines under the name
`serialize_dctp_config`. -/
def serialize_sections {D B : Type} (A : abi) (E : externs D B) (L : irati_msg_layout)
    (msg : irati_msg D B) : Except fault (List Nat) :=
  match ser_section (fun n => Except.ok (serialize_rina_name n)) L.names msg.names with
  | Except.error e => Except.error e
  | Except.ok a =>
  match ser_section (fun s => Except.ok (serialize_string s)) L.strings msg.strings with
  | Except.error e => Except.error e
  | Except.ok b =>
  match ser_section (fun f => Except.ok (serialize_flow_spec f)) L.flow_specs msg.flow_specs with
  | Except.error e => Except.error e
  | Except.ok c =>
  match ser_section E.serialize_dif_config L.dif_configs msg.dif_configs with
  | Except.error e => Except.error e
  | Except.ok d =>
  match ser_section (serialize_dtp_config A) L.dtp_configs msg.dtp_configs with
  | Except.error e => Except.error e
  | Except.ok e1 =>
  match ser_section serialize_dctp_config L.dtcp_configs msg.dtcp_configs with
  | Except.error e => Except.error e
  | Except.ok f =>
  match ser_section E.serialize_buffer L.buffers msg.buffers with
  | Except.error e => Except.error e
  | Except.ok g => Except.ok (rd_bytes msg.base 0 L.copylen ++ a ++ b ++ c ++ d ++ e1 ++ f ++ g)

/-- `serialize_irati_msg`: the `unsigned int` it returns and the bytes it writes to
`serbuf`. -/
def serialize_irati_msg {D B : Type} (A : abi) (E : externs D B)
    (numtables : List irati_msg_layout) (num_entries : Nat) (msg : irati_msg D B) :
    Except fault (Nat × List Nat) :=
  if msg_type A msg.base ≥ num_entries then Except.ok (4294967295, [])
  else
    match numtables[msg_type A msg.base]? with
    | none => Except.error fault.table_oob
    | some L =>
      match serialize_sections A E L msg with
      | Except.error e => Except.error e
      | Except.ok out => Except.ok (out.length % 4294967296, out)

/-- `ret += f(x)` with `unsigned int ret` and `f` returning `int`: the amount added is
the `int` converted to `unsigned int`. -/
def int_added {α : Type} (f : α → Except fault Int) (x : α) : Except fault Nat :=
  match f x with
  | Except.error e => Except.error e
  | Except.ok v => Except.ok (to_unsigned 4 v)

/-- The sum `irati_msg_serlen` accumulates for a message with layout entry `L`, before
its reduction to `unsigned int`; `indet c` is the indeterminate value
`dtcp_config_serlen` hands back for `c`. -/
def serlen_sections {D B : Type} (A : abi) (E : externs D B) (indet : dtcp_config → Nat)
    (L : irati_msg_layout) (msg : irati_msg D B) : Except fault Nat :=
  match len_section (fun n => Except.ok (rina_name_serlen (some n))) L.names msg.names with
  | Except.error e => Except.error e
  | Except.ok a =>
  match len_section (fun s => Except.ok (2 + string_prlen s)) L.strings msg.strings with
  | Except.error e => Except.error e
  | Except.ok b =>
  match len_section (fun f => Except.ok (flow_spec_serlen f)) L.flow_specs msg.flow_specs with
  | Except.error e => Except.error e
  | Except.ok c =>
  match len_section E.dif_config_serlen L.dif_configs msg.dif_configs with
  | Except.error e => Except.error e
  | Except.ok d =>
  match len_section (int_added (dtp_config_serlen A)) L.dtp_configs msg.dtp_configs with
  | Except.error e => Except.error e
  | Except.ok e1 =>
  match len_section (fun x => dtcp_config_serlen (indet x) x) L.dtcp_configs msg.dtcp_configs with
  | Except.error e => Except.error e
  | Except.ok f =>
  match len_section (fun x => Except.ok (A.sizeof_buffer_size + E.buffer_size x))
      L.buffers msg.buffers with
  | Except.error e => Except.error e
  | Except.ok g => Except.ok (L.copylen + a + b + c + d + e1 + f + g)

/-- `irati_msg_serlen`: the `unsigned int` it returns. -/
def irati_msg_serlen {D B : Type} (A : abi) (E : externs D B) (indet : dtcp_config → Nat)
    (numtables : List irati_msg_layout) (num_entries : Nat) (msg : irati_msg D B) :
    Except fault Nat :=
  if msg_type A msg.base ≥ num_entries then Except.ok 4294967295
  else
    match numtables[msg_type A msg.base]? with
    | none => Except.error fault.table_oob
    | some L =>
      match serlen_sections A E indet L msg with
      | Except.error e => Except.error e
      | Except.ok n => Except.ok (n % 4294967296)

/-- A section loop of `deserialize_irati_msg` that tests the result code of every
element (names, strings): the code returned early, if any, the state reached and the
elements stored. -/
def des_checked {α : Type} (f : rstate → Int × rstate × α) :
    Nat → rstate → Option Int × rstate × List α
  | 0, st => (none, st, [])
  | n + 1, st =>
    match f st with
    | (ret, st1, x) =>
      if ret ≠ 0 then (some ret, st1, [x])
      else
        match des_checked f n st1 with
        | (e, st2, xs) => (e, st2, x :: xs)

/-- A section loop of `deserialize_irati_msg` that assigns the result code of every
element to `ret` and never reads it (flow specifications, DIF, DTP and DTCP
configurations, buffers). -/
def des_unchecked {α : Type} (f : rstate → Except fault (rstate × α)) :
    Nat → rstate → Except fault (rstate × List α)
  | 0, st => Except.ok (st, [])
  | n + 1, st =>
    match f st with
    | Except.error e => Except.error e
    | Except.ok (st1, x) =>
      match des_unchecked f n st1 with
      | Except.error e => Except.error e
      | Except.ok (st2, xs) => Except.ok (st2, x :: xs)

/-- Drops the result code of an element reader. -/
def drop_ret {α : Type} (r : Except fault (Int × rstate × α)) : Except fault (rstate × α) :=
  match r with
  | Except.error e => Except.error e
  | Except.ok (_, st, x) => Except.ok (st, x)

/-- What `deserialize_irati_msg` leaves behind: the `int` it returns, the final value
of `desptr` as an offset into `serbuf`, the heap, whether all declared sections were
walked, and the message stored in `msgbuf` (sections not reached are left empty). -/
structure des_msg (D B : Type) where
  ret : Int
  desptr : Nat
  heap : Nat → Bool
  complete : Bool
  msg : irati_msg D B

/-- The five unchecked section loops of `deserialize_irati_msg` and its final test.
The flow specifications are read with `deserialize_flow_spec_fields`, the reading of
`deserialize_flow_spec` in which every store has its `&`; with the function as the
source has it the first flow specification ends the walk. -/
def deserialize_tail {D B : Type} (A : abi) (E : externs D B) (L : irati_msg_layout)
    (mem : Nat → Nat) (serbuf_len : Nat) (st : rstate) (base : Nat → Nat)
    (ns : List name) (ss : List (Option (List Nat))) : Except fault (des_msg D B) :=
  match des_unchecked (fun s => Except.ok (deserialize_flow_spec_fields mem s)) L.flow_specs st with
  | Except.error e => Except.error e
  | Except.ok (st, fs) =>
  match des_unchecked (fun s => drop_ret (E.deserialize_dif_config mem s)) L.dif_configs st with
  | Except.error e => Except.error e
  | Except.ok (st, ds) =>
  match des_unchecked (fun s => drop_ret (deserialize_dtp_config A mem s)) L.dtp_configs st with
  | Except.error e => Except.error e
  | Except.ok (st, ps) =>
  match des_unchecked (fun s => drop_ret (deserialize_dtcp_config mem s)) L.dtcp_configs st with
  | Except.error e => Except.error e
  | Except.ok (st, cs) =>
  match des_unchecked (fun s => drop_ret (E.deserialize_buffer mem s)) L.buffers st with
  | Except.error e => Except.error e
  | Except.ok (st, bs) =>
    Except.ok ⟨if st.ptr ≠ serbuf_len then -1 else 0, st.ptr, st.heap, true,
      ⟨base, ns, ss, fs, ds, ps, cs, bs⟩⟩

/-- `deserialize_irati_msg`. The type tag is read from `serbuf` and `copylen` bytes
are copied before anything is compared with `serbuf_len`; `msgbuf_len` is not used. -/
def deserialize_irati_msg {D B : Type} (A : abi) (E : externs D B)
    (numtables : List irati_msg_layout) (num_entries : Nat) (mem : Nat → Nat)
    (serbuf_len : Nat) (heap : Nat → Bool) (_msgbuf_len : Nat) : Except fault (des_msg D B) :=
  if msg_type A mem ≥ num_entries then
    Except.ok ⟨-1, 0, heap, false, ⟨fun _ => 0, [], [], [], [], [], [], []⟩⟩
  else
    match numtables[msg_type A mem]? with
    | none => Except.error fault.table_oob
    | some L =>
      let base := fun i => if i < L.copylen then mem i % 256 else 0
      match des_checked (deserialize_rina_name mem) L.names ⟨L.copylen, heap⟩ with
      | (some ret, st, ns) =>
        Except.ok ⟨ret, st.ptr, st.heap, false, ⟨base, ns, [], [], [], [], [], []⟩⟩
      | (none, st, ns) =>
        match des_checked (deserialize_string mem) L.strings st with
        | (some ret, st, ss) =>
          Except.ok ⟨ret, st.ptr, st.heap, false, ⟨base, ns, ss, [], [], [], [], []⟩⟩
        | (none, st, ss) => deserialize_tail A E L mem serbuf_len st base ns ss

/-- In the words of the specification: the result codes of `n` elements decoded one
after the other by the reader `f`, each starting where the one before it stopped
whatever its result, and the state after the last of them. -/
def decode_all {α : Type} (f : rstate → Int × rstate × α) :
    Nat → rstate → List Int × rstate
  | 0, st => ([], st)
  | n + 1, st =>
    match f st with
    | (ret, st1, _) =>
      match decode_all f n st1 with
      | (cs, st2) => (ret :: cs, st2)

/-- In the words of the specification: the result codes of the names and of the
strings of the entry `L`, all of them decoded, and the number of bytes consumed by
copying the fixed part and decoding them. -/
def decode_names_strings (L : irati_msg_layout) (mem : Nat → Nat) (heap : Nat → Bool) :
    List Int × Nat :=
  match decode_all (deserialize_rina_name mem) L.names ⟨L.copylen, heap⟩ with
  | (cn, st) =>
    match decode_all (deserialize_string mem) L.strings st with
    | (cs, st2) => (cn ++ cs, st2.ptr)

/-- The offsets of the serialised buffer that `deserialize_string` loads: the two bytes
of the length that `deserialize_obj` reads at the cursor and, when the length is not
zero and the allocation succeeds, the `slen` bytes that `memcpy` copies. Nothing is
compared with the end of the buffer, which the function does not receive. -/
def deserialize_string_loads (mem : Nat → Nat) (st : rstate) : List Nat :=
  let slen := rd_le mem st.ptr 2
  let p := st.ptr + 2
  if slen ≠ 0 then
    match COMMON_ALLOC st.heap with
    | (false, _) => [st.ptr, st.ptr + 1]
    | (true, _) => [st.ptr, st.ptr + 1] ++ List.range' p slen
  else
    [st.ptr, st.ptr + 1]

/-- The offsets loaded by a checked section loop of `deserialize_irati_msg`, the element
reader `f` loading the offsets `loads st` when it is called in state `st`. -/
def des_checked_loads {α : Type} (f : rstate → Int × rstate × α)
    (loads : rstate → List Nat) : Nat → rstate → List Nat
  | 0, _ => []
  | n + 1, st =>
    match f st with
    | (ret, st1, _) =>
      if ret ≠ 0 then loads st
      else loads st ++ des_checked_loads f loads n st1

/-- The offsets `deserialize_rina_name` loads: those of its calls of
`deserialize_string`, which end with the first call that fails. -/
def deserialize_rina_name_loads (mem : Nat → Nat) (st : rstate) : List Nat :=
  des_checked_loads (deserialize_string mem) (deserialize_string_loads mem) 4 st

/-- The offsets of `serbuf` that `deserialize_irati_msg` loads up to the end of its
string section: the type tag, the `copylen` bytes that `memcpy` copies, and what the
readers of the names and of the strings load. -/
def deserialize_irati_msg_loads (A : abi) (numtables : List irati_msg_layout)
    (num_entries : Nat) (mem : Nat → Nat) (heap : Nat → Bool) : List Nat :=
  let tag := List.range' A.msg_type_off A.sizeof_msg_type
  if msg_type A mem ≥ num_entries then tag
  else
    match numtables[msg_type A mem]? with
    | none => tag
    | some L =>
      let copied := List.range' 0 L.copylen
      let names := des_checked_loads (deserialize_rina_name mem)
        (deserialize_rina_name_loads mem) L.names ⟨L.copylen, heap⟩
      match des_checked (deserialize_rina_name mem) L.names ⟨L.copylen, heap⟩ with
      | (some _, _, _) => tag ++ copied ++ names
      | (none, st, _) =>
        tag ++ copied ++ names
          ++ des_checked_loads (deserialize_string mem) (deserialize_string_loads mem)
            L.strings st

/-- What `irati_msg_free` does when it returns: the strings it released. -/
structure freed where
  rejected : Bool
  strings : List (List Nat)
  deriving DecidableEq, Repr

/-- The string loop of `irati_msg_free`. -/
def free_strings : Nat → List (Option (List Nat)) → Except fault (List (List Nat))
  | 0, _ => Except.ok []
  | _ + 1, [] => Except.error fault.msg_oob
  | n + 1, s :: ss =>
    match free_strings n ss with
    | Except.error e => Except.error e
    | Except.ok r => Except.ok (match s with | some l => l :: r | none => r)

/-- `irati_msg_free`. The initialiser of `copylen` reads `numtables[msg->msg_type]`
ahead of the bound test. `rina_name_free` and `flow_spec_free` end with `COMMON_FREE`
of their argument, here an element inside the message; the start of the DTP section
is taken from `dif_config`, which is never assigned. -/
def irati_msg_free {D B : Type} (A : abi) (numtables : List irati_msg_layout)
    (num_entries : Nat) (msg : irati_msg D B) : Except fault freed :=
  match numtables[msg_type A msg.base]? with
  | none => Except.error fault.table_oob
  | some L =>
    if msg_type A msg.base ≥ num_entries then Except.ok ⟨true, []⟩
    else if L.names ≠ 0 then
      (match msg.names with
        | [] => Except.error fault.msg_oob
        | _ :: _ => Except.error fault.invalid_free)
    else
      match free_strings L.strings msg.strings with
      | Except.error e => Except.error e
      | Except.ok r =>
        if L.flow_specs ≠ 0 then
          (match msg.flow_specs with
            | [] => Except.error fault.msg_oob
            | _ :: _ => Except.error fault.invalid_free)
        else if L.dtp_configs ≠ 0 then Except.error fault.wild_pointer
        else if L.dtcp_configs ≠ 0 then Except.error fault.wild_pointer
        else Except.ok ⟨false, r⟩


/-- The string a reader gets back for `s`: an empty string comes back absent. -/
def norm_str (s : Option (List Nat)) : Option (List Nat) :=
  if s.getD [] = [] then none else s

/-- The name a reader gets back for `n`. -/
def norm_name (n : name) : name :=
  ⟨norm_str n.process_name, norm_str n.process_instance, norm_str n.entity_name,
    norm_str n.entity_instance⟩

/-- Every field of a name is a well-formed string of at most 65535 bytes, or absent. -/
def name_ok (n : name) : Prop :=
  str_ok n.process_name ∧ str_ok n.process_instance ∧ str_ok n.entity_name
    ∧ str_ok n.entity_instance

instance (n : name) : Decidable (name_ok n) := by
  unfold name_ok; infer_instance

/-- Some field of the name is present and empty. -/
def has_empty_field (n : name) : Prop :=
  n.process_name = some [] ∨ n.process_instance = some [] ∨ n.entity_name = some []
    ∨ n.entity_instance = some []

instance (n : name) : Decidable (has_empty_field n) := by
  unfold has_empty_field; infer_instance

/-- The strings of a policy parameter are well formed. -/
def policy_parm_ok (x : policy_parm) : Prop := str_ok x.name ∧ str_ok x.value

instance (x : policy_parm) : Decidable (policy_parm_ok x) := by
  unfold policy_parm_ok; infer_instance

/-- The bytes `serialize_policy` writes for a policy whose list head links `l`. -/
def policy_bytes (nm ver : Option (List Nat)) (l : List policy_parm) : List Nat :=
  serialize_string nm ++ serialize_string ver ++ wr_le 2 (l.length % 65536)
    ++ serialize_policy_parms l

/-- A policy pointer a writer can follow: it is not null and the list head of the
policy was set up. -/
def policy_ptr_ok (p : Option policy) : Prop :=
  ∃ nm ver l, p = some ⟨nm, ver, list_head.linked l⟩

/-- The policies of a window flow control configuration can be followed. -/
def window_fctrl_ok (w : window_fctrl_config) : Prop :=
  policy_ptr_ok w.rcvr_flow_control ∧ policy_ptr_ok w.tx_control

/-- The policies of a rate flow control configuration can be followed. -/
def rate_fctrl_ok (r : rate_fctrl_config) : Prop :=
  policy_ptr_ok r.no_override_default_peak ∧ policy_ptr_ok r.no_rate_slow_down
    ∧ policy_ptr_ok r.rate_reduction

/-- The policies of a flow control configuration can be followed, and the nested
configuration of every flag that is set is present with its policies. -/
def dtcp_fctrl_ok (c : dtcp_fctrl_config) : Prop :=
  policy_ptr_ok c.closed_window ∧ policy_ptr_ok c.receiving_flow_control
    ∧ policy_ptr_ok c.reconcile_flow_conflict
    ∧ (c.window_based_fctrl = true → ∃ w, c.wfctrl_cfg = some w ∧ window_fctrl_ok w)
    ∧ (c.rate_based_fctrl = true → ∃ r, c.rfctrl_cfg = some r ∧ rate_fctrl_ok r)

/-- The six policies of a retransmission control configuration can be followed. -/
def dtcp_rxctrl_ok (c : dtcp_rxctrl_config) : Prop :=
  policy_ptr_ok c.rcvr_ack ∧ policy_ptr_ok c.rcvr_control_ack
    ∧ policy_ptr_ok c.receiving_ack_list ∧ policy_ptr_ok c.retransmission_timer_expiry
    ∧ policy_ptr_ok c.sender_ack ∧ policy_ptr_ok c.sending_ack

/-- The policies of a DTCP configuration can be followed, and the nested configuration
of every flag that is set is present and well formed. -/
def dtcp_config_ok (c : dtcp_config) : Prop :=
  policy_ptr_ok c.dtcp_ps ∧ policy_ptr_ok c.lost_control_pdu ∧ policy_ptr_ok c.rtt_estimator
    ∧ (c.flow_ctrl = true → ∃ f, c.fctrl_cfg = some f ∧ dtcp_fctrl_ok f)
    ∧ (c.rtx_ctrl = true → ∃ r, c.rxctrl_cfg = some r ∧ dtcp_rxctrl_ok r)

/-! ## The layout of a serialised message, as the specification words it -/

/-- `m[k] = v` on a `std::map`. -/
def map_set {K V : Type} [DecidableEq K] (m : K → Option V) (k : K) (v : V) : K → Option V :=
  fun x => if x = k then some v else m x

/-- `m.erase(k)` on a `std::map`. -/
def map_erase {K V : Type} [DecidableEq K] (m : K → Option V) (k : K) : K → Option V :=
  fun x => if x = k then none else m x

/-- The part of a `RIBObj_` the store looks at: the identity of the object (its
address) and its `delegates` flag. -/
structure RIBObj_ where
  addr : Nat
  delegates : Bool
  deriving DecidableEq, Repr

/-- The data members of `class RIB`; `separator` is `schema->separator_`. -/
structure RIB where
  obj_name_map : List Char → Option RIBObj_
  obj_inst_map : Int → Option RIBObj_
  inst_name_map : Int → Option (List Char)
  name_inst_map : List Char → Option Int
  deleg_cache : List Char → Option RIBObj_
  separator : Char
  next_inst_id : Int
  num_of_deleg : Nat

/-- The RIB left by the constructor `RIB::RIB`: the five maps are empty; the
constructor assigns neither `next_inst_id` nor `num_of_deleg`, so their values are
indeterminate. -/
def RIB_new (separator : Char) (next_inst_id : Int) (num_of_deleg : Nat) : RIB :=
  { obj_name_map := fun _ => none
    obj_inst_map := fun _ => none
    inst_name_map := fun _ => none
    name_inst_map := fun _ => none
    deleg_cache := fun _ => none
    separator := separator
    next_inst_id := next_inst_id
    num_of_deleg := num_of_deleg }

/-- `std::string::find_last_of(c, npos)`: the index of the last occurrence of `c`. -/
def find_last_of (c : Char) : List Char → Option Nat
  | [] => none
  | x :: xs =>
    match find_last_of c xs with
    | some i => some (i + 1)
    | none => if x = c then some 0 else none

/-- `RIB::get_parent_fqn`. -/
def get_parent_fqn (rib : RIB) (fqn_child : List Char) : List Char :=
  match find_last_of rib.separator fqn_child with
  | none => []
  | some last_separator => fqn_child.take last_separator

/-- `RIB::get_obj`. -/
def get_obj (rib : RIB) (inst_id : Int) : Option RIBObj_ := rib.obj_inst_map inst_id

/-- `RIB::__get_obj_inst_id`. -/
def __get_obj_inst_id (rib : RIB) (fqn : List Char) : Int :=
  match rib.name_inst_map fqn with
  | some id => id
  | none => -1

/-- `RIB::get_obj_inst_id`. -/
def get_obj_inst_id (rib : RIB) (fqn : List Char) : Int := __get_obj_inst_id rib fqn

/-- `RIB::__get_obj_fqn`. -/
def __get_obj_fqn (rib : RIB) (inst_id : Int) : List Char :=
  match rib.inst_name_map inst_id with
  | some fqn => fqn
  | none => []

/-- `RIB::get_obj_fqn`. -/
def get_obj_fqn (rib : RIB) (inst_id : Int) : List Char := __get_obj_fqn rib inst_id

/-- The largest `int64_t`. -/
def INT64_MAX : Int := 9223372036854775807

/-- `++next_inst_id` on an `int64_t`. At the largest value the increment overflows,
which C++ leaves undefined; the embedding takes the wrap to the smallest value that
two's complement hardware gives. -/
def int64_incr (n : Int) : Int := if n = INT64_MAX then -INT64_MAX - 1 else n + 1

/-- The loop of `RIB::get_new_inst_id`, run for at most `fuel` iterations: the value
of `next_inst_id` at the `break`, or `none` when the loop is still running. -/
def get_new_inst_id_loop (obj_inst_map : Int → Option RIBObj_) : Nat → Int → Option Int
  | 0, _ => none
  | fuel + 1, next_inst_id =>
    let next_inst_id := if next_inst_id < 1 then 1 else next_inst_id
    if (obj_inst_map next_inst_id).isSome then some next_inst_id
    else get_new_inst_id_loop obj_inst_map fuel (int64_incr next_inst_id)

/-- `RIB::get_new_inst_id`: the id returned and the RIB with `next_inst_id` updated. -/
def get_new_inst_id (rib : RIB) (fuel : Nat) : Option (Int × RIB) :=
  match get_new_inst_id_loop rib.obj_inst_map fuel rib.next_inst_id with
  | none => none
  | some id => some (id, { rib with next_inst_id := id })

/-- `RIB::add_obj`: the value returned, the RIB afterwards and the caller's pointer
`*obj_` afterwards; `none` when `get_new_inst_id` is still running after `fuel`
iterations. -/
def add_obj (rib : RIB) (fqn : List Char) (obj_ : Option RIBObj_) (fuel : Nat) :
    Option (Int × RIB × Option RIBObj_) :=
  let parent_fqn := get_parent_fqn rib fqn
  match obj_ with
  | none => some (-1, rib, obj_)
  | some obj =>
    let parent_id := __get_obj_inst_id rib parent_fqn
    if parent_id = -1 then some (-1, rib, obj_)
    else
      let id := __get_obj_inst_id rib fqn
      if id = -1 then some (-1, rib, obj_)
      else
        match get_new_inst_id rib fuel with
        | none => none
        | some (id, rib) =>
          let rib := { rib with
            obj_name_map := map_set rib.obj_name_map fqn obj
            obj_inst_map := map_set rib.obj_inst_map id obj
            inst_name_map := map_set rib.inst_name_map id fqn
            name_inst_map := map_set rib.name_inst_map fqn id }
          let rib := if obj.delegates then
              { rib with num_of_deleg := (rib.num_of_deleg + 1) % 4294967296
                         deleg_cache := fun _ => none }
            else rib
          some (id, rib, none)

/-- `RIB::__remove_obj`: the value returned and the RIB afterwards. -/
def __remove_obj (rib : RIB) (inst_id : Int) : Int × RIB :=
  match get_obj rib inst_id with
  | none => (-1, rib)
  | some obj =>
    let fqn := get_obj_fqn rib inst_id
    let rib := { rib with
      obj_inst_map := map_erase rib.obj_inst_map inst_id
      inst_name_map := map_erase rib.inst_name_map inst_id
      name_inst_map := map_erase rib.name_inst_map fqn
      obj_name_map := map_erase rib.obj_name_map fqn }
    let rib := if obj.delegates then
        { rib with deleg_cache := fun _ => none
                   num_of_deleg := (rib.num_of_deleg + 4294967295) % 4294967296 }
      else rib
    (0, rib)

/-- `RIB::remove_obj(int64_t)`. -/
def remove_obj (rib : RIB) (instance_id : Int) : Int × RIB := __remove_obj rib instance_id

/-- `RIB::remove_obj(const std::string&)`. -/
def remove_obj_fqn (rib : RIB) (fqn : List Char) : Int × RIB :=
  __remove_obj rib (get_obj_inst_id rib fqn)

/-- A call of the public interface that changes the store. -/
inductive rib_call where
  | add (fqn : List Char) (obj_ : Option RIBObj_)
  | remove (instance_id : Int)
  | remove_fqn (fqn : List Char)

/-- The RIB after a sequence of calls, each `add_obj` being given `fuel` iterations. -/
def run_calls (fuel : Nat) : RIB → List rib_call → Option RIB
  | rib, [] => some rib
  | rib, rib_call.add fqn obj_ :: cs =>
    match add_obj rib fqn obj_ fuel with
    | none => none
    | some (_, rib1, _) => run_calls fuel rib1 cs
  | rib, rib_call.remove i :: cs => run_calls fuel (remove_obj rib i).2 cs
  | rib, rib_call.remove_fqn f :: cs => run_calls fuel (remove_obj_fqn rib f).2 cs

/-- The four indices agree: the name maps have the same keys, the id maps have the
same keys, name to id and id to name are inverse to each other, and the object found
by a name is the object found by its id. -/
def consistent (rib : RIB) : Prop :=
  (∀ f, (rib.obj_name_map f).isSome ↔ (rib.name_inst_map f).isSome)
    ∧ (∀ i, (rib.obj_inst_map i).isSome ↔ (rib.inst_name_map i).isSome)
    ∧ (∀ f i, rib.name_inst_map f = some i ↔ rib.inst_name_map i = some f)
    ∧ (∀ f i, rib.name_inst_map f = some i → rib.obj_name_map f = rib.obj_inst_map i)

/-- A RIB that holds one object, at the root name and under instance id 1. -/
def rib_with_root : RIB :=
  { obj_name_map := map_set (fun _ => none) [] ⟨100, false⟩
    obj_inst_map := map_set (fun _ => none) 1 ⟨100, false⟩
    inst_name_map := map_set (fun _ => none) 1 []
    name_inst_map := map_set (fun _ => none) [] 1
    deleg_cache := fun _ => none
    separator := '/'
    next_inst_id := 1
    num_of_deleg := 0 }

/-- The instance ids in use are those `get_new_inst_id` may hand out, "strictly > 0"
as the class declaration has it; in particular -1, the answer of `get_obj_inst_id` for
an unknown name, is the id of no object. -/
def ids_positive (rib : RIB) : Prop :=
  ∀ i, (rib.obj_inst_map i).isSome → 1 ≤ i

/-! ## Requests to the RIB

The types of `cdap_rib` are declared outside the sources; they are given here with the
members the RIB reads. What a request makes the RIB do to the outside, calling a
handler of an object or handing a result to the CDAP provider, is recorded in the order
in which it happens. An exception of the provider is caught and logged where the result
is handed over, so it changes nothing of what is recorded. -/

/-- `cdap_rib::SerializedObject`: the size and the bytes pointed to. -/
structure ser_obj_t where
  size_ : Nat
  message_ : Option (List Nat)
  deriving DecidableEq, Repr

/-- `cdap_rib::obj_info_t`. -/
structure obj_info_t where
  name_ : List Char
  class_ : List Char
  inst_ : Int
  value_ : ser_obj_t
  deriving DecidableEq, Repr

/-- `cdap_rib::res_info_t`: the member `result_`. -/
structure res_info_t where
  result_ : Int
  deriving DecidableEq, Repr

/-- A `cdap_rib::flags_t` as a request path leaves it: holding `NONE_FLAGS`, or as its
default constructor made it. -/
inductive flags_t where
  | NONE_FLAGS
  | constructed
  deriving DecidableEq, Repr

/-- `cdap_rib::con_handle_t`: `port_`, `version_.version_` and `dest_.ae_name_`. -/
structure con_handle_t where
  port_ : Int
  version_ : Nat
  dest_ae_name_ : List Char
  deriving DecidableEq, Repr

/-- The seven operations on objects. -/
inductive rib_op where
  | create
  | delete_
  | read
  | cancelRead
  | write
  | start
  | stop
  deriving DecidableEq, Repr

/-- The virtual methods of `RIBObj_` that answer requests. Each is given the object it
is called on and the arguments of the call and gives the result it returns; a method
with an `obj_reply` argument also gives the value it leaves there. -/
structure RIBObj_methods where
  create : RIBObj_ → List Char → List Char → ser_obj_t → ser_obj_t → res_info_t × ser_obj_t
  delete_ : RIBObj_ → List Char → res_info_t
  read : RIBObj_ → List Char → ser_obj_t → res_info_t × ser_obj_t
  cancelRead : RIBObj_ → List Char → res_info_t
  write : RIBObj_ → List Char → ser_obj_t → ser_obj_t → res_info_t × ser_obj_t
  start : RIBObj_ → List Char → ser_obj_t → ser_obj_t → res_info_t × ser_obj_t
  stop : RIBObj_ → List Char → ser_obj_t → ser_obj_t → res_info_t × ser_obj_t

/-- The methods as `RIBObj_` itself defines them: the operation is not supported, the
result is -2 and the reply is left as it was. -/
def RIBObj_base : RIBObj_methods :=
  { create := fun _ _ _ _ obj_reply => (⟨-2⟩, obj_reply)
    delete_ := fun _ _ => ⟨-2⟩
    read := fun _ _ obj_reply => (⟨-2⟩, obj_reply)
    cancelRead := fun _ _ => ⟨-2⟩
    write := fun _ _ _ obj_reply => (⟨-2⟩, obj_reply)
    start := fun _ _ _ obj_reply => (⟨-2⟩, obj_reply)
    stop := fun _ _ _ obj_reply => (⟨-2⟩, obj_reply) }

/-- What a request does to the outside: a handler of `obj` is called with the name, and
where the method has them the class and the value of the request; or a result is handed
to the CDAP provider for `port_`, with the object where the call passes one. -/
inductive event where
  | invoked (op : rib_op) (obj : RIBObj_) (name : List Char) (clas : Option (List Char))
      (obj_req : Option ser_obj_t)
  | sent (op : rib_op) (port_ : Int) (obj : Option obj_info_t) (flags : flags_t)
      (res : res_info_t) (invoke_id : Int)
  deriving DecidableEq, Repr

/-- The reply object every request path sets up: name, class and instance of the
request and an empty value. -/
def empty_reply (obj : obj_info_t) : obj_info_t :=
  { name_ := obj.name_, class_ := obj.class_, inst_ := obj.inst_, value_ := ⟨0, none⟩ }

/-- `RIB::create_request`. -/
def RIB.create_request (H : RIBObj_methods) (rib : RIB) (con : con_handle_t)
    (obj : obj_info_t) (invoke_id : Int) : List event :=
  let flags := flags_t.NONE_FLAGS
  let obj_reply := empty_reply obj
  let id := get_obj_inst_id rib obj.name_
  let rib_obj := if id ≠ 0 then get_obj rib id else none
  let rib_obj :=
    match rib_obj with
    | none => get_obj rib (get_obj_inst_id rib (get_parent_fqn rib obj.name_))
    | some o => some o
  match rib_obj with
  | none => []
  | some o =>
    let r := H.create o obj.name_ obj.class_ obj.value_ obj_reply.value_
    [event.invoked rib_op.create o obj.name_ (some obj.class_) (some obj.value_),
      event.sent rib_op.create con.port_ (some { obj_reply with value_ := r.2 }) flags r.1
        invoke_id]

/-- `RIB::delete_request`. -/
def RIB.delete_request (H : RIBObj_methods) (rib : RIB) (con : con_handle_t)
    (obj : obj_info_t) (invoke_id : Int) : List event :=
  let flags := flags_t.constructed
  let id := get_obj_inst_id rib obj.name_
  match get_obj rib id with
  | some o =>
    let res := H.delete_ o obj.name_
    [event.invoked rib_op.delete_ o obj.name_ none none,
      event.sent rib_op.delete_ con.port_ (some obj) flags res invoke_id]
  | none => []

/-- `RIB::read_request`. -/
def RIB.read_request (H : RIBObj_methods) (rib : RIB) (con : con_handle_t)
    (obj : obj_info_t) (invoke_id : Int) : List event :=
  let flags := flags_t.NONE_FLAGS
  let obj_reply := empty_reply obj
  let id := get_obj_inst_id rib obj.name_
  match get_obj rib id with
  | some o =>
    let r := H.read o obj.name_ obj_reply.value_
    [event.invoked rib_op.read o obj.name_ none none,
      event.sent rib_op.read con.port_ (some { obj_reply with value_ := r.2 }) flags r.1
        invoke_id]
  | none => [event.sent rib_op.read con.port_ (some obj_reply) flags ⟨-1⟩ invoke_id]

/-- `RIB::cancel_read_request`. -/
def RIB.cancel_read_request (H : RIBObj_methods) (rib : RIB) (con : con_handle_t)
    (obj : obj_info_t) (invoke_id : Int) : List event :=
  let flags := flags_t.constructed
  let id := get_obj_inst_id rib obj.name_
  match get_obj rib id with
  | some o =>
    let res := H.cancelRead o obj.name_
    [event.invoked rib_op.cancelRead o obj.name_ none none,
      event.sent rib_op.cancelRead con.port_ none flags res invoke_id]
  | none => [event.sent rib_op.cancelRead con.port_ none flags ⟨-1⟩ invoke_id]

/-- `RIB::write_request`. -/
def RIB.write_request (H : RIBObj_methods) (rib : RIB) (con : con_handle_t)
    (obj : obj_info_t) (invoke_id : Int) : List event :=
  let flags := flags_t.constructed
  let obj_reply := empty_reply obj
  let id := get_obj_inst_id rib obj.name_
  match get_obj rib id with
  | some o =>
    let r := H.write o obj.name_ obj.value_ obj_reply.value_
    [event.invoked rib_op.write o obj.name_ none (some obj.value_),
      event.sent rib_op.write con.port_ none flags r.1 invoke_id]
  | none => [event.sent rib_op.write con.port_ none flags ⟨-1⟩ invoke_id]

/-- `RIB::start_request`. -/
def RIB.start_request (H : RIBObj_methods) (rib : RIB) (con : con_handle_t)
    (obj : obj_info_t) (invoke_id : Int) : List event :=
  let flags := flags_t.constructed
  let obj_reply := empty_reply obj
  let id := get_obj_inst_id rib obj.name_
  match get_obj rib id with
  | some o =>
    let r := H.start o obj.name_ obj.value_ obj_reply.value_
    [event.invoked rib_op.start o obj.name_ none (some obj.value_),
      event.sent rib_op.start con.port_ (some obj) flags r.1 invoke_id]
  | none => [event.sent rib_op.start con.port_ (some obj) flags ⟨-1⟩ invoke_id]

/-- `RIB::stop_request`. -/
def RIB.stop_request (H : RIBObj_methods) (rib : RIB) (con : con_handle_t)
    (obj : obj_info_t) (invoke_id : Int) : List event :=
  let flags := flags_t.constructed
  let obj_reply := empty_reply obj
  let id := get_obj_inst_id rib obj.name_
  match get_obj rib id with
  | some o =>
    let r := H.stop o obj.name_ obj.value_ obj_reply.value_
    [event.invoked rib_op.stop o obj.name_ none (some obj.value_),
      event.sent rib_op.stop con.port_ none flags r.1 invoke_id]
  | none => [event.sent rib_op.stop con.port_ none flags ⟨-1⟩ invoke_id]

/-! ## The RIB daemon

The registry of `class RIBDaemon`. A `RIB*` is given by the address of the object and
what is read through the pointer: the members `handle` and `schema->version_`, both
`const`, and the store. A schema is owned by the version map. Each call gives what it
returns or throws together with the daemon it leaves. -/

/-- How a call of the daemon ends when it does not return: the exception thrown, or
the `assert` that stops the program. -/
inductive raised where
  | eSchemaExists
  | eSchemaNotFound
  | eRIBNotFound
  | eRIBAlreadyAssociated
  | eRIBNotAssociated
  | Exception (what : String)
  | assert_failed
  deriving DecidableEq, Repr

/-- The data members of `class RIBSchema` the daemon and the RIB read. -/
structure RIBSchema where
  version_ : Nat
  separator_ : Char
  refs : Nat
  deriving DecidableEq, Repr

/-- `RIBSchema::inc_ref_count`, on an `unsigned int`. -/
def RIBSchema.inc_ref_count (s : RIBSchema) : RIBSchema :=
  { s with refs := (s.refs + 1) % 4294967296 }

/-- A RIB object as the maps of the daemon point to it. -/
structure rib_object where
  addr : Nat
  handle : Int
  version : Nat
  rib : RIB

/-- The data members of `class RIBDaemon` that make up the registry. -/
structure RIBDaemon where
  handle_rib_map : Int → Option rib_object
  ver_schema_map : Nat → Option RIBSchema
  aeversion_rib_map : List Char × Nat → Option rib_object
  port_id_rib_map : Int → Option rib_object
  next_handle_id : Int

/-- The registry the constructor `RIBDaemon::RIBDaemon` leaves. -/
def RIBDaemon_new : RIBDaemon :=
  { handle_rib_map := fun _ => none
    ver_schema_map := fun _ => none
    aeversion_rib_map := fun _ => none
    port_id_rib_map := fun _ => none
    next_handle_id := 1 }

/-- The loop of `RIBDaemon::get_new_handle`, run for at most `fuel` iterations on the
local `curr` and the member `next_handle_id`: the value returned and `next_handle_id`
at that point, or `none` when the loop is still running. -/
def get_new_handle_loop (handle_rib_map : Int → Option rib_object) :
    Nat → Int → Int → Option (Int × Int)
  | 0, _, _ => none
  | fuel + 1, curr, next_handle_id =>
    let next_handle_id := if next_handle_id < 1 then 1 else next_handle_id
    if curr = next_handle_id then some (-1, next_handle_id)
    else
      let curr := if curr < 0 then next_handle_id else curr
      if (handle_rib_map next_handle_id).isSome then some (next_handle_id, next_handle_id)
      else get_new_handle_loop handle_rib_map fuel curr (int64_incr next_handle_id)

/-- `RIBDaemon::get_new_handle`. -/
def get_new_handle (d : RIBDaemon) (fuel : Nat) : Option (Int × RIBDaemon) :=
  match get_new_handle_loop d.handle_rib_map fuel d.next_handle_id d.next_handle_id with
  | none => none
  | some (handle, next_handle_id) => some (handle, { d with next_handle_id := next_handle_id })

/-- `RIBDaemon::getRIB`. -/
def getRIB (d : RIBDaemon) (handle : Int) : Option rib_object := d.handle_rib_map handle

/-- `RIBDaemon::createSchema`. -/
def RIBDaemon.createSchema (d : RIBDaemon) (version : Nat) (separator : Char) :
    Except raised Unit × RIBDaemon :=
  if (d.ver_schema_map version).isSome then (Except.error raised.eSchemaExists, d)
  else
    (Except.ok (),
      { d with ver_schema_map := map_set d.ver_schema_map version ⟨version, separator, 0⟩ })

/-- `RIBDaemon::createRIB`. The object `new RIB` makes is at `addr`; its members
`next_inst_id` and `num_of_deleg`, which the constructor does not assign, are given.
The result is `none` when `get_new_handle` is still running after `fuel` iterations. -/
def RIBDaemon.createRIB (d : RIBDaemon) (version : Nat) (fuel : Nat) (addr : Nat)
    (next_inst_id : Int) (num_of_deleg : Nat) : Option (Except raised Int × RIBDaemon) :=
  match d.ver_schema_map version with
  | none => some (Except.error raised.eSchemaNotFound, d)
  | some schema =>
    match get_new_handle d fuel with
    | none => none
    | some (handle, d) =>
      if handle < 0 then some (Except.error (raised.Exception "Invalid RIB handle"), d)
      else
        let rib : rib_object :=
          ⟨addr, handle, schema.version_, RIB_new schema.separator_ next_inst_id num_of_deleg⟩
        some (Except.ok handle,
          { d with
            handle_rib_map := map_set d.handle_rib_map handle rib
            ver_schema_map := map_set d.ver_schema_map version schema.inc_ref_count })

/-- `RIBDaemon::get`. -/
def RIBDaemon.get (d : RIBDaemon) (ver : Nat) (ae_name : List Char) : Except raised Int :=
  match d.aeversion_rib_map (ae_name, ver) with
  | none => Except.error raised.eRIBNotFound
  | some rib => Except.ok rib.handle

/-- `RIBDaemon::associateRIBtoAE`. -/
def RIBDaemon.associateRIBtoAE (d : RIBDaemon) (handle : Int) (ae_name : List Char) :
    Except raised Unit × RIBDaemon :=
  match getRIB d handle with
  | none => (Except.error raised.eRIBNotFound, d)
  | some rib =>
    let key := (ae_name, rib.version)
    if (d.aeversion_rib_map key).isSome then (Except.error raised.eRIBAlreadyAssociated, d)
    else (Except.ok (), { d with aeversion_rib_map := map_set d.aeversion_rib_map key rib })

/-- `RIBDaemon::getByPortId`. -/
def getByPortId (d : RIBDaemon) (port_id : Int) : Option rib_object :=
  d.port_id_rib_map port_id

/-- `RIBDaemon::deassociateRIBfromAE`. -/
def RIBDaemon.deassociateRIBfromAE (d : RIBDaemon) (handle : Int) (ae_name : List Char) :
    Except raised Unit × RIBDaemon :=
  match getRIB d handle with
  | none => (Except.error raised.eRIBNotFound, d)
  | some rib =>
    let key := (ae_name, rib.version)
    if (d.aeversion_rib_map key).isNone then (Except.error raised.eRIBNotAssociated, d)
    else (Except.ok (), { d with aeversion_rib_map := map_erase d.aeversion_rib_map key })

/-- `RIBDaemon::store_connection`. -/
def RIBDaemon.store_connection (d : RIBDaemon) (con : con_handle_t) :
    Except raised Unit × RIBDaemon :=
  let key := (con.dest_ae_name_, con.version_)
  match d.aeversion_rib_map key with
  | none => (Except.error raised.eRIBNotFound, d)
  | some rib =>
    if (d.port_id_rib_map con.port_).isSome then (Except.error raised.assert_failed, d)
    else (Except.ok (), { d with port_id_rib_map := map_set d.port_id_rib_map con.port_ rib })

/-- `RIBDaemon::remove_connection`. -/
def RIBDaemon.remove_connection (d : RIBDaemon) (con : con_handle_t) :
    Except raised Unit × RIBDaemon :=
  match getByPortId d con.port_ with
  | none => (Except.error raised.assert_failed, d)
  | some _ => (Except.ok (), { d with port_id_rib_map := map_erase d.port_id_rib_map con.port_ })

/-- `RIBDaemon::create_request`. -/
def RIBDaemon.create_request (H : RIBObj_methods) (d : RIBDaemon) (con : con_handle_t)
    (obj : obj_info_t) (invoke_id : Int) : List event × RIBDaemon :=
  match getByPortId d con.port_ with
  | none =>
    ([event.sent rib_op.create con.port_ (some obj) flags_t.constructed ⟨-1⟩ invoke_id], d)
  | some rib => (RIB.create_request H rib.rib con obj invoke_id, d)

/-- `RIBDaemon::delete_request`. -/
def RIBDaemon.delete_request (H : RIBObj_methods) (d : RIBDaemon) (con : con_handle_t)
    (obj : obj_info_t) (invoke_id : Int) : List event × RIBDaemon :=
  match getByPortId d con.port_ with
  | none =>
    ([event.sent rib_op.delete_ con.port_ (some obj) flags_t.constructed ⟨-1⟩ invoke_id], d)
  | some rib => (RIB.delete_request H rib.rib con obj invoke_id, d)

/-- `RIBDaemon::read_request`. -/
def RIBDaemon.read_request (H : RIBObj_methods) (d : RIBDaemon) (con : con_handle_t)
    (obj : obj_info_t) (invoke_id : Int) : List event × RIBDaemon :=
  match getByPortId d con.port_ with
  | none =>
    ([event.sent rib_op.read con.port_ (some obj) flags_t.constructed ⟨-1⟩ invoke_id], d)
  | some rib => (RIB.read_request H rib.rib con obj invoke_id, d)

/-- `RIBDaemon::cancel_read_request`. -/
def RIBDaemon.cancel_read_request (H : RIBObj_methods) (d : RIBDaemon) (con : con_handle_t)
    (obj : obj_info_t) (invoke_id : Int) : List event × RIBDaemon :=
  match getByPortId d con.port_ with
  | none =>
    ([event.sent rib_op.cancelRead con.port_ none flags_t.constructed ⟨-1⟩ invoke_id], d)
  | some rib => (RIB.cancel_read_request H rib.rib con obj invoke_id, d)

/-- `RIBDaemon::write_request`. -/
def RIBDaemon.write_request (H : RIBObj_methods) (d : RIBDaemon) (con : con_handle_t)
    (obj : obj_info_t) (invoke_id : Int) : List event × RIBDaemon :=
  match getByPortId d con.port_ with
  | none =>
    ([event.sent rib_op.write con.port_ none flags_t.constructed ⟨-1⟩ invoke_id], d)
  | some rib => (RIB.write_request H rib.rib con obj invoke_id, d)

/-- `RIBDaemon::start_request`. -/
def RIBDaemon.start_request (H : RIBObj_methods) (d : RIBDaemon) (con : con_handle_t)
    (obj : obj_info_t) (invoke_id : Int) : List event × RIBDaemon :=
  match getByPortId d con.port_ with
  | none =>
    ([event.sent rib_op.start con.port_ (some obj) flags_t.constructed ⟨-1⟩ invoke_id], d)
  | some rib => (RIB.start_request H rib.rib con obj invoke_id, d)

/-- `RIBDaemon::stop_request`. -/
def RIBDaemon.stop_request (H : RIBObj_methods) (d : RIBDaemon) (con : con_handle_t)
    (obj : obj_info_t) (invoke_id : Int) : List event × RIBDaemon :=
  match getByPortId d con.port_ with
  | none =>
    ([event.sent rib_op.stop con.port_ none flags_t.constructed ⟨-1⟩ invoke_id], d)
  | some rib => (RIB.stop_request H rib.rib con obj invoke_id, d)

/-- Every RIB of the handle map carries the handle it is stored under, as `createRIB`
makes it. -/
def handles_agree (d : RIBDaemon) : Prop :=
  ∀ h rib, d.handle_rib_map h = some rib → rib.handle = h

/-! ## Names as strings

`rina_sername_valid`, `rina_name_to_string`, `rina_name_from_string` and
`rina_name_valid` of `src/common/serdes-utils.c`. The character ':' is the byte 58. -/

/-- `COMMON_STRDUP`: a copy of the string, or a null pointer when the allocation
fails. -/
def COMMON_STRDUP (s : List Nat) (h : Nat → Bool) : Option (List Nat) × (Nat → Bool) :=
  match COMMON_ALLOC h with
  | (true, h) => (some s, h)
  | (false, h) => (none, h)

/-- The loop of `rina_sername_valid` from the character `str` points to, with the
colons counted so far: `false` when it leaves through `return 0`, `true` when it reaches
the end of the string. -/
def rina_sername_valid_loop : List Nat → Nat → Bool
  | [], _ => true
  | c :: str, cnt =>
    if c = 58 then
      if cnt + 1 > 3 then false else rina_sername_valid_loop str (cnt + 1)
    else rina_sername_valid_loop str cnt

/-- `rina_sername_valid`. -/
def rina_sername_valid (str : Option (List Nat)) : Int :=
  match str with
  | none => 0
  | some s =>
    if s.length = 0 then 0
    else if rina_sername_valid_loop s 0 then (if s.head? = some 58 then 0 else 1)
    else 0

/-- What `strsep` finds in a string: the token before the first delimiter, and the
rest after that delimiter, or no rest when the string holds no delimiter. -/
def strsep_scan (delim : Nat) : List Nat → List Nat × Option (List Nat)
  | [] => ([], none)
  | c :: s =>
    if c = delim then ([], some s)
    else ((c :: (strsep_scan delim s).1), (strsep_scan delim s).2)

/-- `strsep(strp, ":")` with a single delimiter: the token returned and `*strp`
afterwards; both are null when `*strp` is null. -/
def strsep (strp : Option (List Nat)) (delim : Nat) : Option (List Nat) × Option (List Nat) :=
  match strp with
  | none => (none, none)
  | some s => (some (strsep_scan delim s).1, (strsep_scan delim s).2)

/-- One field of `__rina_name_fill`: `(s && strlen(s)) ? COMMON_STRDUP(s) : NULL`. -/
def fill_field (s : Option (List Nat)) (h : Nat → Bool) : Option (List Nat) × (Nat → Bool) :=
  match s with
  | none => (none, h)
  | some l => if l.length ≠ 0 then COMMON_STRDUP l h else (none, h)

/-- The test of `__rina_name_fill` on one field: a copy was asked for and is
missing. -/
def fill_failed (s : Option (List Nat)) (field : Option (List Nat)) : Bool :=
  match s with
  | none => false
  | some l => decide (l.length ≠ 0) && field.isNone

/-- `__rina_name_fill` on a `name` that is not null: the value returned, the name
afterwards, which is `none` once `rina_name_free` has released it, and the heap. -/
def __rina_name_fill (apn api aen aei : Option (List Nat)) (h : Nat → Bool) :
    Int × Option name × (Nat → Bool) :=
  let (process_name, h) := fill_field apn h
  let (process_instance, h) := fill_field api h
  let (entity_name, h) := fill_field aen h
  let (entity_instance, h) := fill_field aei h
  if fill_failed apn process_name || fill_failed api process_instance
      || fill_failed aen entity_name || fill_failed aei entity_instance then
    (-1, none, h)
  else (0, some ⟨process_name, process_instance, entity_name, entity_instance⟩, h)

/-- `__rina_name_from_string`: the value returned, `*name` afterwards, which is `none`
once `rina_name_free` has released it, and the heap. The value `__rina_name_fill`
returns is not looked at. -/
def __rina_name_from_string (str : List Nat) (h : Nat → Bool) :
    Int × Option name × (Nat → Bool) :=
  match COMMON_STRDUP str h with
  | (none, h) => (-1, some name_zero, h)
  | (some strc, h) =>
    let (apn, strp) := strsep (some strc) 58
    let (api, strp) := strsep strp 58
    let (aen, strp) := strsep strp 58
    let (aei, _) := strsep strp 58
    match apn with
    | none => (-1, some name_zero, h)
    | some _ =>
      let r := __rina_name_fill apn api aen aei h
      (0, r.2.1, r.2.2)

/-- `rina_name_from_string`. -/
def rina_name_from_string (str : List Nat) (h : Nat → Bool) :
    Int × Option name × (Nat → Bool) :=
  __rina_name_from_string str h

/-- `strlen` of a field stored in an `unsigned int`, 0 for a null field. -/
def field_len (s : Option (List Nat)) : Nat :=
  match s with
  | some l => l.length % 4294967296
  | none => 0

/-- `__rina_name_to_string`: the string returned, null for a null name or a failed
allocation, and the heap. The size asked of `COMMON_ALLOC` is computed in
`unsigned int`; when what is written does not fit it, the writes run past the
allocation. -/
def __rina_name_to_string (n : Option name) (h : Nat → Bool) :
    Except fault (Option (List Nat) × (Nat → Bool)) :=
  match n with
  | none => Except.ok (none, h)
  | some n =>
    let apn_len := field_len n.process_name
    let api_len := field_len n.process_instance
    let aen_len := field_len n.entity_name
    let aei_len := field_len n.entity_instance
    let size := (apn_len + 1 + api_len + 1 + aen_len + 1 + aei_len + 1) % 4294967296
    match COMMON_ALLOC h with
    | (false, h) => Except.ok (none, h)
    | (true, h) =>
      let written := (n.process_name.getD []).take apn_len ++ [58]
        ++ (n.process_instance.getD []).take api_len ++ [58]
        ++ (n.entity_name.getD []).take aen_len ++ [58]
        ++ (n.entity_instance.getD []).take aei_len ++ [0]
      if written.length > size then Except.error fault.alloc_overrun
      else Except.ok (some (cstr written), h)

/-- `rina_name_to_string`. -/
def rina_name_to_string (n : Option name) (h : Nat → Bool) :
    Except fault (Option (List Nat) × (Nat → Bool)) :=
  __rina_name_to_string n h

/-- `rina_name_valid`. -/
def rina_name_valid (n : Option name) : Int :=
  match n with
  | none => 0
  | some n =>
    match n.process_name with
    | none => 0
    | some s => if s.length = 0 then 0 else 1

/-- Field number `i` of a string as the specification words it: the `i`-th of the
parts the string falls into at its ':' characters, absent when there is no such part or
the part is empty. -/
def delimited_field (str : List Nat) (i : Nat) : Option (List Nat) :=
  match (str.splitOn 58)[i]? with
  | none => none
  | some f => if f = [] then none else some f

/-- The four fields joined by three ':' characters, an absent field contributing
nothing, as the specification words it. -/
def joined_fields (n : name) : List Nat :=
  n.process_name.getD [] ++ [58] ++ n.process_instance.getD [] ++ [58]
    ++ n.entity_name.getD [] ++ [58] ++ n.entity_instance.getD []

/-- A field is either absent in both names or present in both with the same
contents. -/
def same_field (a b : Option (List Nat)) : Prop :=
  (a = none ∧ b = none) ∨ ∃ x, a = some x ∧ b = some x

instance (a b : Option (List Nat)) : Decidable (same_field a b) :=
  decidable_of_iff (a = b) (by
    cases a <;> cases b <;> simp [same_field]
    exact eq_comm)

/-- A field of a name as C37 takes it: absent, or a non-empty C string without ':'. -/
def plain_field (s : Option (List Nat)) : Prop :=
  ∀ l, s = some l → l ≠ [] ∧ cstr_ok l ∧ 58 ∉ l

/-! ## The class map of a RIB schema

`RIBSchema::ribSchemaDefContRelation` of `src/librina/src/rib_v2.cc` reads and writes one
member of the schema, the map `rib_schema_` from class names to schema objects. The
constructor of the schema does not name it, which leaves it empty. -/

/-- `RIBSchemaObject`, as its constructor fills it. -/
structure RIBSchemaObject where
  class_name_ : List Char
  mandatory_ : Bool
  max_objs_ : Nat
  deriving DecidableEq, Repr

/-- The two values of `rib_schema_res` the function returns. -/
inductive rib_schema_res where
  | RIB_SUCCESS
  | RIB_SCHEMA_FORMAT_ERR
  deriving DecidableEq, Repr

/-- The member `rib_schema_` as `RIBSchema::RIBSchema` leaves it. -/
def rib_schema_new : List Char → Option RIBSchemaObject := fun _ => none

/-- `RIBSchema::ribSchemaDefContRelation`: the value returned and `rib_schema_`
afterwards. `insert` adds the pair only when the key is not in the map. -/
def ribSchemaDefContRelation (rib_schema_ : List Char → Option RIBSchemaObject)
    (cont_class_name class_name : List Char) (mandatory : Bool) (max_objs : Nat) :
    rib_schema_res × (List Char → Option RIBSchemaObject) :=
  let object : RIBSchemaObject := ⟨class_name, mandatory, max_objs⟩
  match rib_schema_ cont_class_name with
  | none => (rib_schema_res.RIB_SCHEMA_FORMAT_ERR, rib_schema_)
  | some _ =>
    if (rib_schema_ class_name).isNone then
      (rib_schema_res.RIB_SUCCESS, map_set rib_schema_ class_name object)
    else (rib_schema_res.RIB_SCHEMA_FORMAT_ERR, rib_schema_)

/-- The arguments of one call of `ribSchemaDefContRelation`. -/
structure relation_call where
  cont_class_name : List Char
  class_name : List Char
  mandatory : Bool
  max_objs : Nat
  deriving DecidableEq, Repr

/-- A sequence of calls of `ribSchemaDefContRelation`: the values returned, in order,
and `rib_schema_` after the last call. -/
def run_relations (rib_schema_ : List Char → Option RIBSchemaObject) :
    List relation_call → List rib_schema_res × (List Char → Option RIBSchemaObject)
  | [] => ([], rib_schema_)
  | c :: cs =>
    let r := ribSchemaDefContRelation rib_schema_ c.cont_class_name c.class_name c.mandatory
      c.max_objs
    ((r.1 :: (run_relations r.2 cs).1), (run_relations r.2 cs).2)

/-! ## The IPC manager: results of flow allocation requests

`ipcm_allocate_flow_request_result_handler` of
`src/rinad/src/ipcm/flow-allocation.cc`. The classes it works on are declared outside
the sources; they are given with the members the handler touches. Messages written to
`cerr` and `cout` are not part of the embedding. -/

/-- `rina::FlowRequestEvent`: the port id and the two application names. -/
structure FlowRequestEvent where
  portId : Int
  localApplicationName : List Char
  remoteApplicationName : List Char
  deriving DecidableEq, Repr

/-- `PendingFlowAllocation`, as its constructor is called: the IPC process serving the
request, given by its address, the request, and whether a DIF was specified. -/
structure PendingFlowAllocation where
  slave_ipcp : Nat
  req_event : FlowRequestEvent
  dif_specified : Bool
  deriving DecidableEq, Repr

/-- `rina::IpcmAllocateFlowRequestResultEvent`. -/
structure IpcmAllocateFlowRequestResultEvent where
  sequenceNumber : Nat
  result : Int
  portId : Int
  deriving DecidableEq, Repr

/-- The member `pending_flow_allocations` of `IPCManager`. -/
structure IPCManager where
  pending_flow_allocations : Nat → Option PendingFlowAllocation

/-- A call the handler makes to the outside: `allocateFlowResult` on the slave IPC
process, or `flowAllocated` on the application manager. -/
inductive ipcm_call where
  | allocateFlowResult (slave_ipcp : Nat) (sequenceNumber : Nat) (success : Bool)
      (portId : Int)
  | flowAllocated (req_event : FlowRequestEvent)
  deriving DecidableEq, Repr

/-- `ipcm_allocate_flow_request_result_handler`: the calls made, in order, and the IPC
manager afterwards. `raises` tells whether `allocateFlowResult` throws
`AllocateFlowException`; a `NotifyFlowAllocatedException` of `flowAllocated` is caught
and changes nothing. -/
def ipcm_allocate_flow_request_result_handler (raises : Bool)
    (event : IpcmAllocateFlowRequestResultEvent) (ipcm : IPCManager) :
    List ipcm_call × IPCManager :=
  let success := decide (event.result = 0)
  match ipcm.pending_flow_allocations event.sequenceNumber with
  | none => ([], ipcm)
  | some mit =>
    let slave_ipcp := mit.slave_ipcp
    let req_event := { mit.req_event with portId := -1 }
    let req_event :=
      if raises then req_event
      else if success then { req_event with portId := event.portId }
      else req_event
    ([ipcm_call.allocateFlowResult slave_ipcp event.sequenceNumber success event.portId,
        ipcm_call.flowAllocated req_event],
      { ipcm with
        pending_flow_allocations :=
          map_erase ipcm.pending_flow_allocations event.sequenceNumber })

/-! ## Flow specifications and QoS cubes of librina

`FlowSpecification` and `QoSCube` of `src/librina/src/librina-common.cc`. A `double` is
kept as the value that was stored, no arithmetic is done on it. -/

/-- A `double`, given by its bit pattern; the pattern 0 is the value 0. -/
structure double where
  bits : Nat
  deriving DecidableEq, Repr

/-- The data members of `FlowSpecification`. -/
structure FlowSpecification where
  averageSDUBandwidth : Nat
  averageBandwidth : Nat
  peakBandwidthDuration : Nat
  peakSDUBandwidthDuration : Nat
  undetectedBitErrorRate : double
  partialDelivery : Bool
  orderedDelivery : Bool
  maxAllowableGap : Int
  jitter : Nat
  delay : Nat
  maxSDUsize : Nat
  deriving DecidableEq, Repr

/-- `FlowSpecification::FlowSpecification`. -/
def FlowSpecification_new : FlowSpecification :=
  { averageSDUBandwidth := 0
    averageBandwidth := 0
    peakBandwidthDuration := 0
    peakSDUBandwidthDuration := 0
    undetectedBitErrorRate := ⟨0⟩
    partialDelivery := true
    orderedDelivery := false
    maxAllowableGap := -1
    jitter := 0
    delay := 0
    maxSDUsize := 0 }

/-- `FlowSpecification::getAverageBandwidth`. -/
def FlowSpecification.getAverageBandwidth (f : FlowSpecification) : Nat := f.averageBandwidth

/-- `FlowSpecification::setAverageBandwidth`. -/
def FlowSpecification.setAverageBandwidth (f : FlowSpecification) (averageBandwidth : Nat) :
    FlowSpecification := { f with averageBandwidth := averageBandwidth }

/-- `FlowSpecification::getAverageSduBandwidth`. -/
def FlowSpecification.getAverageSduBandwidth (f : FlowSpecification) : Nat :=
  f.averageSDUBandwidth

/-- `FlowSpecification::setAverageSduBandwidth`. -/
def FlowSpecification.setAverageSduBandwidth (f : FlowSpecification)
    (averageSduBandwidth : Nat) : FlowSpecification :=
  { f with averageSDUBandwidth := averageSduBandwidth }

/-- `FlowSpecification::getDelay`. -/
def FlowSpecification.getDelay (f : FlowSpecification) : Nat := f.delay

/-- `FlowSpecification::setDelay`. -/
def FlowSpecification.setDelay (f : FlowSpecification) (delay : Nat) : FlowSpecification :=
  { f with delay := delay }

/-- `FlowSpecification::getJitter`. -/
def FlowSpecification.getJitter (f : FlowSpecification) : Nat := f.jitter

/-- `FlowSpecification::setJitter`. -/
def FlowSpecification.setJitter (f : FlowSpecification) (jitter : Nat) : FlowSpecification :=
  { f with jitter := jitter }

/-- `FlowSpecification::getMaxAllowableGap`. -/
def FlowSpecification.getMaxAllowableGap (f : FlowSpecification) : Int := f.maxAllowableGap

/-- `FlowSpecification::setMaxAllowableGap`. -/
def FlowSpecification.setMaxAllowableGap (f : FlowSpecification) (maxAllowableGap : Int) :
    FlowSpecification := { f with maxAllowableGap := maxAllowableGap }

/-- `FlowSpecification::getMaxSDUSize`. -/
def FlowSpecification.getMaxSDUSize (f : FlowSpecification) : Nat := f.maxSDUsize

/-- `FlowSpecification::setMaxSDUSize`. -/
def FlowSpecification.setMaxSDUSize (f : FlowSpecification) (maxSduSize : Nat) :
    FlowSpecification := { f with maxSDUsize := maxSduSize }

/-- `FlowSpecification::isOrderedDelivery`. -/
def FlowSpecification.isOrderedDelivery (f : FlowSpecification) : Bool := f.orderedDelivery

/-- `FlowSpecification::setOrderedDelivery`. -/
def FlowSpecification.setOrderedDelivery (f : FlowSpecification) (orderedDelivery : Bool) :
    FlowSpecification := { f with orderedDelivery := orderedDelivery }

/-- `FlowSpecification::isPartialDelivery`. -/
def FlowSpecification.isPartialDelivery (f : FlowSpecification) : Bool := f.partialDelivery

/-- `FlowSpecification::setPartialDelivery`. -/
def FlowSpecification.setPartialDelivery (f : FlowSpecification) (partialDelivery : Bool) :
    FlowSpecification := { f with partialDelivery := partialDelivery }

/-- `FlowSpecification::getPeakBandwidthDuration`. -/
def FlowSpecification.getPeakBandwidthDuration (f : FlowSpecification) : Nat :=
  f.peakBandwidthDuration

/-- `FlowSpecification::setPeakBandwidthDuration`. -/
def FlowSpecification.setPeakBandwidthDuration (f : FlowSpecification)
    (peakBandwidthDuration : Nat) : FlowSpecification :=
  { f with peakBandwidthDuration := peakBandwidthDuration }

/-- `FlowSpecification::getPeakSduBandwidthDuration`. -/
def FlowSpecification.getPeakSduBandwidthDuration (f : FlowSpecification) : Nat :=
  f.peakSDUBandwidthDuration

/-- `FlowSpecification::setPeakSduBandwidthDuration`. -/
def FlowSpecification.setPeakSduBandwidthDuration (f : FlowSpecification)
    (peakSduBandwidthDuration : Nat) : FlowSpecification :=
  { f with peakSDUBandwidthDuration := peakSduBandwidthDuration }

/-- The data members of `QoSCube`. -/
structure QoSCube where
  name : List Char
  id : Int
  averageBandwidth : Nat
  averageSDUBandwidth : Nat
  peakBandwidthDuration : Nat
  peakSDUBandwidthDuration : Nat
  undetectedBitErrorRate : double
  partialDelivery : Bool
  orderedDelivery : Bool
  maxAllowableGap : Int
  jitter : Nat
  delay : Nat
  deriving DecidableEq, Repr

/-- `QoSCube::QoSCube`. -/
def QoSCube_new (name : List Char) (id : Int) : QoSCube :=
  { name := name
    id := id
    averageBandwidth := 0
    averageSDUBandwidth := 0
    peakBandwidthDuration := 0
    peakSDUBandwidthDuration := 0
    undetectedBitErrorRate := ⟨0⟩
    partialDelivery := true
    orderedDelivery := false
    maxAllowableGap := -1
    jitter := 0
    delay := 0 }

/-- `QoSCube::getAverageBandwidth`. -/
def QoSCube.getAverageBandwidth (q : QoSCube) : Nat := q.averageBandwidth

/-- `QoSCube::setAverageBandwidth`. -/
def QoSCube.setAverageBandwidth (q : QoSCube) (averageBandwidth : Nat) : QoSCube :=
  { q with averageBandwidth := averageBandwidth }

/-- `QoSCube::getAverageSduBandwidth`. -/
def QoSCube.getAverageSduBandwidth (q : QoSCube) : Nat := q.averageSDUBandwidth

/-- `QoSCube::setAverageSduBandwidth`. -/
def QoSCube.setAverageSduBandwidth (q : QoSCube) (averageSduBandwidth : Nat) : QoSCube :=
  { q with averageSDUBandwidth := averageSduBandwidth }

/-- `QoSCube::getDelay`, whose body is `return this->getDelay();`: what the call
returns within `fuel` nested calls, `none` when it is still calling itself then. -/
def QoSCube.getDelay (q : QoSCube) : Nat → Option Nat
  | 0 => none
  | fuel + 1 => QoSCube.getDelay q fuel

/-- `QoSCube::setDelay`. -/
def QoSCube.setDelay (q : QoSCube) (delay : Nat) : QoSCube := { q with delay := delay }

/-- `QoSCube::getJitter`. -/
def QoSCube.getJitter (q : QoSCube) : Nat := q.jitter

/-- `QoSCube::setJitter`. -/
def QoSCube.setJitter (q : QoSCube) (jitter : Nat) : QoSCube := { q with jitter := jitter }

/-- `QoSCube::getMaxAllowableGap`. -/
def QoSCube.getMaxAllowableGap (q : QoSCube) : Int := q.maxAllowableGap

/-- `QoSCube::setMaxAllowableGap`. -/
def QoSCube.setMaxAllowableGap (q : QoSCube) (maxAllowableGap : Int) : QoSCube :=
  { q with maxAllowableGap := maxAllowableGap }

/-- `QoSCube::isOrderedDelivery`. -/
def QoSCube.isOrderedDelivery (q : QoSCube) : Bool := q.orderedDelivery

/-- `QoSCube::setOrderedDelivery`. -/
def QoSCube.setOrderedDelivery (q : QoSCube) (orderedDelivery : Bool) : QoSCube :=
  { q with orderedDelivery := orderedDelivery }

/-- `QoSCube::isPartialDelivery`. -/
def QoSCube.isPartialDelivery (q : QoSCube) : Bool := q.partialDelivery

/-- `QoSCube::setPartialDelivery`. -/
def QoSCube.setPartialDelivery (q : QoSCube) (partialDelivery : Bool) : QoSCube :=
  { q with partialDelivery := partialDelivery }

/-- `QoSCube::getPeakBandwidthDuration`. -/
def QoSCube.getPeakBandwidthDuration (q : QoSCube) : Nat := q.peakBandwidthDuration

/-- `QoSCube::setPeakBandwidthDuration`. -/
def QoSCube.setPeakBandwidthDuration (q : QoSCube) (peakBandwidthDuration : Nat) : QoSCube :=
  { q with peakBandwidthDuration := peakBandwidthDuration }

/-- `QoSCube::getPeakSduBandwidthDuration`. -/
def QoSCube.getPeakSduBandwidthDuration (q : QoSCube) : Nat := q.peakSDUBandwidthDuration

/-- `QoSCube::setPeakSduBandwidthDuration`. -/
def QoSCube.setPeakSduBandwidthDuration (q : QoSCube) (peakSduBandwidthDuration : Nat) :
    QoSCube := { q with peakSDUBandwidthDuration := peakSduBandwidthDuration }

/-! ## The flow allocator instance

`src/rinad/src/ipcp/flow-allocator.h` declares `Flow`, `FlowAllocatorInstance` and
`TearDownFlowTimerTask`; the file that defines their methods is not among the sources.
The states and the data members are those of the header, the transitions are those of
section 4.5 of the specification. -/

/-- `FlowAllocatorInstance::FAIState`. -/
inductive FAIState where
  | NO_STATE
  | CONNECTION_CREATE_REQUESTED
  | MESSAGE_TO_PEER_FAI_SENT
  | APP_NOTIFIED_OF_INCOMING_FLOW
  | CONNECTION_UPDATE_REQUESTED
  | FLOW_ALLOCATED
  | CONNECTION_DESTROY_REQUESTED
  | WAITING_2_MPL_BEFORE_TEARING_DOWN
  | FINISHED
  deriving DecidableEq, Repr

/-- The two members of `Flow` that count the create requests. -/
structure Flow where
  max_create_flow_retries_ : Nat
  create_flow_retries_ : Nat
  deriving DecidableEq, Repr

/-- The members `state_`, `flow_` and `port_id_` of `FlowAllocatorInstance`. -/
structure FlowAllocatorInstance where
  state_ : FAIState
  flow_ : Flow
  port_id_ : Int
  deriving DecidableEq, Repr

/-- What happens to an instance: a call of one of its methods, the completion of the
connection destroy it asked for, or the run of its `TearDownFlowTimerTask`. -/
inductive fai_call where
  | submitAllocateRequest
  | processCreateConnectionResponseEvent
  | createResponse (positive : Bool)
  | processCreateConnectionResultEvent
  | processUpdateConnectionResponseEvent
  | createFlowRequestMessageReceived
  | submitAllocateResponse (accepted : Bool)
  | submitDeallocate
  | deleteFlowRequestMessageReceived
  | connection_destroyed
  | TearDownFlowTimerTask_run
  deriving DecidableEq, Repr

/-- What an instance does to the outside. -/
inductive fai_action where
  | connection_create_requested
  | create_request_sent
  | create_timer_reset
  | app_notified_of_incoming_flow
  | connection_update_requested
  | app_notified_flow_allocated
  | allocation_failure_notified
  | connection_destroy_requested
  | teardown_timer_scheduled
  | port_id_released (port_id : Int)
  | removed_from_flow_allocator (port_id : Int)
  deriving DecidableEq, Repr

/-- Modelled from the spec: the methods of `FlowAllocatorInstance` and
`TearDownFlowTimerTask::run`, which are declared in `flow-allocator.h` and defined in a
file that is not among the sources. One step of the state machine of section 4.5: the
requestor path from `NO_STATE` to `FLOW_ALLOCATED`, the recipient path, the teardown,
and the answer to a negative create response, which is a new create request with the
timer reset when the retry policy authorises it and `create_flow_retries_` is below
`max_create_flow_retries_`, and the terminal failure notified to the application
otherwise. A call the section does not describe for the state the instance is in
changes nothing. -/
def fai_step (AllocateRetryPolicy : Flow → Bool) (fai : FlowAllocatorInstance) :
    fai_call → FlowAllocatorInstance × List fai_action
  | fai_call.submitAllocateRequest =>
    if fai.state_ = FAIState.NO_STATE then
      ({ fai with state_ := FAIState.CONNECTION_CREATE_REQUESTED },
        [fai_action.connection_create_requested])
    else (fai, [])
  | fai_call.processCreateConnectionResponseEvent =>
    if fai.state_ = FAIState.CONNECTION_CREATE_REQUESTED then
      ({ fai with state_ := FAIState.MESSAGE_TO_PEER_FAI_SENT },
        [fai_action.create_request_sent])
    else (fai, [])
  | fai_call.createResponse true =>
    if fai.state_ = FAIState.MESSAGE_TO_PEER_FAI_SENT then
      ({ fai with state_ := FAIState.CONNECTION_UPDATE_REQUESTED },
        [fai_action.connection_update_requested])
    else (fai, [])
  | fai_call.createResponse false =>
    if fai.state_ = FAIState.MESSAGE_TO_PEER_FAI_SENT then
      if AllocateRetryPolicy fai.flow_
          ∧ fai.flow_.create_flow_retries_ < fai.flow_.max_create_flow_retries_ then
        ({ fai with
            flow_ := { fai.flow_ with
              create_flow_retries_ := fai.flow_.create_flow_retries_ + 1 } },
          [fai_action.create_request_sent, fai_action.create_timer_reset])
      else
        ({ fai with state_ := FAIState.FINISHED }, [fai_action.allocation_failure_notified])
    else (fai, [])
  | fai_call.processCreateConnectionResultEvent =>
    if fai.state_ = FAIState.CONNECTION_UPDATE_REQUESTED then
      ({ fai with state_ := FAIState.FLOW_ALLOCATED },
        [fai_action.app_notified_flow_allocated])
    else (fai, [])
  | fai_call.processUpdateConnectionResponseEvent =>
    if fai.state_ = FAIState.CONNECTION_UPDATE_REQUESTED then
      ({ fai with state_ := FAIState.FLOW_ALLOCATED },
        [fai_action.app_notified_flow_allocated])
    else (fai, [])
  | fai_call.createFlowRequestMessageReceived =>
    if fai.state_ = FAIState.NO_STATE then
      ({ fai with state_ := FAIState.APP_NOTIFIED_OF_INCOMING_FLOW },
        [fai_action.app_notified_of_incoming_flow])
    else (fai, [])
  | fai_call.submitAllocateResponse true =>
    if fai.state_ = FAIState.APP_NOTIFIED_OF_INCOMING_FLOW then
      ({ fai with state_ := FAIState.CONNECTION_UPDATE_REQUESTED },
        [fai_action.connection_update_requested])
    else (fai, [])
  | fai_call.submitAllocateResponse false =>
    if fai.state_ = FAIState.APP_NOTIFIED_OF_INCOMING_FLOW then
      ({ fai with state_ := FAIState.FINISHED }, [])
    else (fai, [])
  | fai_call.submitDeallocate =>
    if fai.state_ = FAIState.FLOW_ALLOCATED then
      ({ fai with state_ := FAIState.CONNECTION_DESTROY_REQUESTED },
        [fai_action.connection_destroy_requested])
    else (fai, [])
  | fai_call.deleteFlowRequestMessageReceived =>
    if fai.state_ = FAIState.FLOW_ALLOCATED then
      ({ fai with state_ := FAIState.CONNECTION_DESTROY_REQUESTED },
        [fai_action.connection_destroy_requested])
    else (fai, [])
  | fai_call.connection_destroyed =>
    if fai.state_ = FAIState.CONNECTION_DESTROY_REQUESTED then
      ({ fai with state_ := FAIState.WAITING_2_MPL_BEFORE_TEARING_DOWN },
        [fai_action.teardown_timer_scheduled])
    else (fai, [])
  | fai_call.TearDownFlowTimerTask_run =>
    if fai.state_ = FAIState.WAITING_2_MPL_BEFORE_TEARING_DOWN then
      ({ fai with state_ := FAIState.FINISHED },
        [fai_action.port_id_released fai.port_id_,
          fai_action.removed_from_flow_allocator fai.port_id_])
    else (fai, [])

/-- A sequence of calls on an instance: the instance afterwards and everything it did,
in order. -/
def fai_run (AllocateRetryPolicy : Flow → Bool) :
    FlowAllocatorInstance → List fai_call → FlowAllocatorInstance × List fai_action
  | fai, [] => (fai, [])
  | fai, c :: cs =>
    ((fai_run AllocateRetryPolicy (fai_step AllocateRetryPolicy fai c).1 cs).1,
      (fai_step AllocateRetryPolicy fai c).2
        ++ (fai_run AllocateRetryPolicy (fai_step AllocateRetryPolicy fai c).1 cs).2)

/-- Modelled from the spec: the instance before any call, whose constructor is defined
in a file that is not among the sources: in `NoState`, with the given retry limit and no
retry counted. -/
def fai_new (max_create_flow_retries_ : Nat) (port_id : Int) : FlowAllocatorInstance :=
  ⟨FAIState.NO_STATE, ⟨max_create_flow_retries_, 0⟩, port_id⟩

/-! ## Concrete values used in the examples -/

/-- Type sizes of a 64-bit Linux build: 4-byte `timeout_t` and `seq_num_t`, a 2-byte
`msg_type` at offset 0, a 4-byte buffer size. -/
def abi_lp64 : abi := ⟨4, 4, 0, 2, 4⟩

/-- External codecs for messages without DIF configurations and buffers. -/
def externs_unit : externs Unit Unit :=
  { serialize_dif_config := fun _ => Except.ok []
    deserialize_dif_config := fun _ st => Except.ok (0, st, ())
    dif_config_serlen := fun _ => Except.ok 0
    serialize_buffer := fun _ => Except.ok []
    deserialize_buffer := fun _ st => Except.ok (0, st, ())
    buffer_size := fun _ => 0 }

/-- A flow control configuration whose `closed_window` policy has one parameter. -/
def example_dfc : dtcp_fctrl_config :=
  ⟨1, 2, 3, 4, 5, 6, false, false,
    some ⟨some [99], none, list_head.linked [⟨some [107], some [118]⟩]⟩,
    some ⟨none, none, list_head.linked []⟩, some ⟨none, none, list_head.linked []⟩, none, none⟩

/-- A DTP configuration whose policy has one parameter. -/
def example_dtp : dtp_config :=
  ⟨true, -3, 10, false, false, true, 7,
    some ⟨some [112], some [49], list_head.linked [⟨some [107], some [118]⟩]⟩⟩

/-- A layout entry with a 4-byte fixed part, one name, one string, one flow
specification and one DTP configuration. -/
def example_layout : irati_msg_layout := ⟨4, 1, 1, 1, 0, 1, 0, 0⟩

/-- A message of type 0 for `example_layout`. -/
def example_msg : irati_msg Unit Unit :=
  ⟨mem_of [0, 0, 7, 9], [⟨some [97], none, none, none⟩], [some [104, 105]],
    [⟨1000, 0, 0, 0, -1, 1500, true, false, 0, 0, 0⟩], [], [example_dtp], [], []⟩

/-- The bytes `serialize_irati_msg` writes for `example_msg`. -/
def example_wire : List Nat :=
  [0, 0, 7, 9, 1, 0, 97, 0, 0, 0, 0, 0, 0, 2, 0, 104, 105, 232, 3, 0, 0, 0, 0, 0, 0, 0, 0, 0,
    0, 0, 0, 0, 0, 255, 255, 255, 255, 220, 5, 0, 0, 1, 0, 0, 0, 0, 0, 0, 0, 0, 0, 0, 0, 0, 0,
    1, 253, 255, 255, 255, 10, 0, 0, 0, 0, 0, 1, 7, 0, 0, 0, 1, 0, 112, 1, 0, 49, 1, 0, 1, 0,
    107, 1, 0, 118]

/-- A policy pointer with one parameter. -/
def example_policy : Option policy :=
  some ⟨some [112], some [49], list_head.linked [⟨some [107], some [118]⟩]⟩

/-- A retransmission control configuration. -/
def example_rx : dtcp_rxctrl_config :=
  ⟨1, 2, 3, example_policy, example_policy, example_policy, example_policy, example_policy,
    example_policy⟩

/-- A DTCP configuration with retransmission control only. -/
def example_dtcp : dtcp_config :=
  ⟨false, true, example_policy, example_policy, example_policy, none, some example_rx⟩

/-- A RIB with the root object under id 1 and a delegating object at "/flows" under
id 2. -/
def rib_with_flows : RIB :=
  { obj_name_map :=
      map_set (map_set (fun _ => none) [] ⟨100, false⟩) ['/', 'f', 'l', 'o', 'w', 's']
        ⟨200, true⟩
    obj_inst_map := map_set (map_set (fun _ => none) 1 ⟨100, false⟩) 2 ⟨200, true⟩
    inst_name_map := map_set (map_set (fun _ => none) 1 []) 2 ['/', 'f', 'l', 'o', 'w', 's']
    name_inst_map := map_set (map_set (fun _ => none) [] 1) ['/', 'f', 'l', 'o', 'w', 's'] 2
    deleg_cache := fun _ => none
    separator := '/'
    next_inst_id := 2
    num_of_deleg := 1 }

/-- A connection on port 5 to the application entity "ae", version 1. -/
def example_con : con_handle_t := ⟨5, 1, ['a', 'e']⟩

/-- A request object named "/flows/7", of class "Flow", with a value of two bytes. -/
def example_obj : obj_info_t :=
  ⟨['/', 'f', 'l', 'o', 'w', 's', '/', '7'], ['F', 'l', 'o', 'w'], 0, ⟨2, some [1, 2]⟩⟩

/-- Handlers that all succeed: the result is 0 and a reply holds the one byte 9. -/
def example_methods : RIBObj_methods :=
  { create := fun _ _ _ _ _ => (⟨0⟩, ⟨1, some [9]⟩)
    delete_ := fun _ _ => ⟨0⟩
    read := fun _ _ _ => (⟨0⟩, ⟨1, some [9]⟩)
    cancelRead := fun _ _ => ⟨0⟩
    write := fun _ _ _ _ => (⟨0⟩, ⟨1, some [9]⟩)
    start := fun _ _ _ _ => (⟨0⟩, ⟨1, some [9]⟩)
    stop := fun _ _ _ _ => (⟨0⟩, ⟨1, some [9]⟩) }

/-- Two RIBs of schema version 1, with the handles 1 and 2. -/
def example_rib_1 : rib_object := ⟨1000, 1, 1, RIB_new '/' 1 0⟩

/-- The second RIB of schema version 1. -/
def example_rib_2 : rib_object := ⟨2000, 2, 1, RIB_new '/' 1 0⟩

/-- A registry with the two RIBs, the first of them associated to the application
entity "ae", and no connection. -/
def example_daemon : RIBDaemon :=
  { handle_rib_map := map_set (map_set (fun _ => none) 1 example_rib_1) 2 example_rib_2
    ver_schema_map := map_set (fun _ => none) 1 ⟨1, '/', 2⟩
    aeversion_rib_map := map_set (fun _ => none) (['a', 'e'], 1) example_rib_1
    port_id_rib_map := fun _ => none
    next_handle_id := 3 }

/-- The string "a:b". -/
def example_str : List Nat := [97, 58, 98]

/-- The name with process name "a", process instance "b" and no entity fields. -/
def example_name : name := ⟨some [97], some [98], none, none⟩

/-- An IPC manager with one pending flow allocation, under sequence number 4, served
by the IPC process at address 500. -/
def example_ipcm : IPCManager :=
  ⟨map_set (fun _ => none) 4 ⟨500, ⟨0, ['a'], ['b']⟩, true⟩⟩

theorem wr_le_length (w v : Nat) : (wr_le w v).length = w := by
  induction w generalizing v with
  | zero => rfl
  | succ w ih => simp [wr_le, ih]

theorem holds_append (mem : Nat → Nat) (p : Nat) (a b : List Nat) :
    holds mem p (a ++ b) ↔ holds mem p a ∧ holds mem (p + a.length) b := by
  induction a generalizing p with
  | nil => simp [holds]
  | cons x xs ih =>
    have e : p + (x :: xs).length = p + 1 + xs.length := by
      simp only [List.length_cons]; omega
    rw [e]
    show (mem p = x ∧ holds mem (p + 1) (xs ++ b)) ↔
      (mem p = x ∧ holds mem (p + 1) xs) ∧ holds mem (p + 1 + xs.length) b
    rw [ih, and_assoc]

theorem rd_le_of_holds (mem : Nat → Nat) (p w v : Nat) (h : holds mem p (wr_le w v)) :
    rd_le mem p w = v % 256 ^ w := by
  induction w generalizing p v with
  | zero => simp [rd_le, Nat.mod_one]
  | succ w ih =>
    simp only [wr_le, holds] at h
    obtain ⟨h0, h1⟩ := h
    simp only [rd_le, h0, ih _ _ h1, Nat.mod_mod]
    rw [pow_succ, Nat.mul_comm (256 ^ w) 256, Nat.mod_mul]

theorem rd_bytes_of_holds (mem : Nat → Nat) (p : Nat) (l : List Nat)
    (h : holds mem p l) (hb : ∀ b ∈ l, b < 256) : rd_bytes mem p l.length = l := by
  induction l generalizing p with
  | nil => rfl
  | cons x xs ih =>
    simp only [holds] at h
    simp only [List.length_cons, rd_bytes, h.1]
    rw [ih _ h.2 (fun b hb1 => hb b (List.mem_cons_of_mem _ hb1)),
      Nat.mod_eq_of_lt (hb x (List.mem_cons_self _ _))]

theorem cstr_of_ok (s : List Nat) (h : cstr_ok s) : cstr s = s := by
  unfold cstr
  rw [List.takeWhile_eq_self_iff]
  intro b hb
  have := (h b hb).1
  simp; omega

theorem holds_mem_of_aux (a l b : List Nat) : holds (mem_of (a ++ l ++ b)) a.length l := by
  induction l generalizing a with
  | nil => trivial
  | cons x xs ih =>
    refine ⟨?_, ?_⟩
    · simp only [mem_of, List.getD_eq_getElem?_getD, List.append_assoc, List.cons_append]
      rw [List.getElem?_append_right (le_refl _)]
      simp
    · have := ih (a ++ [x])
      simpa using this

theorem holds_mem_of (l : List Nat) : holds (mem_of l) 0 l := by
  have := holds_mem_of_aux [] l []
  simpa using this

theorem to_signed_to_unsigned (v : Int) (h1 : -(2 ^ 31 : Int) ≤ v) (h2 : v < 2 ^ 31) :
    to_signed 4 (to_unsigned 4 v % 256 ^ 4) = v := by
  unfold to_signed to_unsigned
  have e : ((256 ^ 4 : Nat) : Int) = 4294967296 := by norm_num
  rw [e]
  have hpos : (0 : Int) ≤ v % 4294967296 := Int.emod_nonneg _ (by norm_num)
  have hlt : v % 4294967296 < 4294967296 := Int.emod_lt_of_pos _ (by norm_num)
  have hn : ((v % 4294967296).toNat : Int) = v % 4294967296 := Int.toNat_of_nonneg hpos
  have hlt2 : (v % 4294967296).toNat < 256 ^ 4 := by
    have : ((v % 4294967296).toNat : Int) < 4294967296 := by rw [hn]; exact hlt
    norm_num; omega
  rw [Nat.mod_eq_of_lt hlt2]
  split
  · rename_i h
    rw [hn]
    have : 2 * (v % 4294967296) < 4294967296 := by
      have h3 : ((2 * (v % 4294967296).toNat : Nat) : Int) < ((256 ^ 4 : Nat) : Int) := by
        exact_mod_cast h
      rw [e] at h3; push_cast at h3; rw [hn] at h3; exact h3
    omega
  · rename_i h
    rw [hn]
    have : ¬ 2 * (v % 4294967296) < 4294967296 := by
      intro h3
      apply h
      have : ((2 * (v % 4294967296).toNat : Nat) : Int) < ((256 ^ 4 : Nat) : Int) := by
        rw [e]; push_cast; rw [hn]; exact h3
      exact_mod_cast this
    omega

theorem rd_bool_of_holds (mem : Nat → Nat) (p : Nat) (b : Bool)
    (h : holds mem p (wr_bool b)) : rd_bool mem p = b := by
  unfold rd_bool
  rw [rd_le_of_holds mem p 1 _ h]
  cases b <;> simp

theorem string_prlen_le (s : Option (List Nat)) : string_prlen s ≤ 65535 := by
  cases s <;> simp only [string_prlen] <;> split <;> omega

theorem string_prlen_le_length (s : Option (List Nat)) :
    string_prlen s ≤ (s.getD []).length := by
  cases s with
  | none => simp [string_prlen]
  | some l =>
    simp only [string_prlen, Option.getD_some]
    have := Nat.mod_le l.length 4294967296
    split <;> omega

theorem serialize_string_length (s : Option (List Nat)) :
    (serialize_string s).length = 2 + string_prlen s := by
  have h1 := string_prlen_le s
  have h2 := string_prlen_le_length s
  unfold serialize_string
  simp only [List.length_append, wr_le_length, List.length_take]
  rw [Nat.mod_eq_of_lt (by omega)]
  omega

theorem string_prlen_eq (s : Option (List Nat)) (h : (s.getD []).length ≤ 65535) :
    string_prlen s = (s.getD []).length := by
  cases s with
  | none => simp [string_prlen]
  | some l =>
    simp only [Option.getD_some] at h
    simp only [string_prlen, Option.getD_some]
    rw [Nat.mod_eq_of_lt (by omega)]
    split <;> omega

theorem serialize_string_eq (s : Option (List Nat)) (h : (s.getD []).length ≤ 65535) :
    serialize_string s = wr_le 2 (s.getD []).length ++ s.getD [] := by
  unfold serialize_string
  simp only [string_prlen_eq s h]
  rw [Nat.mod_eq_of_lt (by omega), List.take_length]

theorem norm_str_of_ne (s : Option (List Nat)) (h : s.getD [] ≠ []) :
    norm_str s = some (s.getD []) := by
  cases s with
  | none => simp at h
  | some l => simp only [Option.getD_some] at h; simp [norm_str, h]

/-- Decoding a serialised string: the general step used by all composite readers. -/
theorem deserialize_string_of_holds (mem : Nat → Nat) (st : rstate) (s : Option (List Nat))
    (hok : str_ok s) (ha : s.getD [] ≠ [] → st.heap 0 = true)
    (hm : holds mem st.ptr (serialize_string s)) :
    deserialize_string mem st =
      (0, ⟨st.ptr + (serialize_string s).length,
          if s.getD [] = [] then st.heap else fun n => st.heap (n + 1)⟩, norm_str s) := by
  have hlen := hok.2
  have hlen2 := serialize_string_length s
  rw [string_prlen_eq s hlen] at hlen2
  rw [serialize_string_eq s hlen, holds_append, wr_le_length] at hm
  obtain ⟨h1, h2⟩ := hm
  have hr : rd_le mem st.ptr 2 = (s.getD []).length := by
    rw [rd_le_of_holds mem st.ptr 2 _ h1]
    exact Nat.mod_eq_of_lt (by norm_num; omega)
  have hc := hok.1
  unfold deserialize_string
  simp only [hr, hlen2]
  by_cases he : s.getD [] = []
  · simp [he, norm_str]
  · have hne : (s.getD []).length ≠ 0 := by
      intro h0; exact he (List.length_eq_zero.mp h0)
    simp only [hne, ne_eq, not_false_eq_true, if_true, COMMON_ALLOC, ha he, he, if_false]
    rw [rd_bytes_of_holds mem _ _ h2 (fun b hb => (hc b hb).2), cstr_of_ok _ hc,
      norm_str_of_ne s he]
    simp [Nat.add_assoc]

/-- C6: a string of 1 to 65535 bytes comes back from `deserialize_string` as written by
`serialize_string`, with result 0 and both cursors advanced by 2 plus its length; an
absent or empty string is written as one `uint16_t` zero and comes back absent. -/
theorem string_round_trip (mem : Nat → Nat) (st : rstate) (s : Option (List Nat))
    (hok : str_ok s) (ha : s.getD [] ≠ [] → st.heap 0 = true)
    (hm : holds mem st.ptr (serialize_string s)) :
    (serialize_string s).length = 2 + (s.getD []).length
      ∧ (s.getD [] = [] → serialize_string s = [0, 0])
      ∧ (deserialize_string mem st).1 = 0
      ∧ (deserialize_string mem st).2.1.ptr = st.ptr + (serialize_string s).length
      ∧ (deserialize_string mem st).2.2 = (if s.getD [] = [] then none else s) := by
  have hd := deserialize_string_of_holds mem st s hok ha hm
  have hlen := hok.2
  refine ⟨?_, ?_, ?_, ?_, ?_⟩
  · rw [serialize_string_length, string_prlen_eq s hlen]
  · intro he
    rw [serialize_string_eq s hlen, he]
    rfl
  · rw [hd]
  · rw [hd]
  · rw [hd]
    by_cases he : s.getD [] = []
    · simp [norm_str, he]
    · rw [norm_str_of_ne s he]
      cases s with
      | none => simp at he
      | some l =>
        simp only [Option.getD_some] at he
        simp [he]

theorem string_round_trip_witness :
    (deserialize_string (mem_of [2, 0, 104, 105]) ⟨0, heap_ok⟩).1 = 0
      ∧ (deserialize_string (mem_of [2, 0, 104, 105]) ⟨0, heap_ok⟩).2.1.ptr = 4
      ∧ (deserialize_string (mem_of [2, 0, 104, 105]) ⟨0, heap_ok⟩).2.2 = some [104, 105] := by
  have h := string_round_trip (mem_of [2, 0, 104, 105]) ⟨0, heap_ok⟩ (some [104, 105])
    (by decide) (fun _ => rfl)
    (holds_mem_of [2, 0, 104, 105])
  exact ⟨h.2.2.1, h.2.2.2.1, h.2.2.2.2⟩

theorem heap_ok_shift : (fun n => heap_ok (n + 1)) = heap_ok := rfl

theorem heap_ok_apply (n : Nat) : heap_ok n = true := rfl

theorem alloc_heap_ok : COMMON_ALLOC heap_ok = (true, heap_ok) := rfl

theorem deserialize_string_heap_ok (mem : Nat → Nat) (p : Nat) (s : Option (List Nat))
    (hok : str_ok s) (hm : holds mem p (serialize_string s)) :
    deserialize_string mem ⟨p, heap_ok⟩ =
      (0, ⟨p + (serialize_string s).length, heap_ok⟩, norm_str s) := by
  rw [deserialize_string_of_holds mem ⟨p, heap_ok⟩ s hok (fun _ => rfl) hm]
  simp [heap_ok_shift]

theorem deserialize_rina_name_heap_ok (mem : Nat → Nat) (p : Nat) (n : name)
    (hok : name_ok n) (hm : holds mem p (serialize_rina_name n)) :
    deserialize_rina_name mem ⟨p, heap_ok⟩ =
      (0, ⟨p + (serialize_rina_name n).length, heap_ok⟩, norm_name n) := by
  obtain ⟨k1, k2, k3, k4⟩ := hok
  unfold serialize_rina_name at hm ⊢
  simp only [holds_append, List.length_append, ← Nat.add_assoc] at hm
  obtain ⟨⟨⟨h1, h2⟩, h3⟩, h4⟩ := hm
  unfold deserialize_rina_name
  simp only [deserialize_string_heap_ok mem _ _ k1 h1, deserialize_string_heap_ok mem _ _ k2 h2,
    deserialize_string_heap_ok mem _ _ k3 h3, deserialize_string_heap_ok mem _ _ k4 h4]
  simp [norm_name, name_zero, Nat.add_assoc]

theorem field_differs_norm (s : Option (List Nat)) :
    field_differs s (norm_str s) = true ↔ s = some [] := by
  cases s with
  | none => simp [field_differs, norm_str]
  | some l =>
    by_cases h : l = []
    · simp [field_differs, norm_str, h]
    · simp [field_differs, norm_str, h]

theorem rina_name_cmp_norm (n : name) :
    rina_name_cmp (some n) (some (norm_name n)) = 0 ↔ ¬ has_empty_field n := by
  have a := field_differs_norm n.process_name
  have b := field_differs_norm n.process_instance
  have c := field_differs_norm n.entity_name
  have d := field_differs_norm n.entity_instance
  unfold rina_name_cmp has_empty_field norm_name
  simp only []
  rw [← a, ← b, ← c, ← d]
  generalize field_differs n.process_name (norm_str n.process_name) = x1
  generalize field_differs n.process_instance (norm_str n.process_instance) = x2
  generalize field_differs n.entity_name (norm_str n.entity_name) = x3
  generalize field_differs n.entity_instance (norm_str n.entity_instance) = x4
  cases x1 <;> cases x2 <;> cases x3 <;> cases x4 <;> simp

/-- C7 (as amended): for a name whose fields are absent or strings of at most 65535
bytes, `deserialize_rina_name` returns 0 on the bytes `serialize_rina_name` wrote, the
decoded name has every empty field replaced by an absent one, and it compares equal to
the original under `rina_name_cmp` exactly when no field of the original is the empty
string. -/
theorem name_round_trip (mem : Nat → Nat) (p : Nat) (n : name) (hok : name_ok n)
    (hm : holds mem p (serialize_rina_name n)) :
    (deserialize_rina_name mem ⟨p, heap_ok⟩).1 = 0
      ∧ (deserialize_rina_name mem ⟨p, heap_ok⟩).2.2 = norm_name n
      ∧ (rina_name_cmp (some n) (some (deserialize_rina_name mem ⟨p, heap_ok⟩).2.2) = 0
          ↔ ¬ has_empty_field n) := by
  rw [deserialize_rina_name_heap_ok mem p n hok hm]
  exact ⟨rfl, rfl, rina_name_cmp_norm n⟩

theorem name_round_trip_witness :
    rina_name_cmp (some ⟨some [97], none, some [98, 99], none⟩)
      (some (deserialize_rina_name
        (mem_of (serialize_rina_name ⟨some [97], none, some [98, 99], none⟩))
        ⟨0, heap_ok⟩).2.2) = 0 :=
  (name_round_trip (mem_of (serialize_rina_name ⟨some [97], none, some [98, 99], none⟩)) 0
    ⟨some [97], none, some [98, 99], none⟩ (by decide) (holds_mem_of _)).2.2.mpr (by decide)

/-- C7 (counterexample): a name whose `process_name` is the empty string is decoded
with an absent `process_name`, and `rina_name_cmp` tells the two apart. -/
theorem empty_field_name_differs :
    name_ok ⟨some [], some [49], none, none⟩
      ∧ (deserialize_rina_name (mem_of (serialize_rina_name ⟨some [], some [49], none, none⟩))
          ⟨0, heap_ok⟩).1 = 0
      ∧ rina_name_cmp (some ⟨some [], some [49], none, none⟩)
          (some (deserialize_rina_name
            (mem_of (serialize_rina_name ⟨some [], some [49], none, none⟩))
            ⟨0, heap_ok⟩).2.2) = -1 := by
  refine ⟨by decide, ?_, ?_⟩ <;> rfl

theorem rd_u32_of_holds (mem : Nat → Nat) (p v : Nat) (hv : v < 2 ^ 32)
    (h : holds mem p (wr_le 4 v)) : rd_le mem p 4 = v := by
  rw [rd_le_of_holds mem p 4 v h]
  exact Nat.mod_eq_of_lt (by norm_num at hv ⊢; exact hv)

theorem rd_i32_of_holds (mem : Nat → Nat) (p : Nat) (v : Int)
    (hv : -(2 ^ 31 : Int) ≤ v ∧ v < 2 ^ 31)
    (h : holds mem p (wr_le 4 (to_unsigned 4 v))) : to_signed 4 (rd_le mem p 4) = v := by
  rw [rd_le_of_holds mem p 4 _ h]
  exact to_signed_to_unsigned v hv.1 hv.2

theorem serialize_flow_spec_length (f : flow_spec) :
    (serialize_flow_spec f).length = flow_spec_serlen f := by
  simp [serialize_flow_spec, flow_spec_serlen, wr_le_length, wr_bool]

/-- C8: what the code does for the bytes of a flow specification that fits its
serialised types. `serialize_flow_spec` writes `flow_spec_serlen` bytes, the sum of the
sizes of the eleven fields, but `deserialize_flow_spec` yields no flow specification:
its first statement stores through the value of a field that `memset` has just
cleared, a null pointer. With the address of the field in each statement, all eleven
fields come back and the reader advances by `flow_spec_serlen` as well. -/
theorem deserialize_flow_spec_faults (mem : Nat → Nat) (st : rstate) (f : flow_spec)
    (hok : flow_spec_ok f) (hm : holds mem st.ptr (serialize_flow_spec f)) :
    deserialize_flow_spec mem st = Except.error fault.null_deref
      ∧ (serialize_flow_spec f).length = flow_spec_serlen f
      ∧ flow_spec_serlen f = 4 + 4 + 4 + 4 + 4 + 4 + 1 + 1 + 4 + 4 + 4
      ∧ (deserialize_flow_spec_fields mem st).2 = f
      ∧ (deserialize_flow_spec_fields mem st).1.ptr = st.ptr + flow_spec_serlen f := by
  obtain ⟨k1, k2, k3, k4, k5, k6, k7, k8, k9⟩ := hok
  unfold serialize_flow_spec at hm
  simp only [holds_append, List.length_append, wr_le_length, wr_bool, Nat.add_assoc,
    Nat.reduceAdd] at hm
  obtain ⟨⟨⟨⟨⟨⟨⟨⟨⟨⟨h1, h2⟩, h3⟩, h4⟩, h5⟩, h6⟩, h7⟩, h8⟩, h9⟩, h10⟩, h11⟩ := hm
  refine ⟨rfl, serialize_flow_spec_length f, rfl, ?_, rfl⟩
  unfold deserialize_flow_spec_fields
  simp only [rd_u32_of_holds mem _ _ k1 h1, rd_u32_of_holds mem _ _ k2 h2,
    rd_u32_of_holds mem _ _ k3 h3, rd_u32_of_holds mem _ _ k4 h4,
    rd_i32_of_holds mem _ _ k5 h5, rd_u32_of_holds mem _ _ k6 h6,
    rd_bool_of_holds mem _ _ h7, rd_bool_of_holds mem _ _ h8,
    rd_u32_of_holds mem _ _ k7 h9, rd_u32_of_holds mem _ _ k8 h10,
    rd_i32_of_holds mem _ _ k9 h11]

theorem deserialize_flow_spec_faults_witness :
    serialize_flow_spec ⟨1000, 0, 0, 0, -1, 1500, true, false, 0, 0, 0⟩
        = [232, 3, 0, 0, 0, 0, 0, 0, 0, 0, 0, 0, 0, 0, 0, 0, 255, 255, 255, 255,
            220, 5, 0, 0, 1, 0, 0, 0, 0, 0, 0, 0, 0, 0, 0, 0, 0, 0]
      ∧ deserialize_flow_spec
          (mem_of (serialize_flow_spec ⟨1000, 0, 0, 0, -1, 1500, true, false, 0, 0, 0⟩))
          ⟨0, heap_ok⟩ = Except.error fault.null_deref
      ∧ (serialize_flow_spec ⟨1000, 0, 0, 0, -1, 1500, true, false, 0, 0, 0⟩).length = 38 :=
  have h := deserialize_flow_spec_faults
    (mem_of (serialize_flow_spec ⟨1000, 0, 0, 0, -1, 1500, true, false, 0, 0, 0⟩))
    ⟨0, heap_ok⟩ ⟨1000, 0, 0, 0, -1, 1500, true, false, 0, 0, 0⟩ (by decide) (holds_mem_of _)
  ⟨by decide, h.1, h.2.1⟩

theorem deserialize_policy_parm_heap_ok (mem : Nat → Nat) (p : Nat) (x : policy_parm)
    (hok : policy_parm_ok x) (hm : holds mem p (serialize_policy_parm x)) :
    deserialize_policy_parm mem ⟨p, heap_ok⟩ =
      (0, ⟨p + (serialize_policy_parm x).length, heap_ok⟩,
        ⟨norm_str x.name, norm_str x.value⟩) := by
  unfold serialize_policy_parm at hm ⊢
  simp only [holds_append, List.length_append, ← Nat.add_assoc] at hm ⊢
  unfold deserialize_policy_parm
  simp only [deserialize_string_heap_ok mem _ _ hok.1 hm.1,
    deserialize_string_heap_ok mem _ _ hok.2 hm.2]
  simp

/-- What `deserialize_policy` does on the bytes of a policy: with no parameter it
returns 0 and leaves the list head zeroed; with at least one it reaches
`list_add_tail` on the zeroed head. -/
theorem deserialize_policy_of_holds (mem : Nat → Nat) (p : Nat) (nm ver : Option (List Nat))
    (l : List policy_parm) (dst : policy) (hn : str_ok nm) (hv : str_ok ver)
    (hl : l.length ≤ 65535) (hp : ∀ x ∈ l, policy_parm_ok x)
    (hm : holds mem p (policy_bytes nm ver l)) :
    deserialize_policy mem ⟨p, heap_ok⟩ dst =
      if l = [] then
        Except.ok (0, ⟨p + (policy_bytes nm ver l).length, heap_ok⟩,
          ⟨norm_str nm, norm_str ver, list_head.zeroed⟩)
      else Except.error fault.null_deref := by
  unfold policy_bytes at hm ⊢
  simp only [holds_append, List.length_append, ← Nat.add_assoc, wr_le_length] at hm ⊢
  obtain ⟨⟨⟨h1, h2⟩, h3⟩, h4⟩ := hm
  have hr : rd_le mem (p + (serialize_string nm).length + (serialize_string ver).length) 2
      = l.length := by
    rw [rd_le_of_holds mem _ 2 _ h3, Nat.mod_mod_of_dvd _ (by norm_num)]
    exact Nat.mod_eq_of_lt (by omega)
  unfold deserialize_policy
  simp only [deserialize_string_heap_ok mem _ _ hn h1, deserialize_string_heap_ok mem _ _ hv h2,
    hr]
  cases l with
  | nil => simp [deserialize_policy_loop, policy_zero, serialize_policy_parms]
  | cons x xs =>
    simp only [serialize_policy_parms, holds_append] at h4
    have hx := deserialize_policy_parm_heap_ok mem _ x (hp x (List.mem_cons_self _ _)) h4.1
    simp [deserialize_policy_loop, alloc_heap_ok, hx, policy_zero, list_add_tail]

/-- C9: what the code does on the bytes `serialize_policy` wrote for a policy with
name `nm`, version `ver` and parameters `l`. The parameter count on the wire is the
number of parameters, but `deserialize_policy` clears the list head of its destination
with `memset`, so with at least one parameter `list_add_tail` dereferences a null
pointer, and with none the decoded policy is left with a zeroed list head. -/
theorem policy_round_trip_faults (mem : Nat → Nat) (p : Nat) (nm ver : Option (List Nat))
    (l : List policy_parm) (dst : policy) (hn : str_ok nm) (hv : str_ok ver)
    (hl : l.length ≤ 65535) (hp : ∀ x ∈ l, policy_parm_ok x)
    (hm : holds mem p (policy_bytes nm ver l)) :
    serialize_policy ⟨nm, ver, list_head.linked l⟩ = Except.ok (policy_bytes nm ver l)
      ∧ rd_le mem (p + (serialize_string nm).length + (serialize_string ver).length) 2 = l.length
      ∧ (l ≠ [] → deserialize_policy mem ⟨p, heap_ok⟩ dst = Except.error fault.null_deref)
      ∧ (l = [] → deserialize_policy mem ⟨p, heap_ok⟩ dst =
          Except.ok (0, ⟨p + (policy_bytes nm ver l).length, heap_ok⟩,
            ⟨norm_str nm, norm_str ver, list_head.zeroed⟩)) := by
  have hd := deserialize_policy_of_holds mem p nm ver l dst hn hv hl hp hm
  refine ⟨rfl, ?_, ?_, ?_⟩
  · unfold policy_bytes at hm
    simp only [holds_append, List.length_append, ← Nat.add_assoc] at hm
    rw [rd_le_of_holds mem _ 2 _ hm.1.2, Nat.mod_mod_of_dvd _ (by norm_num)]
    exact Nat.mod_eq_of_lt (by omega)
  · intro h; rw [hd, if_neg h]
  · intro h; rw [hd, if_pos h]

theorem policy_round_trip_faults_witness :
    serialize_policy ⟨some [114], some [49], list_head.linked [⟨some [107], some [118]⟩]⟩
        = Except.ok [1, 0, 114, 1, 0, 49, 1, 0, 1, 0, 107, 1, 0, 118]
      ∧ deserialize_policy (mem_of [1, 0, 114, 1, 0, 49, 1, 0, 1, 0, 107, 1, 0, 118])
          ⟨0, heap_ok⟩ ⟨none, none, INIT_LIST_HEAD⟩ = Except.error fault.null_deref := by
  have h := policy_round_trip_faults
    (mem_of [1, 0, 114, 1, 0, 49, 1, 0, 1, 0, 107, 1, 0, 118]) 0 (some [114]) (some [49])
    [⟨some [107], some [118]⟩] ⟨none, none, INIT_LIST_HEAD⟩ (by decide) (by decide) (by decide)
    (by decide) (holds_mem_of _)
  exact ⟨h.1, h.2.2.1 (by decide)⟩

theorem alloc_policy_faults (mem : Nat → Nat) (p : Nat) (nm ver : Option (List Nat))
    (x : policy_parm) (xs : List policy_parm) (hn : str_ok nm) (hv : str_ok ver)
    (hl : (x :: xs).length ≤ 65535) (hp : ∀ y ∈ x :: xs, policy_parm_ok y)
    (hm : holds mem p (policy_bytes nm ver (x :: xs))) :
    alloc_policy mem ⟨p, heap_ok⟩ = Except.error fault.null_deref := by
  unfold alloc_policy
  simp only [alloc_heap_ok]
  rw [deserialize_policy_of_holds mem p nm ver (x :: xs) _ hn hv hl hp hm]
  simp

theorem bind_eq_ok {α β : Type} (x : Except fault α) (f : α → Except fault β) (b : β) :
    (x >>= f) = Except.ok b ↔ ∃ a, x = Except.ok a ∧ f a = Except.ok b := by
  cases x with
  | error e => simp [bind, Except.bind]
  | ok a => simp [bind, Except.bind]

theorem pure_eq_ok {α : Type} (a b : α) :
    (pure a : Except fault α) = Except.ok b ↔ a = b := by
  simp [pure, Except.pure]

theorem serialize_dtcp_fctrl_config_bytes (c : dtcp_fctrl_config) (pol : policy)
    (bytes : List Nat) (hcw : c.closed_window = some pol)
    (hs : serialize_dtcp_fctrl_config c = Except.ok bytes) :
    ∃ fixed pb rest, fixed.length = 26 ∧ serialize_policy pol = Except.ok pb
      ∧ bytes = fixed ++ pb ++ rest := by
  unfold serialize_dtcp_fctrl_config at hs
  simp only [bind_eq_ok, pure_eq_ok, hcw, serialize_policy_ptr] at hs
  obtain ⟨pb, h1, b, _, c1, _, w, _, r, _, hb⟩ := hs
  refine ⟨wr_le 4 c.rcvd_buffers_th ++ wr_le 4 c.rcvd_bytes_percent_th
    ++ wr_le 4 c.rcvd_bytes_th ++ wr_le 4 c.sent_buffers_th
    ++ wr_le 4 c.sent_bytes_percent_th ++ wr_le 4 c.sent_bytes_th
    ++ wr_bool c.window_based_fctrl ++ wr_bool c.rate_based_fctrl, pb,
    b ++ c1 ++ w ++ r, ?_, h1, ?_⟩
  · simp [wr_le_length, wr_bool]
  · rw [← hb]; simp [List.append_assoc]

/-- C10: what the code does for a `dtcp_fctrl_config` whose `closed_window` policy has
at least one parameter: on the bytes `serialize_dtcp_fctrl_config` wrote,
`deserialize_dtcp_fctrl_config` does not return, because `deserialize_policy` reaches
`list_add_tail` on the list head it cleared with `memset`. -/
theorem dtcp_fctrl_round_trip_faults (mem : Nat → Nat) (p : Nat) (c : dtcp_fctrl_config)
    (nm ver : Option (List Nat)) (x : policy_parm) (xs : List policy_parm)
    (bytes : List Nat)
    (hcw : c.closed_window = some ⟨nm, ver, list_head.linked (x :: xs)⟩)
    (hn : str_ok nm) (hv : str_ok ver) (hl : (x :: xs).length ≤ 65535)
    (hp : ∀ y ∈ x :: xs, policy_parm_ok y)
    (hs : serialize_dtcp_fctrl_config c = Except.ok bytes) (hm : holds mem p bytes) :
    deserialize_dtcp_fctrl_config mem ⟨p, heap_ok⟩ = Except.error fault.null_deref := by
  obtain ⟨fixed, pb, rest, hf, hpb, hb⟩ := serialize_dtcp_fctrl_config_bytes c _ bytes hcw hs
  have hpb2 : pb = policy_bytes nm ver (x :: xs) := by
    have : serialize_policy ⟨nm, ver, list_head.linked (x :: xs)⟩
        = Except.ok (policy_bytes nm ver (x :: xs)) := rfl
    rw [this] at hpb
    exact (Except.ok.inj hpb).symm
  rw [hb, holds_append, holds_append, hf, hpb2] at hm
  unfold deserialize_dtcp_fctrl_config
  simp only [alloc_policy_faults mem (p + 26) nm ver x xs hn hv hl hp hm.1.2]

theorem dtcp_fctrl_round_trip_faults_witness :
    serialize_dtcp_fctrl_config example_dfc =
        Except.ok [1, 0, 0, 0, 2, 0, 0, 0, 3, 0, 0, 0, 4, 0, 0, 0, 5, 0, 0, 0, 6, 0, 0, 0, 0, 0,
          1, 0, 99, 0, 0, 1, 0, 1, 0, 107, 1, 0, 118, 0, 0, 0, 0, 0, 0, 0, 0, 0, 0, 0, 0]
      ∧ deserialize_dtcp_fctrl_config
          (mem_of [1, 0, 0, 0, 2, 0, 0, 0, 3, 0, 0, 0, 4, 0, 0, 0, 5, 0, 0, 0, 6, 0, 0, 0, 0, 0,
            1, 0, 99, 0, 0, 1, 0, 1, 0, 107, 1, 0, 118, 0, 0, 0, 0, 0, 0, 0, 0, 0, 0, 0, 0])
          ⟨0, heap_ok⟩ = Except.error fault.null_deref :=
  ⟨rfl, dtcp_fctrl_round_trip_faults _ 0 example_dfc (some [99]) none ⟨some [107], some [118]⟩ []
    _ rfl (by decide) (by decide) (by decide) (by decide) rfl (holds_mem_of _)⟩

/-! ## Messages: type tags out of range -/

/-- C5: with a table of `num_entries` entries and a type tag at or beyond `num_entries`,
`serialize_irati_msg`, `irati_msg_serlen` and `deserialize_irati_msg` return -1 without
reading the table, whereas `irati_msg_free` reads `numtables[msg_type]` first, which is
an access beyond the end of the table. -/
theorem type_tag_out_of_range {D B : Type} (A : abi) (E : externs D B)
    (indet : dtcp_config → Nat) (numtables : List irati_msg_layout) (num_entries : Nat)
    (msg : irati_msg D B) (mem : Nat → Nat) (serbuf_len msgbuf_len : Nat) (heap : Nat → Bool)
    (hn : numtables.length = num_entries) (ht : num_entries ≤ msg_type A msg.base)
    (hm : num_entries ≤ msg_type A mem) :
    serialize_irati_msg A E numtables num_entries msg = Except.ok (4294967295, [])
      ∧ irati_msg_serlen A E indet numtables num_entries msg = Except.ok 4294967295
      ∧ (∃ r, deserialize_irati_msg A E numtables num_entries mem serbuf_len heap msgbuf_len
            = Except.ok r ∧ r.ret = -1)
      ∧ irati_msg_free A numtables num_entries msg = Except.error fault.table_oob := by
  refine ⟨?_, ?_, ?_, ?_⟩
  · simp [serialize_irati_msg, ht]
  · simp [irati_msg_serlen, ht]
  · simp [deserialize_irati_msg, hm]
  · have : numtables[msg_type A msg.base]? = none := by
      rw [List.getElem?_eq_none_iff]; omega
    simp [irati_msg_free, this]

theorem type_tag_out_of_range_witness :
    irati_msg_free abi_lp64 [⟨2, 0, 0, 0, 0, 0, 0, 0⟩] 1
        (⟨mem_of [1, 0], [], [], [], [], [], [], []⟩ : irati_msg Unit Unit)
      = Except.error fault.table_oob :=
  (type_tag_out_of_range abi_lp64 externs_unit (fun _ => 0) [⟨2, 0, 0, 0, 0, 0, 0, 0⟩] 1
    ⟨mem_of [1, 0], [], [], [], [], [], [], []⟩ (mem_of [1, 0]) 2 2 heap_ok rfl
    (by decide) (by decide)).2.2.2

/-! ## Messages: the final length test -/

theorem des_checked_ret_ne {α : Type} (f : rstate → Int × rstate × α) (n : Nat) (st st1 : rstate)
    (ret : Int) (xs : List α) (h : des_checked f n st = (some ret, st1, xs)) : ret ≠ 0 := by
  induction n generalizing st xs with
  | zero => simp [des_checked] at h
  | succ n ih =>
    simp only [des_checked] at h
    split at h
    · simp only [Prod.mk.injEq, Option.some.injEq] at h
      rw [← h.1]; assumption
    · cases hd : des_checked f n (f st).2.1 with
      | mk e r =>
        cases r with
        | mk st2 ys =>
          rw [hd] at h
          simp only [Prod.mk.injEq] at h
          exact ih _ _ (by rw [hd, h.1, h.2.1])

theorem deserialize_tail_ok {D B : Type} (A : abi) (E : externs D B) (L : irati_msg_layout)
    (mem : Nat → Nat) (serbuf_len : Nat) (st : rstate) (base : Nat → Nat)
    (ns : List name) (ss : List (Option (List Nat))) (r : des_msg D B)
    (h : deserialize_tail A E L mem serbuf_len st base ns ss = Except.ok r) :
    r.complete = true ∧ r.ret = (if r.desptr ≠ serbuf_len then -1 else 0) := by
  unfold deserialize_tail at h
  split at h
  · cases h
  · split at h
    · cases h
    · split at h
      · cases h
      · split at h
        · cases h
        · split at h
          · cases h
          · simp only [Except.ok.injEq] at h
            rw [← h]
            exact ⟨rfl, rfl⟩

theorem deserialize_irati_msg_ok {D B : Type} (A : abi) (E : externs D B)
    (numtables : List irati_msg_layout) (num_entries : Nat) (mem : Nat → Nat)
    (serbuf_len : Nat) (heap : Nat → Bool) (msgbuf_len : Nat)
    (ht : msg_type A mem < num_entries) (r : des_msg D B)
    (h : deserialize_irati_msg A E numtables num_entries mem serbuf_len heap msgbuf_len
      = Except.ok r) :
    (r.complete = true ∧ r.ret = (if r.desptr ≠ serbuf_len then -1 else 0))
      ∨ (r.complete = false ∧ r.ret ≠ 0) := by
  unfold deserialize_irati_msg at h
  rw [if_neg (by omega)] at h
  split at h
  · cases h
  · rename_i L _
    simp only [] at h
    split at h
    · rename_i ret st ns hc
      simp only [Except.ok.injEq] at h
      rw [← h]
      exact Or.inr ⟨rfl, des_checked_ret_ne _ _ _ _ _ _ hc⟩
    · split at h
      · rename_i ret st ns hc
        simp only [Except.ok.injEq] at h
        rw [← h]
        exact Or.inr ⟨rfl, des_checked_ret_ne _ _ _ _ _ _ hc⟩
      · exact Or.inl (deserialize_tail_ok _ _ _ _ _ _ _ _ _ _ h)

/-! ## Messages: truncated buffers -/

/-- C4 (counterexample): a 6-byte buffer whose string announces 3 bytes when 2 remain.
Two memories that agree on the 6 bytes of the buffer and differ at offset 6 are decoded
to different strings, so the byte at offset 6 is read; the final cursor is 7. -/
theorem truncated_buffer_read_past_end :
    rd_bytes (mem_of [0, 0, 3, 0, 97, 98, 99]) 0 6 = rd_bytes (mem_of [0, 0, 3, 0, 97, 98, 100]) 0 6
      ∧ ∃ r1 r2,
        deserialize_irati_msg abi_lp64 externs_unit [⟨2, 0, 1, 0, 0, 0, 0, 0⟩] 1
            (mem_of [0, 0, 3, 0, 97, 98, 99]) 6 heap_ok 0 = Except.ok r1
          ∧ deserialize_irati_msg abi_lp64 externs_unit [⟨2, 0, 1, 0, 0, 0, 0, 0⟩] 1
            (mem_of [0, 0, 3, 0, 97, 98, 100]) 6 heap_ok 0 = Except.ok r2
          ∧ r1.ret = -1 ∧ r1.desptr = 7
          ∧ r1.msg.strings = [some [97, 98, 99]] ∧ r2.msg.strings = [some [97, 98, 100]] :=
  ⟨rfl, _, _, rfl, rfl, rfl, rfl, rfl, rfl⟩

/-! ## Messages: serialised length -/

theorem to_int_eq (v : Int) :
    to_int v = if 2 * (v % 4294967296) < 4294967296 then v % 4294967296
      else v % 4294967296 - 4294967296 := by
  unfold to_int to_signed to_unsigned
  have h0 : (0 : Int) ≤ v % 4294967296 := Int.emod_nonneg _ (by norm_num)
  norm_num
  split_ifs <;> omega

theorem to_int_emod (v : Int) : to_int v % 4294967296 = v % 4294967296 := by
  rw [to_int_eq]
  split_ifs <;> omega

theorem to_int_congr (a b : Int) (h : a % 4294967296 = b % 4294967296) :
    to_int a = to_int b := by
  rw [to_int_eq, to_int_eq, h]

theorem to_int_of_lt (n : Nat) (h : n < 2147483648) : to_int n = n := by
  rw [to_int_eq]
  split_ifs <;> omega

theorem to_signed_mod (n : Nat) : to_signed 4 (n % 4294967296) = to_int n := by
  rw [to_int_eq]
  unfold to_signed
  norm_num
  split_ifs <;> omega

theorem serialize_policy_parm_length (x : policy_parm) :
    (serialize_policy_parm x).length = policy_parm_serlen (some x) := by
  simp only [policy_parm_serlen, serialize_policy_parm, List.length_append,
    serialize_string_length]
  omega

theorem policy_parms_serlen_eq (l : List policy_parm) :
    ∀ ret, ret < 4294967296 →
      policy_parms_serlen ret l = (ret + (serialize_policy_parms l).length) % 4294967296 := by
  induction l with
  | nil =>
    intro ret h
    simp only [policy_parms_serlen, serialize_policy_parms, List.length_nil, Nat.add_zero]
    omega
  | cons x xs ih =>
    intro ret _
    simp only [policy_parms_serlen, serialize_policy_parms, List.length_append,
      serialize_policy_parm_length]
    rw [ih _ (Nat.mod_lt _ (by norm_num))]
    omega

theorem policy_bytes_length (nm ver : Option (List Nat)) (l : List policy_parm) :
    (policy_bytes nm ver l).length
      = 2 * 2 + string_prlen nm + string_prlen ver + 2 + (serialize_policy_parms l).length := by
  simp only [policy_bytes, List.length_append, serialize_string_length, wr_le_length]
  omega

theorem policy_serlen_eq (nm ver : Option (List Nat)) (l : List policy_parm) :
    policy_serlen (some ⟨nm, ver, list_head.linked l⟩)
      = Except.ok (to_int (policy_bytes nm ver l).length) := by
  simp only [policy_serlen, list_entries]
  rw [policy_parms_serlen_eq l _ (Nat.mod_lt _ (by norm_num)), ← to_signed_mod,
    policy_bytes_length]
  congr 2
  omega

theorem rd_bytes_length (m : Nat → Nat) (p n : Nat) : (rd_bytes m p n).length = n := by
  induction n generalizing p with
  | zero => rfl
  | succ n ih => simp [rd_bytes, ih]

theorem holds_rd_bytes (mem base : Nat → Nat) (p q n : Nat)
    (h : holds mem p (rd_bytes base q n)) : ∀ i, i < n → mem (p + i) = base (q + i) % 256 := by
  induction n generalizing p q with
  | zero => intro i hi; omega
  | succ n ih =>
    simp only [rd_bytes, holds] at h
    intro i hi
    cases i with
    | zero => simpa using h.1
    | succ j =>
      have := ih (p + 1) (q + 1) h.2 j (by omega)
      rw [show p + (j + 1) = p + 1 + j by omega, show q + (j + 1) = q + 1 + j by omega]
      exact this

theorem rd_le_congr (mem base : Nat → Nat) (off w : Nat)
    (h : ∀ i, i < w → mem (off + i) = base (off + i) % 256) :
    rd_le mem off w = rd_le base off w := by
  induction w generalizing off with
  | zero => rfl
  | succ w ih =>
    have h0 := h 0 (by omega)
    simp only [Nat.add_zero] at h0
    simp only [rd_le, h0, Nat.mod_mod]
    rw [ih (off + 1) (fun i hi => by
      have := h (i + 1) (by omega)
      rw [show off + 1 + i = off + (i + 1) by omega]
      exact this)]

theorem deserialize_flow_spec_fields_of_holds (mem : Nat → Nat) (p : Nat) (f : flow_spec)
    (hok : flow_spec_ok f) (hm : holds mem p (serialize_flow_spec f)) :
    deserialize_flow_spec_fields mem ⟨p, heap_ok⟩
      = (⟨p + (serialize_flow_spec f).length, heap_ok⟩, f) := by
  obtain ⟨k1, k2, k3, k4, k5, k6, k7, k8, k9⟩ := hok
  have hlen := serialize_flow_spec_length f
  unfold serialize_flow_spec at hm
  simp only [holds_append, List.length_append, wr_le_length, wr_bool, Nat.add_assoc,
    Nat.reduceAdd] at hm
  obtain ⟨⟨⟨⟨⟨⟨⟨⟨⟨⟨h1, h2⟩, h3⟩, h4⟩, h5⟩, h6⟩, h7⟩, h8⟩, h9⟩, h10⟩, h11⟩ := hm
  rw [hlen]
  unfold deserialize_flow_spec_fields
  simp only [rd_u32_of_holds mem _ _ k1 h1, rd_u32_of_holds mem _ _ k2 h2,
    rd_u32_of_holds mem _ _ k3 h3, rd_u32_of_holds mem _ _ k4 h4,
    rd_i32_of_holds mem _ _ k5 h5, rd_u32_of_holds mem _ _ k6 h6,
    rd_bool_of_holds mem _ _ h7, rd_bool_of_holds mem _ _ h8,
    rd_u32_of_holds mem _ _ k7 h9, rd_u32_of_holds mem _ _ k8 h10,
    rd_i32_of_holds mem _ _ k9 h11]
  rfl

theorem ser_section_cons {α : Type} (f : α → List Nat) (n : Nat) (x : α) (xs : List α)
    (a : List Nat)
    (h : ser_section (fun y => Except.ok (f y)) (n + 1) (x :: xs) = Except.ok a) :
    ∃ b, ser_section (fun y => Except.ok (f y)) n xs = Except.ok b ∧ a = f x ++ b := by
  simp only [ser_section] at h
  split at h
  · cases h
  · rename_i b hb
    exact ⟨b, hb, by simpa using h.symm⟩

theorem des_checked_of_holds {α : Type} (mem : Nat → Nat) (fser : α → List Nat)
    (fdes : rstate → Int × rstate × α) (norm : α → α) (okp : α → Prop)
    (hel : ∀ x p, okp x → holds mem p (fser x) →
      fdes ⟨p, heap_ok⟩ = (0, ⟨p + (fser x).length, heap_ok⟩, norm x))
    (n : Nat) (l : List α) (p : Nat) (a : List Nat)
    (hs : ser_section (fun x => Except.ok (fser x)) n l = Except.ok a)
    (hok : ∀ x ∈ l, okp x) (hm : holds mem p a) :
    des_checked fdes n ⟨p, heap_ok⟩
      = (none, ⟨p + a.length, heap_ok⟩, (l.take n).map norm) := by
  induction n generalizing l p a with
  | zero =>
    simp only [ser_section, Except.ok.injEq] at hs
    subst hs
    simp [des_checked]
  | succ n ih =>
    cases l with
    | nil => simp [ser_section] at hs
    | cons x xs =>
      obtain ⟨b, hb, hab⟩ := ser_section_cons fser n x xs a hs
      subst hab
      rw [holds_append] at hm
      have h1 := hel x p (hok x (List.mem_cons_self _ _)) hm.1
      have h2 := ih xs (p + (fser x).length) b hb
        (fun y hy => hok y (List.mem_cons_of_mem _ hy)) hm.2
      simp [des_checked, h1, h2, Nat.add_assoc]

theorem des_unchecked_of_holds {α : Type} (mem : Nat → Nat) (fser : α → List Nat)
    (fdes : rstate → rstate × α) (okp : α → Prop)
    (hel : ∀ x p, okp x → holds mem p (fser x) →
      fdes ⟨p, heap_ok⟩ = (⟨p + (fser x).length, heap_ok⟩, x))
    (n : Nat) (l : List α) (p : Nat) (a : List Nat)
    (hs : ser_section (fun x => Except.ok (fser x)) n l = Except.ok a)
    (hok : ∀ x ∈ l, okp x) (hm : holds mem p a) :
    des_unchecked (fun s => Except.ok (fdes s)) n ⟨p, heap_ok⟩
      = Except.ok (⟨p + a.length, heap_ok⟩, l.take n) := by
  induction n generalizing l p a with
  | zero =>
    simp only [ser_section, Except.ok.injEq] at hs
    subst hs
    simp [des_unchecked]
  | succ n ih =>
    cases l with
    | nil => simp [ser_section] at hs
    | cons x xs =>
      obtain ⟨b, hb, hab⟩ := ser_section_cons fser n x xs a hs
      subst hab
      rw [holds_append] at hm
      have h1 := hel x p (hok x (List.mem_cons_self _ _)) hm.1
      have h2 := ih xs (p + (fser x).length) b hb
        (fun y hy => hok y (List.mem_cons_of_mem _ hy)) hm.2
      simp [des_unchecked, h1, h2, Nat.add_assoc]

theorem deserialize_dtp_config_faults (A : abi) (mem : Nat → Nat) (p : Nat) (cfg : dtp_config)
    (nm ver : Option (List Nat)) (x : policy_parm) (xs : List policy_parm) (o : List Nat)
    (hpol : cfg.dtp_ps = some ⟨nm, ver, list_head.linked (x :: xs)⟩)
    (hn : str_ok nm) (hv : str_ok ver) (hl : (x :: xs).length ≤ 65535)
    (hp : ∀ y ∈ x :: xs, policy_parm_ok y)
    (hs : serialize_dtp_config A cfg = Except.ok o) (hm : holds mem p o) :
    deserialize_dtp_config A mem ⟨p, heap_ok⟩ = Except.error fault.null_deref := by
  have hb : serialize_policy ⟨nm, ver, list_head.linked (x :: xs)⟩
      = Except.ok (policy_bytes nm ver (x :: xs)) := rfl
  simp only [serialize_dtp_config, serialize_policy_ptr, hpol, hb, Except.ok.injEq] at hs
  subst hs
  simp only [holds_append, List.length_append, wr_le_length, wr_bool] at hm
  have hq := hm.2
  rw [show p + (1 + 4 + A.sizeof_timeout_t + 1 + 1 + 1 + A.sizeof_seq_num_t)
      = p + 5 + A.sizeof_timeout_t + 3 + A.sizeof_seq_num_t by omega] at hq
  unfold deserialize_dtp_config
  simp only [alloc_policy_faults mem _ nm ver x xs hn hv hl hp hq]

theorem deserialize_walk {D B : Type} (A : abi) (E : externs D B)
    (numtables : List irati_msg_layout) (num_entries : Nat) (msg : irati_msg D B)
    (L : irati_msg_layout) (mem : Nat → Nat) (serbuf_len msgbuf_len : Nat)
    (a b rest : List Nat)
    (ht : msg_type A msg.base < num_entries)
    (hL : numtables[msg_type A msg.base]? = some L)
    (hh : A.msg_type_off + A.sizeof_msg_type ≤ L.copylen)
    (hnames : ∀ x ∈ msg.names, name_ok x) (hstr : ∀ x ∈ msg.strings, str_ok x)
    (ha : ser_section (fun n => Except.ok (serialize_rina_name n)) L.names msg.names
      = Except.ok a)
    (hb : ser_section (fun s => Except.ok (serialize_string s)) L.strings msg.strings
      = Except.ok b)
    (hm : holds mem 0 (rd_bytes msg.base 0 L.copylen ++ a ++ b ++ rest)) :
    deserialize_irati_msg A E numtables num_entries mem serbuf_len heap_ok msgbuf_len
      = deserialize_tail A E L mem serbuf_len ⟨L.copylen + a.length + b.length, heap_ok⟩
          (fun i => if i < L.copylen then mem i % 256 else 0)
          ((msg.names.take L.names).map norm_name)
          ((msg.strings.take L.strings).map norm_str) := by
  simp only [holds_append, List.length_append, rd_bytes_length, Nat.zero_add] at hm
  obtain ⟨⟨⟨h0, h1⟩, h2⟩, _⟩ := hm
  have hcopy := holds_rd_bytes mem msg.base 0 0 L.copylen h0
  have htag : msg_type A mem = msg_type A msg.base := by
    unfold msg_type
    apply rd_le_congr
    intro i hi
    have := hcopy (A.msg_type_off + i) (by omega)
    simpa using this
  have hN := des_checked_of_holds mem serialize_rina_name (deserialize_rina_name mem)
    norm_name name_ok (fun x p hx hp => deserialize_rina_name_heap_ok mem p x hx hp)
    L.names msg.names L.copylen a ha hnames h1
  have hS := des_checked_of_holds mem serialize_string (deserialize_string mem)
    norm_str str_ok (fun x p hx hp => deserialize_string_heap_ok mem p x hx hp)
    L.strings msg.strings (L.copylen + a.length) b hb hstr h2
  unfold deserialize_irati_msg
  rw [htag, if_neg (not_le.mpr ht), hL]
  simp only [hN, hS]

theorem serialize_irati_msg_bytes {D B : Type} (A : abi) (E : externs D B)
    (numtables : List irati_msg_layout) (num_entries : Nat) (msg : irati_msg D B)
    (L : irati_msg_layout) (n : Nat) (out : List Nat)
    (ht : msg_type A msg.base < num_entries)
    (hL : numtables[msg_type A msg.base]? = some L)
    (hs : serialize_irati_msg A E numtables num_entries msg = Except.ok (n, out)) :
    ∃ a b c d e f g,
      ser_section (fun n => Except.ok (serialize_rina_name n)) L.names msg.names = Except.ok a
      ∧ ser_section (fun s => Except.ok (serialize_string s)) L.strings msg.strings
          = Except.ok b
      ∧ ser_section (fun f => Except.ok (serialize_flow_spec f)) L.flow_specs msg.flow_specs
          = Except.ok c
      ∧ ser_section E.serialize_dif_config L.dif_configs msg.dif_configs = Except.ok d
      ∧ ser_section (serialize_dtp_config A) L.dtp_configs msg.dtp_configs = Except.ok e
      ∧ ser_section serialize_dctp_config L.dtcp_configs msg.dtcp_configs = Except.ok f
      ∧ ser_section E.serialize_buffer L.buffers msg.buffers = Except.ok g
      ∧ out = rd_bytes msg.base 0 L.copylen ++ a ++ b ++ (c ++ (d ++ (e ++ (f ++ g))))
      ∧ n = out.length % 4294967296 := by
  unfold serialize_irati_msg at hs
  rw [if_neg (not_le.mpr ht), hL] at hs
  simp only [] at hs
  split at hs
  · cases hs
  · rename_i out1 hsec
    simp only [Except.ok.injEq, Prod.mk.injEq] at hs
    obtain ⟨hn, ho⟩ := hs
    subst ho
    unfold serialize_sections at hsec
    split at hsec
    · cases hsec
    · split at hsec
      · cases hsec
      · split at hsec
        · cases hsec
        · split at hsec
          · cases hsec
          · split at hsec
            · cases hsec
            · split at hsec
              · cases hsec
              · split at hsec
                · cases hsec
                · rename_i a ha _ b hb _ c hc _ d hd _ e he _ f hf _ g hg
                  simp only [Except.ok.injEq] at hsec
                  refine ⟨a, b, c, d, e, f, g, ha, hb, hc, hd, he, hf, hg, ?_, hn.symm⟩
                  rw [← hsec]
                  simp only [List.append_assoc]

theorem ser_section_head {α : Type} (f : α → Except fault (List Nat)) (n : Nat) (x : α)
    (xs : List α) (a : List Nat) (hn : n ≠ 0)
    (h : ser_section f n (x :: xs) = Except.ok a) :
    ∃ o b, f x = Except.ok o ∧ a = o ++ b := by
  cases n with
  | zero => exact absurd rfl hn
  | succ k =>
    simp only [ser_section] at h
    split at h
    · cases h
    · rename_i o ho
      split at h
      · cases h
      · rename_i b _
        exact ⟨o, b, ho, by simpa using h.symm⟩

/-- C1: what the code does for a message with at least one DTP configuration whose
policy has a parameter. After the fixed part, the names, the strings and the flow
specifications have been decoded from the bytes `serialize_irati_msg` wrote,
`deserialize_irati_msg` does not return: `deserialize_policy` clears the list head of
the policy with `memset` and `list_add_tail` then dereferences a null pointer. -/
theorem msg_round_trip_faults {D B : Type} (A : abi) (E : externs D B)
    (numtables : List irati_msg_layout) (num_entries : Nat) (msg : irati_msg D B)
    (L : irati_msg_layout) (mem : Nat → Nat) (msgbuf_len n : Nat) (out : List Nat)
    (cfg : dtp_config) (cs : List dtp_config) (nm ver : Option (List Nat))
    (x : policy_parm) (xs : List policy_parm)
    (ht : msg_type A msg.base < num_entries)
    (hL : numtables[msg_type A msg.base]? = some L)
    (hh : A.msg_type_off + A.sizeof_msg_type ≤ L.copylen)
    (hdif : L.dif_configs = 0) (hdtp : L.dtp_configs ≠ 0)
    (hnames : ∀ y ∈ msg.names, name_ok y) (hstr : ∀ y ∈ msg.strings, str_ok y)
    (hfs : ∀ y ∈ msg.flow_specs, flow_spec_ok y)
    (hcfg : msg.dtp_configs = cfg :: cs)
    (hpol : cfg.dtp_ps = some ⟨nm, ver, list_head.linked (x :: xs)⟩)
    (hn : str_ok nm) (hv : str_ok ver) (hl : (x :: xs).length ≤ 65535)
    (hp : ∀ y ∈ x :: xs, policy_parm_ok y)
    (hs : serialize_irati_msg A E numtables num_entries msg = Except.ok (n, out))
    (hm : holds mem 0 out) :
    deserialize_irati_msg A E numtables num_entries mem n heap_ok msgbuf_len
      = Except.error fault.null_deref := by
  obtain ⟨a, b, c, d, e, f, g, ha, hb, hc, hd, he, _, _, hout, _⟩ :=
    serialize_irati_msg_bytes A E numtables num_entries msg L n out ht hL hs
  rw [hdif] at hd
  simp only [ser_section, Except.ok.injEq] at hd
  subst hd
  rw [hcfg] at he
  obtain ⟨o, e2, ho, he2⟩ := ser_section_head _ _ _ _ _ hdtp he
  subst he2
  rw [hout] at hm
  rw [deserialize_walk A E numtables num_entries msg L mem n msgbuf_len a b _ ht hL hh
    hnames hstr ha hb hm]
  simp only [holds_append, List.length_append, rd_bytes_length, Nat.zero_add,
    List.length_nil, Nat.add_zero] at hm
  obtain ⟨_, h3, _, h5, _⟩ := hm
  have hF := des_unchecked_of_holds mem serialize_flow_spec (deserialize_flow_spec_fields mem)
    flow_spec_ok (fun y p hy hp1 => deserialize_flow_spec_fields_of_holds mem p y hy hp1)
    L.flow_specs msg.flow_specs (L.copylen + a.length + b.length) c hc hfs h3
  have hD := deserialize_dtp_config_faults A mem _ cfg nm ver x xs o hpol hn hv hl hp ho h5.1
  obtain ⟨k, hk⟩ := Nat.exists_eq_succ_of_ne_zero hdtp
  unfold deserialize_tail
  simp only [hF, hdif, des_unchecked, hk, hD, drop_ret]

theorem msg_round_trip_faults_witness :
    serialize_irati_msg abi_lp64 externs_unit [example_layout] 1 example_msg
        = Except.ok (85, example_wire)
      ∧ deserialize_irati_msg abi_lp64 externs_unit [example_layout] 1 (mem_of example_wire) 85
          heap_ok 0 = (Except.error fault.null_deref : Except fault (des_msg Unit Unit)) :=
  ⟨rfl, msg_round_trip_faults abi_lp64 externs_unit [example_layout] 1 example_msg
    example_layout (mem_of example_wire) 0 85 example_wire example_dtp [] (some [112])
    (some [49]) ⟨some [107], some [118]⟩ [] (by decide) rfl (by decide) rfl (by decide)
    (by decide) (by decide) (by decide) rfl rfl (by decide) (by decide) (by decide)
    (by decide) rfl (holds_mem_of _)⟩

/-- A message whose layout entry declares names, strings and flow specifications only
is decoded from the bytes `serialize_irati_msg` wrote with result 0, the same bytes in
its fixed part, and the same elements, every empty string coming back absent. -/
theorem msg_round_trip_basic {D B : Type} (A : abi) (E : externs D B)
    (numtables : List irati_msg_layout) (num_entries : Nat) (msg : irati_msg D B)
    (L : irati_msg_layout) (mem : Nat → Nat) (msgbuf_len n : Nat) (out : List Nat)
    (ht : msg_type A msg.base < num_entries)
    (hL : numtables[msg_type A msg.base]? = some L)
    (hh : A.msg_type_off + A.sizeof_msg_type ≤ L.copylen)
    (hdif : L.dif_configs = 0) (hdtp : L.dtp_configs = 0) (hdtcp : L.dtcp_configs = 0)
    (hbuf : L.buffers = 0)
    (hnames : ∀ y ∈ msg.names, name_ok y) (hstr : ∀ y ∈ msg.strings, str_ok y)
    (hfs : ∀ y ∈ msg.flow_specs, flow_spec_ok y)
    (hs : serialize_irati_msg A E numtables num_entries msg = Except.ok (n, out))
    (hlen : out.length < 4294967296) (hm : holds mem 0 out) :
    ∃ r, deserialize_irati_msg A E numtables num_entries mem n heap_ok msgbuf_len = Except.ok r
      ∧ r.ret = 0 ∧ r.desptr = n
      ∧ (∀ i, i < L.copylen → r.msg.base i = msg.base i % 256)
      ∧ r.msg.names = (msg.names.take L.names).map norm_name
      ∧ r.msg.strings = (msg.strings.take L.strings).map norm_str
      ∧ r.msg.flow_specs = msg.flow_specs.take L.flow_specs := by
  obtain ⟨a, b, c, d, e, f, g, ha, hb, hc, hd, he, hf, hg, hout, hn⟩ :=
    serialize_irati_msg_bytes A E numtables num_entries msg L n out ht hL hs
  rw [hdif] at hd
  rw [hdtp] at he
  rw [hdtcp] at hf
  rw [hbuf] at hg
  simp only [ser_section, Except.ok.injEq] at hd he hf hg
  subst hd he hf hg
  rw [Nat.mod_eq_of_lt hlen] at hn
  rw [hout] at hm
  rw [deserialize_walk A E numtables num_entries msg L mem n msgbuf_len a b _ ht hL hh
    hnames hstr ha hb hm]
  have hm0 := hm
  simp only [holds_append, List.length_append, rd_bytes_length, Nat.zero_add,
    List.length_nil, Nat.add_zero] at hm
  obtain ⟨⟨⟨h0, _⟩, _⟩, h3, _⟩ := hm
  have hcopy := holds_rd_bytes mem msg.base 0 0 L.copylen h0
  have hF := des_unchecked_of_holds mem serialize_flow_spec (deserialize_flow_spec_fields mem)
    flow_spec_ok (fun y p hy hp1 => deserialize_flow_spec_fields_of_holds mem p y hy hp1)
    L.flow_specs msg.flow_specs (L.copylen + a.length + b.length) c hc hfs h3
  have hn2 : L.copylen + a.length + b.length + c.length = n := by
    rw [hn, hout]
    simp only [List.length_append, rd_bytes_length, List.length_nil, Nat.add_zero]
  unfold deserialize_tail
  simp only [hF, hdif, hdtp, hdtcp, hbuf, des_unchecked, hn2]
  refine ⟨_, rfl, by simp, rfl, ?_, rfl, rfl, rfl⟩
  intro i hi
  have := hcopy i hi
  simp only [Nat.zero_add] at this
  simp only [if_pos hi, this, Nat.mod_mod]

/-! ## Messages: strict length match and truncated buffers -/

theorem des_checked_of_codes {α : Type} (f : rstate → Int × rstate × α) (n : Nat)
    (st : rstate) (h : ∀ c ∈ (decode_all f n st).1, c = 0) :
    ∃ xs, des_checked f n st = (none, (decode_all f n st).2, xs) := by
  induction n generalizing st with
  | zero => exact ⟨[], rfl⟩
  | succ n ih =>
    simp only [decode_all] at h ⊢
    have h0 : (f st).1 = 0 := h _ (List.mem_cons_self _ _)
    obtain ⟨xs, hxs⟩ := ih (f st).2.1 (fun c hc => h c (List.mem_cons_of_mem _ hc))
    refine ⟨(f st).2.2 :: xs, ?_⟩
    simp only [des_checked, h0, ne_eq, not_true_eq_false, if_false, hxs]

theorem des_checked_of_bad_code {α : Type} (f : rstate → Int × rstate × α) (n : Nat)
    (st : rstate) (h : ¬ ∀ c ∈ (decode_all f n st).1, c = 0) :
    ∃ ret st1 xs, des_checked f n st = (some ret, st1, xs) := by
  induction n generalizing st with
  | zero => exact absurd (fun c hc => by simp [decode_all] at hc) h
  | succ n ih =>
    by_cases h0 : (f st).1 = 0
    · have h1 : ¬ ∀ c ∈ (decode_all f n (f st).2.1).1, c = 0 := by
        intro hall
        apply h
        simp only [decode_all]
        intro c hc
        rcases List.mem_cons.mp hc with hc | hc
        · rw [hc, h0]
        · exact hall c hc
      obtain ⟨ret, st1, xs, hxs⟩ := ih (f st).2.1 h1
      exact ⟨ret, st1, (f st).2.2 :: xs, by
        simp only [des_checked, h0, ne_eq, not_true_eq_false, if_false, hxs]⟩
    · exact ⟨(f st).1, (f st).2.1, [(f st).2.2], by
        simp only [des_checked, ne_eq, h0, not_false_eq_true, if_true]⟩

theorem decode_names_strings_eq (L : irati_msg_layout) (mem : Nat → Nat) (heap : Nat → Bool) :
    decode_names_strings L mem heap
      = ((decode_all (deserialize_rina_name mem) L.names ⟨L.copylen, heap⟩).1
          ++ (decode_all (deserialize_string mem) L.strings
              (decode_all (deserialize_rina_name mem) L.names ⟨L.copylen, heap⟩).2).1,
        (decode_all (deserialize_string mem) L.strings
          (decode_all (deserialize_rina_name mem) L.names ⟨L.copylen, heap⟩).2).2.ptr) := rfl

/-- What `deserialize_irati_msg` does for an entry that declares names and strings
only: it returns, with 0 exactly when every name and string decoded with result 0 and
the bytes consumed are `serbuf_len` many. -/
theorem deserialize_names_strings {D B : Type} (A : abi) (E : externs D B)
    (numtables : List irati_msg_layout) (num_entries : Nat) (mem : Nat → Nat)
    (serbuf_len : Nat) (heap : Nat → Bool) (msgbuf_len : Nat) (L : irati_msg_layout)
    (ht : msg_type A mem < num_entries) (hL : numtables[msg_type A mem]? = some L)
    (hf : L.flow_specs = 0) (hd : L.dif_configs = 0) (hp : L.dtp_configs = 0)
    (hc : L.dtcp_configs = 0) (hb : L.buffers = 0) :
    ∃ r, deserialize_irati_msg A E numtables num_entries mem serbuf_len heap msgbuf_len
        = Except.ok r
      ∧ ((∀ c ∈ (decode_names_strings L mem heap).1, c = 0) →
          r.desptr = (decode_names_strings L mem heap).2
            ∧ r.ret = if (decode_names_strings L mem heap).2 ≠ serbuf_len then -1 else 0)
      ∧ ((¬ ∀ c ∈ (decode_names_strings L mem heap).1, c = 0) → r.ret ≠ 0) := by
  rw [decode_names_strings_eq]
  simp only [List.mem_append]
  unfold deserialize_irati_msg
  rw [if_neg (not_le.mpr ht), hL]
  simp only []
  by_cases hn : ∀ c ∈ (decode_all (deserialize_rina_name mem) L.names ⟨L.copylen, heap⟩).1,
      c = 0
  · obtain ⟨ns, hns⟩ := des_checked_of_codes _ _ _ hn
    rw [hns]
    simp only []
    by_cases hs : ∀ c ∈ (decode_all (deserialize_string mem) L.strings
        (decode_all (deserialize_rina_name mem) L.names ⟨L.copylen, heap⟩).2).1, c = 0
    · obtain ⟨ss, hss⟩ := des_checked_of_codes _ _ _ hs
      rw [hss]
      simp only [deserialize_tail, hf, hd, hp, hc, hb, des_unchecked]
      refine ⟨_, rfl, fun _ => ⟨rfl, rfl⟩, fun hne => ?_⟩
      exact absurd (fun c hcm => hcm.elim (hn c) (hs c)) hne
    · obtain ⟨ret, st1, ss, hss⟩ := des_checked_of_bad_code _ _ _ hs
      rw [hss]
      simp only []
      refine ⟨_, rfl, fun hall => ?_, fun _ => des_checked_ret_ne _ _ _ _ _ _ hss⟩
      exact absurd (fun c hcm => hall c (Or.inr hcm)) hs
  · obtain ⟨ret, st1, ns, hns⟩ := des_checked_of_bad_code _ _ _ hn
    rw [hns]
    simp only []
    refine ⟨_, rfl, fun hall => ?_, fun _ => des_checked_ret_ne _ _ _ _ _ _ hns⟩
    exact absurd (fun c hcm => hall c (Or.inl hcm)) hn

/-- C3: what the code does at the final test of `deserialize_irati_msg`. For an entry
that declares names and strings only, the call returns; it returns a non-zero code
whenever the number of bytes consumed by copying the fixed part and decoding all
declared elements differs from `serbuf_len` and whenever some element fails to decode,
and it returns 0 when every element decodes with result 0 and that number equals
`serbuf_len`. For the 85 bytes written for `example_msg`, whose entry declares a DTP
configuration, the call does not return, neither with `serbuf_len` 85 nor with 84:
`deserialize_policy` clears the list head of the policy and `list_add_tail`
dereferences a null pointer. -/
theorem strict_length_match {D B : Type} (A : abi) (E : externs D B)
    (numtables : List irati_msg_layout) (num_entries : Nat) (mem : Nat → Nat)
    (serbuf_len : Nat) (heap : Nat → Bool) (msgbuf_len : Nat) (L : irati_msg_layout)
    (ht : msg_type A mem < num_entries) (hL : numtables[msg_type A mem]? = some L)
    (hf : L.flow_specs = 0) (hd : L.dif_configs = 0) (hp : L.dtp_configs = 0)
    (hc : L.dtcp_configs = 0) (hb : L.buffers = 0) :
    (∃ r, deserialize_irati_msg A E numtables num_entries mem serbuf_len heap msgbuf_len
          = Except.ok r
        ∧ ((decode_names_strings L mem heap).2 ≠ serbuf_len → r.ret ≠ 0)
        ∧ ((¬ ∀ c ∈ (decode_names_strings L mem heap).1, c = 0) → r.ret ≠ 0)
        ∧ ((∀ c ∈ (decode_names_strings L mem heap).1, c = 0) →
            (decode_names_strings L mem heap).2 = serbuf_len → r.ret = 0))
      ∧ deserialize_irati_msg abi_lp64 externs_unit [example_layout] 1 (mem_of example_wire)
          85 heap_ok 0 = (Except.error fault.null_deref : Except fault (des_msg Unit Unit))
      ∧ deserialize_irati_msg abi_lp64 externs_unit [example_layout] 1 (mem_of example_wire)
          84 heap_ok 0 = (Except.error fault.null_deref : Except fault (des_msg Unit Unit)) := by
  refine ⟨?_, rfl, rfl⟩
  obtain ⟨r, hr, h1, h2⟩ := deserialize_names_strings A E numtables num_entries mem serbuf_len
    heap msgbuf_len L ht hL hf hd hp hc hb
  refine ⟨r, hr, fun hne => ?_, h2, fun hall heq => ?_⟩
  · by_cases hall : ∀ c ∈ (decode_names_strings L mem heap).1, c = 0
    · rw [(h1 hall).2, if_pos hne]
      decide
    · exact h2 hall
  · rw [(h1 hall).2, if_neg (not_not.mpr heq)]

theorem strict_length_match_witness :
    (∃ r, deserialize_irati_msg abi_lp64 externs_unit [⟨2, 0, 1, 0, 0, 0, 0, 0⟩] 1
        (mem_of [0, 0, 2, 0, 104, 105]) 6 heap_ok 0 = Except.ok r ∧ r.ret = 0)
      ∧ (∃ r, deserialize_irati_msg abi_lp64 externs_unit [⟨2, 0, 1, 0, 0, 0, 0, 0⟩] 1
        (mem_of [0, 0, 2, 0, 104, 105]) 7 heap_ok 0 = Except.ok r ∧ r.ret ≠ 0)
      ∧ (∃ r, deserialize_irati_msg abi_lp64 externs_unit [⟨2, 0, 1, 0, 0, 0, 0, 0⟩] 1
        (mem_of [0, 0, 2, 0, 104, 105]) 5 heap_ok 0 = Except.ok r ∧ r.ret ≠ 0) := by
  refine ⟨?_, ?_, ?_⟩
  · obtain ⟨r, hr, _, _, h3⟩ := (strict_length_match abi_lp64 externs_unit
      [⟨2, 0, 1, 0, 0, 0, 0, 0⟩] 1 (mem_of [0, 0, 2, 0, 104, 105]) 6 heap_ok 0
      ⟨2, 0, 1, 0, 0, 0, 0, 0⟩ (by decide) rfl rfl rfl rfl rfl rfl).1
    exact ⟨r, hr, h3 (by decide) (by decide)⟩
  · obtain ⟨r, hr, h1, _, _⟩ := (strict_length_match abi_lp64 externs_unit
      [⟨2, 0, 1, 0, 0, 0, 0, 0⟩] 1 (mem_of [0, 0, 2, 0, 104, 105]) 7 heap_ok 0
      ⟨2, 0, 1, 0, 0, 0, 0, 0⟩ (by decide) rfl rfl rfl rfl rfl rfl).1
    exact ⟨r, hr, h1 (by decide)⟩
  · obtain ⟨r, hr, h1, _, _⟩ := (strict_length_match abi_lp64 externs_unit
      [⟨2, 0, 1, 0, 0, 0, 0, 0⟩] 1 (mem_of [0, 0, 2, 0, 104, 105]) 5 heap_ok 0
      ⟨2, 0, 1, 0, 0, 0, 0, 0⟩ (by decide) rfl rfl rfl rfl rfl rfl).1
    exact ⟨r, hr, h1 (by decide)⟩

theorem deserialize_string_cover (mem : Nat → Nat) (st : rstate) :
    st.ptr ≤ (deserialize_string mem st).2.1.ptr
      ∧ ∀ i, st.ptr ≤ i → i < (deserialize_string mem st).2.1.ptr →
          i ∈ deserialize_string_loads mem st := by
  unfold deserialize_string deserialize_string_loads
  simp only [COMMON_ALLOC]
  by_cases h0 : rd_le mem st.ptr 2 ≠ 0
  · rw [if_pos h0, if_pos h0]
    cases hh : st.heap 0 with
    | false =>
      simp only []
      refine ⟨by omega, fun i h1 h2 => ?_⟩
      simp only [List.mem_cons, List.mem_singleton, List.not_mem_nil, or_false]
      omega
    | true =>
      simp only []
      refine ⟨by omega, fun i h1 h2 => ?_⟩
      simp only [List.mem_append, List.mem_cons, List.mem_singleton, List.not_mem_nil,
        or_false, List.mem_range'_1]
      omega
  · rw [if_neg h0, if_neg h0]
    simp only []
    refine ⟨by omega, fun i h1 h2 => ?_⟩
    simp only [List.mem_cons, List.mem_singleton, List.not_mem_nil, or_false]
    omega

theorem des_checked_loads_cover {α : Type} (f : rstate → Int × rstate × α)
    (loads : rstate → List Nat)
    (hcov : ∀ st, st.ptr ≤ (f st).2.1.ptr
      ∧ ∀ i, st.ptr ≤ i → i < (f st).2.1.ptr → i ∈ loads st)
    (n : Nat) (st : rstate) :
    st.ptr ≤ (des_checked f n st).2.1.ptr
      ∧ ∀ i, st.ptr ≤ i → i < (des_checked f n st).2.1.ptr →
          i ∈ des_checked_loads f loads n st := by
  induction n generalizing st with
  | zero =>
    refine ⟨le_refl _, fun i h1 h2 => ?_⟩
    simp only [des_checked] at h2
    omega
  | succ n ih =>
    obtain ⟨hm, hc⟩ := hcov st
    simp only [des_checked, des_checked_loads]
    by_cases h0 : (f st).1 ≠ 0
    · rw [if_pos h0, if_pos h0]
      exact ⟨hm, hc⟩
    · rw [if_neg h0, if_neg h0]
      obtain ⟨im, ic⟩ := ih (f st).2.1
      refine ⟨le_trans hm im, fun i h1 h2 => ?_⟩
      rw [List.mem_append]
      by_cases hi : i < (f st).2.1.ptr
      · exact Or.inl (hc i h1 hi)
      · exact Or.inr (ic i (by omega) h2)

theorem deserialize_rina_name_state (mem : Nat → Nat) (st : rstate) :
    (deserialize_rina_name mem st).2.1
      = (des_checked (deserialize_string mem) 4 st).2.1 := by
  simp only [deserialize_rina_name, des_checked]
  split_ifs <;> rfl

theorem deserialize_rina_name_cover (mem : Nat → Nat) (st : rstate) :
    st.ptr ≤ (deserialize_rina_name mem st).2.1.ptr
      ∧ ∀ i, st.ptr ≤ i → i < (deserialize_rina_name mem st).2.1.ptr →
          i ∈ deserialize_rina_name_loads mem st := by
  rw [deserialize_rina_name_state]
  exact des_checked_loads_cover _ _ (deserialize_string_cover mem) 4 st

/-- For an entry that declares names and strings only, every offset below the final
cursor of `deserialize_irati_msg` is loaded. -/
theorem deserialize_loads_cover {D B : Type} (A : abi) (E : externs D B)
    (numtables : List irati_msg_layout) (num_entries : Nat) (mem : Nat → Nat)
    (serbuf_len : Nat) (heap : Nat → Bool) (msgbuf_len : Nat) (L : irati_msg_layout)
    (ht : msg_type A mem < num_entries) (hL : numtables[msg_type A mem]? = some L)
    (hf : L.flow_specs = 0) (hd : L.dif_configs = 0) (hp : L.dtp_configs = 0)
    (hc : L.dtcp_configs = 0) (hb : L.buffers = 0) (r : des_msg D B)
    (hr : deserialize_irati_msg A E numtables num_entries mem serbuf_len heap msgbuf_len
      = Except.ok r) :
    ∀ i, i < r.desptr → i ∈ deserialize_irati_msg_loads A numtables num_entries mem heap := by
  intro i hi
  unfold deserialize_irati_msg at hr
  unfold deserialize_irati_msg_loads
  rw [if_neg (not_le.mpr ht), hL] at hr
  rw [if_neg (not_le.mpr ht), hL]
  simp only [] at hr ⊢
  obtain ⟨nm, nc⟩ := des_checked_loads_cover (deserialize_rina_name mem)
    (deserialize_rina_name_loads mem) (deserialize_rina_name_cover mem) L.names
    ⟨L.copylen, heap⟩
  cases hN : des_checked (deserialize_rina_name mem) L.names ⟨L.copylen, heap⟩ with
  | mk e rest =>
    cases rest with
    | mk st1 ns =>
      rw [hN] at hr nm nc
      simp only [] at nm nc
      cases e with
      | some ret =>
        simp only [Except.ok.injEq] at hr
        rw [← hr] at hi
        simp only [] at hi
        simp only [List.mem_append, List.mem_range'_1]
        by_cases hlt : i < L.copylen
        · exact Or.inl (Or.inr ⟨Nat.zero_le _, by omega⟩)
        · exact Or.inr (nc i (by omega) hi)
      | none =>
        simp only [] at hr ⊢
        obtain ⟨sm, sc⟩ := des_checked_loads_cover (deserialize_string mem)
          (deserialize_string_loads mem) (deserialize_string_cover mem) L.strings st1
        cases hS : des_checked (deserialize_string mem) L.strings st1 with
        | mk e2 rest2 =>
          cases rest2 with
          | mk st2 ss =>
            rw [hS] at hr sm sc
            simp only [] at sm sc
            have hptr : r.desptr = st2.ptr := by
              cases e2 with
              | some ret =>
                simp only [Except.ok.injEq] at hr
                rw [← hr]
              | none =>
                simp only [deserialize_tail, hf, hd, hp, hc, hb, des_unchecked,
                  Except.ok.injEq] at hr
                rw [← hr]
            rw [hptr] at hi
            simp only [List.mem_append, List.mem_range'_1]
            by_cases hlt : i < L.copylen
            · exact Or.inl (Or.inl (Or.inr ⟨Nat.zero_le _, by omega⟩))
            · by_cases hlt2 : i < st1.ptr
              · exact Or.inl (Or.inr (nc i (by omega) hlt2))
              · exact Or.inr (sc i (by omega) hi)

theorem deserialize_string_below (mem : Nat → Nat) (st : rstate) :
    ∀ i ∈ deserialize_string_loads mem st,
      st.ptr ≤ i ∧ i < (deserialize_string mem st).2.1.ptr := by
  unfold deserialize_string deserialize_string_loads
  simp only [COMMON_ALLOC]
  by_cases h0 : rd_le mem st.ptr 2 ≠ 0
  · rw [if_pos h0, if_pos h0]
    cases hh : st.heap 0 with
    | false =>
      simp only [List.mem_cons, List.mem_singleton, List.not_mem_nil, or_false]
      intro i hi
      omega
    | true =>
      simp only [List.mem_append, List.mem_cons, List.mem_singleton, List.not_mem_nil,
        or_false, List.mem_range'_1]
      intro i hi
      omega
  · rw [if_neg h0, if_neg h0]
    simp only [List.mem_cons, List.mem_singleton, List.not_mem_nil, or_false]
    intro i hi
    omega

theorem des_checked_loads_below {α : Type} (f : rstate → Int × rstate × α)
    (loads : rstate → List Nat)
    (hmono : ∀ st, st.ptr ≤ (f st).2.1.ptr)
    (hbel : ∀ st, ∀ i ∈ loads st, st.ptr ≤ i ∧ i < (f st).2.1.ptr)
    (n : Nat) (st : rstate) :
    st.ptr ≤ (des_checked f n st).2.1.ptr
      ∧ ∀ i ∈ des_checked_loads f loads n st,
          st.ptr ≤ i ∧ i < (des_checked f n st).2.1.ptr := by
  induction n generalizing st with
  | zero =>
    refine ⟨le_refl _, fun i hi => ?_⟩
    simp [des_checked_loads] at hi
  | succ n ih =>
    simp only [des_checked, des_checked_loads]
    by_cases h0 : (f st).1 ≠ 0
    · rw [if_pos h0, if_pos h0]
      exact ⟨hmono st, hbel st⟩
    · rw [if_neg h0, if_neg h0]
      obtain ⟨im, ib⟩ := ih (f st).2.1
      refine ⟨le_trans (hmono st) im, fun i hi => ?_⟩
      rcases List.mem_append.mp hi with hi | hi
      · have := hbel st i hi
        exact ⟨this.1, lt_of_lt_of_le this.2 im⟩
      · have := ib i hi
        exact ⟨le_trans (hmono st) this.1, this.2⟩

theorem deserialize_rina_name_below (mem : Nat → Nat) (st : rstate) :
    ∀ i ∈ deserialize_rina_name_loads mem st,
      st.ptr ≤ i ∧ i < (deserialize_rina_name mem st).2.1.ptr := by
  rw [deserialize_rina_name_state]
  exact (des_checked_loads_below _ _ (fun s => (deserialize_string_cover mem s).1)
    (deserialize_string_below mem) 4 st).2

/-- For an entry that declares names and strings only, `deserialize_irati_msg` loads
no offset at or beyond its final cursor, the bytes of the type tag apart. -/
theorem deserialize_loads_below {D B : Type} (A : abi) (E : externs D B)
    (numtables : List irati_msg_layout) (num_entries : Nat) (mem : Nat → Nat)
    (serbuf_len : Nat) (heap : Nat → Bool) (msgbuf_len : Nat) (L : irati_msg_layout)
    (ht : msg_type A mem < num_entries) (hL : numtables[msg_type A mem]? = some L)
    (hf : L.flow_specs = 0) (hd : L.dif_configs = 0) (hp : L.dtp_configs = 0)
    (hc : L.dtcp_configs = 0) (hb : L.buffers = 0) (r : des_msg D B)
    (hr : deserialize_irati_msg A E numtables num_entries mem serbuf_len heap msgbuf_len
      = Except.ok r) :
    ∀ i ∈ deserialize_irati_msg_loads A numtables num_entries mem heap,
      i < r.desptr ∨ (A.msg_type_off ≤ i ∧ i < A.msg_type_off + A.sizeof_msg_type) := by
  intro i hi
  unfold deserialize_irati_msg at hr
  unfold deserialize_irati_msg_loads at hi
  rw [if_neg (not_le.mpr ht), hL] at hr
  rw [if_neg (not_le.mpr ht), hL] at hi
  simp only [] at hr hi
  obtain ⟨nm, nb⟩ := des_checked_loads_below (deserialize_rina_name mem)
    (deserialize_rina_name_loads mem) (fun s => (deserialize_rina_name_cover mem s).1)
    (deserialize_rina_name_below mem) L.names ⟨L.copylen, heap⟩
  cases hN : des_checked (deserialize_rina_name mem) L.names ⟨L.copylen, heap⟩ with
  | mk e rest =>
    cases rest with
    | mk st1 ns =>
      rw [hN] at hr hi nm nb
      simp only [] at nm nb
      cases e with
      | some ret =>
        simp only [Except.ok.injEq] at hr
        rw [← hr]
        simp only [List.mem_append, List.mem_range'_1] at hi ⊢
        rcases hi with (hi | hi) | hi
        · exact Or.inr hi
        · exact Or.inl (by omega)
        · exact Or.inl (nb i hi).2
      | none =>
        simp only [] at hr hi
        obtain ⟨sm, sb⟩ := des_checked_loads_below (deserialize_string mem)
          (deserialize_string_loads mem) (fun s => (deserialize_string_cover mem s).1)
          (deserialize_string_below mem) L.strings st1
        cases hS : des_checked (deserialize_string mem) L.strings st1 with
        | mk e2 rest2 =>
          cases rest2 with
          | mk st2 ss =>
            rw [hS] at hr sm sb
            simp only [] at sm sb
            have hptr : r.desptr = st2.ptr := by
              cases e2 with
              | some ret =>
                simp only [Except.ok.injEq] at hr
                rw [← hr]
              | none =>
                simp only [deserialize_tail, hf, hd, hp, hc, hb, des_unchecked,
                  Except.ok.injEq] at hr
                rw [← hr]
            rw [hptr]
            simp only [List.mem_append, List.mem_range'_1] at hi
            rcases hi with ((hi | hi) | hi) | hi
            · exact Or.inr hi
            · exact Or.inl (by omega)
            · exact Or.inl (lt_of_lt_of_le (nb i hi).2 sm)
            · exact Or.inl (sb i hi).2

/-- C4 (as amended): for a type tag in range, `deserialize_irati_msg` returns a
non-zero code whenever it returns with its final cursor beyond `serbuf_len`. For an
entry that declares names and strings only it always returns, with a non-zero code when
the fixed part and the declared elements take more than `serbuf_len` bytes, and it has
then loaded every offset below its final cursor, those from `serbuf_len` on included,
and beyond the type tag it has loaded no other offset: nothing is compared with
`serbuf_len` before the final test. -/
theorem truncated_buffer_rejected {D B : Type} (A : abi) (E : externs D B)
    (numtables : List irati_msg_layout) (num_entries : Nat) (mem : Nat → Nat)
    (serbuf_len : Nat) (heap : Nat → Bool) (msgbuf_len : Nat)
    (ht : msg_type A mem < num_entries) :
    (∀ r, deserialize_irati_msg A E numtables num_entries mem serbuf_len heap msgbuf_len
        = Except.ok r → serbuf_len < r.desptr → r.ret ≠ 0)
      ∧ (∀ L, numtables[msg_type A mem]? = some L → L.flow_specs = 0 → L.dif_configs = 0 →
          L.dtp_configs = 0 → L.dtcp_configs = 0 → L.buffers = 0 →
          ∃ r, deserialize_irati_msg A E numtables num_entries mem serbuf_len heap msgbuf_len
              = Except.ok r
            ∧ (serbuf_len < (decode_names_strings L mem heap).2 → r.ret ≠ 0)
            ∧ (∀ i, i < r.desptr →
                i ∈ deserialize_irati_msg_loads A numtables num_entries mem heap)
            ∧ ∀ i ∈ deserialize_irati_msg_loads A numtables num_entries mem heap,
                i < r.desptr
                  ∨ (A.msg_type_off ≤ i ∧ i < A.msg_type_off + A.sizeof_msg_type)) := by
  refine ⟨?_, ?_⟩
  · intro r hr hlt
    rcases deserialize_irati_msg_ok A E numtables num_entries mem serbuf_len heap msgbuf_len
      ht r hr with ⟨_, hret⟩ | ⟨_, hret⟩
    · rw [hret, if_pos (by omega)]; decide
    · exact hret
  · intro L hL hf hd hp hc hb
    obtain ⟨r, hr, h1, h2⟩ := deserialize_names_strings A E numtables num_entries mem
      serbuf_len heap msgbuf_len L ht hL hf hd hp hc hb
    refine ⟨r, hr, fun hlt => ?_, deserialize_loads_cover A E numtables num_entries mem
      serbuf_len heap msgbuf_len L ht hL hf hd hp hc hb r hr,
      deserialize_loads_below A E numtables num_entries mem serbuf_len heap msgbuf_len L ht
        hL hf hd hp hc hb r hr⟩
    by_cases hall : ∀ c ∈ (decode_names_strings L mem heap).1, c = 0
    · rw [(h1 hall).2, if_pos (by omega)]
      decide
    · exact h2 hall

theorem truncated_buffer_rejected_witness :
    ∃ r, deserialize_irati_msg abi_lp64 externs_unit [⟨2, 0, 1, 0, 0, 0, 0, 0⟩] 1
        (mem_of [0, 0, 3, 0, 97, 98]) 6 heap_ok 0 = Except.ok r
      ∧ r.desptr = 7 ∧ r.ret ≠ 0
      ∧ 6 ∈ deserialize_irati_msg_loads abi_lp64 [⟨2, 0, 1, 0, 0, 0, 0, 0⟩] 1
          (mem_of [0, 0, 3, 0, 97, 98]) heap_ok := by
  obtain ⟨r, hr, h1, h2, _⟩ := (truncated_buffer_rejected abi_lp64 externs_unit
    [⟨2, 0, 1, 0, 0, 0, 0, 0⟩] 1 (mem_of [0, 0, 3, 0, 97, 98]) 6 heap_ok 0 (by decide)).2
    ⟨2, 0, 1, 0, 0, 0, 0, 0⟩ rfl rfl rfl rfl rfl rfl
  have hr2 : deserialize_irati_msg abi_lp64 externs_unit [⟨2, 0, 1, 0, 0, 0, 0, 0⟩] 1
      (mem_of [0, 0, 3, 0, 97, 98]) 6 heap_ok 0
      = Except.ok ⟨-1, 7, heap_ok, true,
          ⟨fun i => if i < 2 then mem_of [0, 0, 3, 0, 97, 98] i % 256 else 0, [],
            [some [97, 98]], [], [], [], [], []⟩⟩ := rfl
  have hd : r.desptr = 7 := by
    rw [hr2] at hr
    simp only [Except.ok.injEq] at hr
    rw [← hr]
  exact ⟨r, hr, hd, h1 (by decide), h2 6 (by omega)⟩

/-! ## Serialised lengths of the configuration structures -/

theorem policy_ptr_length (p : Option policy) (h : policy_ptr_ok p) :
    ∃ o, serialize_policy_ptr p = Except.ok o
      ∧ policy_serlen p = Except.ok (to_int o.length) := by
  obtain ⟨nm, ver, l, hp⟩ := h
  refine ⟨policy_bytes nm ver l, ?_, ?_⟩
  · simp [hp, serialize_policy_ptr, serialize_policy, list_entries, policy_bytes]
  · rw [hp, policy_serlen_eq]

theorem window_fctrl_length (w : window_fctrl_config) (h : window_fctrl_ok w) :
    ∃ o, serialize_window_fctrl_config w = Except.ok o
      ∧ window_fctrl_config_serlen w = Except.ok (to_int o.length) := by
  obtain ⟨a, ha1, ha2⟩ := policy_ptr_length _ h.1
  obtain ⟨b, hb1, hb2⟩ := policy_ptr_length _ h.2
  refine ⟨wr_le 4 w.initial_credit ++ wr_le 4 w.max_closed_winq_length ++ a ++ b, ?_, ?_⟩
  · simp [serialize_window_fctrl_config, ha1, hb1, bind, Except.bind, pure, Except.pure]
  · simp only [window_fctrl_config_serlen, ha2, hb2, bind, Except.bind, pure, Except.pure,
      List.length_append, wr_le_length]
    congr 1
    apply to_int_congr
    have := to_int_emod (a.length : Int)
    have := to_int_emod (b.length : Int)
    push_cast
    omega

theorem rate_fctrl_length (r : rate_fctrl_config) (h : rate_fctrl_ok r) :
    ∃ o, serialize_rate_fctrl_config r = Except.ok o
      ∧ rate_fctrl_config_serlen r = Except.ok (to_int o.length) := by
  obtain ⟨a, ha1, ha2⟩ := policy_ptr_length _ h.1
  obtain ⟨b, hb1, hb2⟩ := policy_ptr_length _ h.2.1
  obtain ⟨c, hc1, hc2⟩ := policy_ptr_length _ h.2.2
  refine ⟨wr_le 4 r.sending_rate ++ wr_le 4 r.time_period ++ a ++ b ++ c, ?_, ?_⟩
  · simp [serialize_rate_fctrl_config, ha1, hb1, hc1, bind, Except.bind, pure, Except.pure]
  · simp only [rate_fctrl_config_serlen, ha2, hb2, hc2, bind, Except.bind, pure, Except.pure,
      List.length_append, wr_le_length]
    congr 1
    apply to_int_congr
    have := to_int_emod (a.length : Int)
    have := to_int_emod (b.length : Int)
    have := to_int_emod (c.length : Int)
    push_cast
    omega

theorem when_set_length {α : Type} (flag : Bool) (ptr : Option α)
    (f : α → Except fault (List Nat)) (g : α → Except fault Int)
    (h : flag = true →
      ∃ x, ptr = some x ∧ ∃ o, f x = Except.ok o ∧ g x = Except.ok (to_int o.length)) :
    ∃ o, when_set flag ptr f [] = Except.ok o
      ∧ when_set flag ptr g 0 = Except.ok (to_int o.length) := by
  cases flag with
  | false => exact ⟨[], rfl, by rw [List.length_nil, to_int_of_lt 0 (by norm_num)]; rfl⟩
  | true =>
    obtain ⟨x, hx, o, h1, h2⟩ := h rfl
    exact ⟨o, by simp [when_set, hx, h1], by simp [when_set, hx, h2]⟩

theorem dtcp_fctrl_length (c : dtcp_fctrl_config) (h : dtcp_fctrl_ok c) :
    ∃ o, serialize_dtcp_fctrl_config c = Except.ok o
      ∧ dtcp_fctrl_config_serlen c = Except.ok (to_int o.length) := by
  obtain ⟨h1, h2, h3, h4, h5⟩ := h
  obtain ⟨a, ha1, ha2⟩ := policy_ptr_length _ h1
  obtain ⟨b, hb1, hb2⟩ := policy_ptr_length _ h2
  obtain ⟨d, hd1, hd2⟩ := policy_ptr_length _ h3
  obtain ⟨w, hw1, hw2⟩ := when_set_length c.window_based_fctrl c.wfctrl_cfg
    serialize_window_fctrl_config window_fctrl_config_serlen
    (fun hf => by
      obtain ⟨x, hx, hok⟩ := h4 hf
      exact ⟨x, hx, window_fctrl_length x hok⟩)
  obtain ⟨r, hr1, hr2⟩ := when_set_length c.rate_based_fctrl c.rfctrl_cfg
    serialize_rate_fctrl_config rate_fctrl_config_serlen
    (fun hf => by
      obtain ⟨x, hx, hok⟩ := h5 hf
      exact ⟨x, hx, rate_fctrl_length x hok⟩)
  refine ⟨wr_le 4 c.rcvd_buffers_th ++ wr_le 4 c.rcvd_bytes_percent_th
    ++ wr_le 4 c.rcvd_bytes_th ++ wr_le 4 c.sent_buffers_th
    ++ wr_le 4 c.sent_bytes_percent_th ++ wr_le 4 c.sent_bytes_th
    ++ wr_bool c.window_based_fctrl ++ wr_bool c.rate_based_fctrl
    ++ a ++ b ++ d ++ w ++ r, ?_, ?_⟩
  · simp [serialize_dtcp_fctrl_config, ha1, hb1, hd1, hw1, hr1, bind, Except.bind, pure,
      Except.pure]
  · simp only [dtcp_fctrl_config_serlen, ha2, hb2, hd2, hw2, hr2, bind, Except.bind, pure,
      Except.pure, List.length_append, wr_le_length, wr_bool]
    congr 1
    apply to_int_congr
    have := to_int_emod (a.length : Int)
    have := to_int_emod (b.length : Int)
    have := to_int_emod (d.length : Int)
    have := to_int_emod (w.length : Int)
    have := to_int_emod (r.length : Int)
    have := to_int_emod (26 + to_int a.length + to_int b.length + to_int d.length)
    have := to_int_emod
      (to_int (26 + to_int a.length + to_int b.length + to_int d.length) + to_int w.length)
    push_cast
    omega

theorem dtcp_rxctrl_length (c : dtcp_rxctrl_config) (h : dtcp_rxctrl_ok c) :
    ∃ o, serialize_dtcp_rxctrl_config c = Except.ok o
      ∧ dtcp_rxctrl_config_serlen c = Except.ok (to_int o.length) := by
  obtain ⟨h1, h2, h3, h4, h5, h6⟩ := h
  obtain ⟨a, ha1, ha2⟩ := policy_ptr_length _ h1
  obtain ⟨b, hb1, hb2⟩ := policy_ptr_length _ h2
  obtain ⟨d, hd1, hd2⟩ := policy_ptr_length _ h3
  obtain ⟨e, he1, he2⟩ := policy_ptr_length _ h4
  obtain ⟨f, hf1, hf2⟩ := policy_ptr_length _ h5
  obtain ⟨g, hg1, hg2⟩ := policy_ptr_length _ h6
  refine ⟨wr_le 4 c.data_retransmit_max ++ wr_le 4 c.initial_tr ++ wr_le 4 c.max_time_retry
    ++ a ++ b ++ d ++ e ++ f ++ g, ?_, ?_⟩
  · simp [serialize_dtcp_rxctrl_config, ha1, hb1, hd1, he1, hf1, hg1, bind, Except.bind, pure,
      Except.pure]
  · simp only [dtcp_rxctrl_config_serlen, ha2, hb2, hd2, he2, hf2, hg2, bind, Except.bind,
      pure, Except.pure, List.length_append, wr_le_length]
    congr 1
    apply to_int_congr
    have := to_int_emod (a.length : Int)
    have := to_int_emod (b.length : Int)
    have := to_int_emod (d.length : Int)
    have := to_int_emod (e.length : Int)
    have := to_int_emod (f.length : Int)
    have := to_int_emod (g.length : Int)
    push_cast
    omega

theorem example_policy_ok : policy_ptr_ok example_policy := ⟨_, _, _, rfl⟩

theorem example_rx_ok : dtcp_rxctrl_ok example_rx :=
  ⟨example_policy_ok, example_policy_ok, example_policy_ok, example_policy_ok,
    example_policy_ok, example_policy_ok⟩

theorem when_set_ok {α β : Type} (flag : Bool) (ptr : Option α) (f : α → Except fault β)
    (skip : β) (h : flag = true → ∃ x, ptr = some x ∧ ∃ o, f x = Except.ok o) :
    ∃ o, when_set flag ptr f skip = Except.ok o := by
  cases flag with
  | false => exact ⟨skip, rfl⟩
  | true =>
    obtain ⟨x, hx, o, h1⟩ := h rfl
    exact ⟨o, by simp [when_set, hx, h1]⟩

/-- C12: what the code does for a DTCP configuration whose policies and gated nested
configurations are present. `serialize_dctp_config` writes its bytes, but
`dtcp_config_serlen` adds the lengths up and ends without a `return` statement: the
value its caller receives is the indeterminate `indet`, whatever the configuration. -/
theorem dtcp_config_serlen_indeterminate (indet : Nat) (c : dtcp_config)
    (h : dtcp_config_ok c) :
    dtcp_config_serlen indet c = Except.ok indet
      ∧ ∃ o, serialize_dctp_config c = Except.ok o ∧ 2 ≤ o.length := by
  obtain ⟨h1, h2, h3, h4, h5⟩ := h
  obtain ⟨a, ha1, ha2⟩ := policy_ptr_length _ h1
  obtain ⟨b, hb1, hb2⟩ := policy_ptr_length _ h2
  obtain ⟨d, hd1, hd2⟩ := policy_ptr_length _ h3
  obtain ⟨f, hf1, hf2⟩ := when_set_length c.flow_ctrl c.fctrl_cfg
    serialize_dtcp_fctrl_config dtcp_fctrl_config_serlen
    (fun hf => by
      obtain ⟨x, hx, hok⟩ := h4 hf
      exact ⟨x, hx, dtcp_fctrl_length x hok⟩)
  obtain ⟨r, hr1, hr2⟩ := when_set_length c.rtx_ctrl c.rxctrl_cfg
    serialize_dtcp_rxctrl_config dtcp_rxctrl_config_serlen
    (fun hf => by
      obtain ⟨x, hx, hok⟩ := h5 hf
      exact ⟨x, hx, dtcp_rxctrl_length x hok⟩)
  refine ⟨?_, wr_bool c.flow_ctrl ++ wr_bool c.rtx_ctrl ++ a ++ b ++ d ++ f ++ r, ?_, ?_⟩
  · simp [dtcp_config_serlen, ha2, hb2, hd2, hf2, hr2, bind, Except.bind, pure, Except.pure]
  · simp [serialize_dctp_config, ha1, hb1, hd1, hf1, hr1, bind, Except.bind, pure,
      Except.pure]
  · simp only [List.length_append, wr_bool, wr_le_length]
    omega

theorem dtcp_config_serlen_indeterminate_witness :
    dtcp_config_serlen 0 example_dtcp = Except.ok 0
      ∧ ∃ o, serialize_dctp_config example_dtcp = Except.ok o ∧ 2 ≤ o.length :=
  dtcp_config_serlen_indeterminate 0 example_dtcp
    ⟨example_policy_ok, example_policy_ok, example_policy_ok,
      fun hf => absurd hf (by decide), fun _ => ⟨example_rx, rfl, example_rx_ok⟩⟩

/-! ## Messages: the layout of the bytes written -/

theorem string_prlen_wraps (s : List Nat) (h : s.length = 4294967296) :
    string_prlen (some s) = 0 ∧ serialize_string (some s) = [0, 0] := by
  have hp : string_prlen (some s) = 0 := by
    simp only [string_prlen, h, Nat.mod_self]
    rfl
  refine ⟨hp, ?_⟩
  simp only [serialize_string, hp, Nat.zero_mod, List.take_zero, List.append_nil]
  rfl

/-- C14 (counterexample): a string of `2 ^ 32` bytes. Its `strlen` is stored in an
`unsigned int`, which makes it 0: `string_prlen` counts no byte and `serialize_string`
writes the length 0 and nothing else. -/
theorem string_of_4GiB_written_empty :
    (List.replicate 4294967296 97).length = 4294967296
      ∧ string_prlen (some (List.replicate 4294967296 97)) = 0
      ∧ serialize_string (some (List.replicate 4294967296 97)) = [0, 0] :=
  ⟨List.length_replicate 4294967296 97,
    (string_prlen_wraps _ (List.length_replicate 4294967296 97)).1,
    (string_prlen_wraps _ (List.length_replicate 4294967296 97)).2⟩

/-- C14 (as amended): for a string longer than 65535 bytes and shorter than `2 ^ 32`
bytes, `string_prlen` is 65535, `serialize_string` writes the length 65535 followed by
the first 65535 bytes of the string, 65537 bytes in all, and `rina_name_serlen` and
`policy_parm_serlen` count the string as 65535 bytes. -/
theorem long_string_truncated (s : List Nat) (h1 : 65535 < s.length)
    (h2 : s.length < 4294967296) :
    string_prlen (some s) = 65535
      ∧ serialize_string (some s) = [255, 255] ++ s.take 65535
      ∧ (serialize_string (some s)).length = 65537
      ∧ rina_name_serlen (some ⟨some s, none, none, none⟩) = 4 * 2 + 65535
      ∧ policy_parm_serlen (some ⟨none, some s⟩) = 2 * 2 + 65535 := by
  have hp : string_prlen (some s) = 65535 := by
    simp only [string_prlen, Nat.mod_eq_of_lt h2]
    rw [if_pos h1]
  have hn : string_prlen none = 0 := rfl
  refine ⟨hp, ?_, ?_, ?_, ?_⟩
  · simp only [serialize_string, hp, Option.getD_some]
    rfl
  · rw [serialize_string_length, hp]
  · simp only [rina_name_serlen, hp, hn]
  · simp only [policy_parm_serlen, hp, hn]

theorem long_string_truncated_witness :
    string_prlen (some (List.replicate 70000 97)) = 65535
      ∧ (serialize_string (some (List.replicate 70000 97))).length = 65537 := by
  have h := long_string_truncated (List.replicate 70000 97)
    (lt_of_lt_of_eq (by decide : 65535 < 70000) (List.length_replicate 70000 97).symm)
    (lt_of_eq_of_lt (List.length_replicate 70000 97) (by decide : 70000 < 4294967296))
  exact ⟨h.1, h.2.2.1⟩

/-! ## The RIB: adding objects -/

theorem add_obj_parent_absent (rib : RIB) (fqn : List Char) (obj_ : Option RIBObj_)
    (fuel : Nat) (hp : rib.name_inst_map (get_parent_fqn rib fqn) = none) :
    add_obj rib fqn obj_ fuel = some (-1, rib, obj_) := by
  cases obj_ with
  | none => rfl
  | some obj => simp [add_obj, __get_obj_inst_id, hp]

/-- C15: what the code does when the parent name is present and the name itself is
not. The test that is meant to reject a name that already exists reads `id == -1`, so
it rejects every name that does not exist yet: `add_obj` returns -1, no index changes
and the caller keeps its pointer. -/
theorem add_obj_new_name_rejected (rib : RIB) (fqn : List Char) (obj : RIBObj_)
    (fuel : Nat) (pid : Int)
    (hp : rib.name_inst_map (get_parent_fqn rib fqn) = some pid)
    (hf : rib.name_inst_map fqn = none) :
    add_obj rib fqn (some obj) fuel = some (-1, rib, some obj) := by
  simp only [add_obj, __get_obj_inst_id, hp, hf]
  split <;> rfl

theorem add_obj_new_name_rejected_witness :
    get_parent_fqn rib_with_root ['/', 'a'] = []
      ∧ add_obj rib_with_root ['/', 'a'] (some ⟨200, false⟩) 10
          = some (-1, rib_with_root, some ⟨200, false⟩) :=
  ⟨rfl, add_obj_new_name_rejected rib_with_root ['/', 'a'] ⟨200, false⟩ 10 1 rfl rfl⟩

/-- C16: when the parent name is not present, `add_obj` returns -1, leaves the RIB,
and so its four indices, as they were, and leaves the caller's pointer as it was. -/
theorem add_obj_parent_missing (rib : RIB) (fqn : List Char) (obj_ : Option RIBObj_)
    (fuel : Nat) (hp : rib.name_inst_map (get_parent_fqn rib fqn) = none) :
    add_obj rib fqn obj_ fuel = some (-1, rib, obj_) :=
  add_obj_parent_absent rib fqn obj_ fuel hp

theorem add_obj_parent_missing_witness :
    get_parent_fqn rib_with_root ['/', 'a', '/', 'b'] = ['/', 'a']
      ∧ add_obj rib_with_root ['/', 'a', '/', 'b'] (some ⟨200, false⟩) 10
          = some (-1, rib_with_root, some ⟨200, false⟩) :=
  ⟨rfl, add_obj_parent_missing rib_with_root ['/', 'a', '/', 'b'] (some ⟨200, false⟩) 10 rfl⟩

/-- C17 (counterexample): on the RIB the constructor leaves, `add_obj` for the root
name returns -1 and adds nothing. -/
theorem add_root_to_empty_rib_fails :
    add_obj (RIB_new '/' 1 0) [] (some ⟨100, false⟩) 10
      = some (-1, RIB_new '/' 1 0, some ⟨100, false⟩) := rfl

/-- C17 (as amended): on an empty RIB the parent name of the root name is the root
name itself, it is looked up like any other parent and is absent, so `add_obj` for the
root name returns -1, adds nothing and leaves the caller's pointer as it was. -/
theorem add_root_needs_parent (separator : Char) (next_inst_id : Int) (num_of_deleg : Nat)
    (obj_ : Option RIBObj_) (fuel : Nat) :
    get_parent_fqn (RIB_new separator next_inst_id num_of_deleg) [] = []
      ∧ add_obj (RIB_new separator next_inst_id num_of_deleg) [] obj_ fuel
          = some (-1, RIB_new separator next_inst_id num_of_deleg, obj_) :=
  ⟨rfl, add_obj_parent_absent _ [] obj_ fuel rfl⟩

theorem get_new_inst_id_loop_used (m : Int → Option RIBObj_) (fuel : Nat) (next id : Int)
    (h : get_new_inst_id_loop m fuel next = some id) : 1 ≤ id ∧ (m id).isSome = true := by
  induction fuel generalizing next with
  | zero => simp [get_new_inst_id_loop] at h
  | succ fuel ih =>
    simp only [get_new_inst_id_loop] at h
    have hn : (1 : Int) ≤ (if next < 1 then 1 else next) := by split <;> omega
    generalize (if next < 1 then (1 : Int) else next) = n at h hn
    split at h
    · rename_i hu
      simp only [Option.some.injEq] at h
      subst h
      exact ⟨hn, hu⟩
    · exact ih _ h

theorem get_new_inst_id_loop_empty (m : Int → Option RIBObj_) (hm : ∀ k, m k = none)
    (fuel : Nat) (next : Int) : get_new_inst_id_loop m fuel next = none := by
  induction fuel generalizing next with
  | zero => rfl
  | succ fuel ih => simp [get_new_inst_id_loop, hm, ih]

theorem get_new_inst_id_loop_succ (m : Int → Option RIBObj_) (fuel : Nat) (next : Int)
    (h1 : 1 ≤ next) :
    get_new_inst_id_loop m (fuel + 1) next
      = if (m next).isSome = true then some next
        else get_new_inst_id_loop m fuel (int64_incr next) := by
  simp only [get_new_inst_id_loop]
  rw [if_neg (show ¬ next < 1 by omega)]

theorem get_new_inst_id_loop_low (m : Int → Option RIBObj_) (fuel : Nat) (next : Int)
    (h1 : next < 1) :
    get_new_inst_id_loop m (fuel + 1) next = get_new_inst_id_loop m (fuel + 1) 1 := by
  rw [get_new_inst_id_loop_succ m fuel 1 (le_refl _)]
  simp only [get_new_inst_id_loop]
  rw [if_pos h1]

theorem get_new_inst_id_loop_up (m : Int → Option RIBObj_) (k : Int)
    (hk : (m k).isSome = true) (hmax : k ≤ INT64_MAX) (d : Nat) :
    ∀ next, 1 ≤ next → next ≤ k → (k - next).toNat = d →
      ∃ fuel id, get_new_inst_id_loop m fuel next = some id := by
  induction d with
  | zero =>
    intro next h1 h2 hd
    have : next = k := by omega
    subst this
    exact ⟨1, next, by rw [get_new_inst_id_loop_succ m 0 next h1, if_pos hk]⟩
  | succ d ih =>
    intro next h1 h2 hd
    cases hu : (m next).isSome with
    | true => exact ⟨1, next, by rw [get_new_inst_id_loop_succ m 0 next h1, if_pos hu]⟩
    | false =>
      have hne : next ≠ INT64_MAX := by omega
      obtain ⟨fuel, id, h⟩ := ih (next + 1) (by omega) (by omega) (by omega)
      refine ⟨fuel + 1, id, ?_⟩
      rw [get_new_inst_id_loop_succ m fuel next h1, hu]
      simp only [int64_incr, if_neg hne]
      exact h

theorem get_new_inst_id_loop_down (m : Int → Option RIBObj_) (k : Int)
    (hk : (m k).isSome = true) (h1k : 1 ≤ k) (hmax : k ≤ INT64_MAX) (d : Nat) :
    ∀ next, 1 ≤ next → next ≤ INT64_MAX → (INT64_MAX - next).toNat = d →
      ∃ fuel id, get_new_inst_id_loop m fuel next = some id := by
  have hM : INT64_MAX = 9223372036854775807 := rfl
  induction d with
  | zero =>
    intro next h1 h2 hd
    have hn : next = INT64_MAX := by omega
    cases hu : (m next).isSome with
    | true => exact ⟨1, next, by rw [get_new_inst_id_loop_succ m 0 next h1, if_pos hu]⟩
    | false =>
      obtain ⟨fuel, id, h⟩ := get_new_inst_id_loop_up m k hk hmax (k - 1).toNat 1
        (le_refl _) h1k rfl
      cases fuel with
      | zero => simp [get_new_inst_id_loop] at h
      | succ fuel =>
        refine ⟨fuel + 1 + 1, id, ?_⟩
        rw [get_new_inst_id_loop_succ m (fuel + 1) next h1, hu]
        simp only [int64_incr, if_pos hn]
        rw [get_new_inst_id_loop_low m fuel _ (by omega)]
        exact h
  | succ d ih =>
    intro next h1 h2 hd
    cases hu : (m next).isSome with
    | true => exact ⟨1, next, by rw [get_new_inst_id_loop_succ m 0 next h1, if_pos hu]⟩
    | false =>
      have hne : next ≠ INT64_MAX := by omega
      obtain ⟨fuel, id, h⟩ := ih (next + 1) (by omega) (by omega) (by omega)
      refine ⟨fuel + 1, id, ?_⟩
      rw [get_new_inst_id_loop_succ m fuel next h1, hu]
      simp only [int64_incr, if_neg hne]
      exact h

/-- The loop of `get_new_inst_id` leaves as soon as some id between 1 and the largest
`int64_t` is in use. -/
theorem get_new_inst_id_loop_terminates (m : Int → Option RIBObj_) (k next : Int)
    (hk : (m k).isSome = true) (h1k : 1 ≤ k) (hmax : k ≤ INT64_MAX)
    (hnext : next ≤ INT64_MAX) : ∃ fuel id, get_new_inst_id_loop m fuel next = some id := by
  by_cases h1 : next < 1
  · obtain ⟨fuel, id, h⟩ := get_new_inst_id_loop_up m k hk hmax (k - 1).toNat 1
      (le_refl _) h1k rfl
    cases fuel with
    | zero => simp [get_new_inst_id_loop] at h
    | succ fuel =>
      refine ⟨fuel + 1, id, ?_⟩
      rw [get_new_inst_id_loop_low m fuel next h1]
      exact h
  · exact get_new_inst_id_loop_down m k hk h1k hmax (INT64_MAX - next).toNat next
      (by omega) hnext rfl

/-- C18: what the code does when the name and its parent name are both present (with
ids other than -1). The test `id == -1` lets the call through: whenever it returns, it
returns an instance id that was already in use, the caller's pointer has been set to
null, and the name and that id are now bound to the new object. -/
theorem add_obj_existing_name_overwrites (rib rib1 : RIB) (fqn : List Char) (obj : RIBObj_)
    (fuel : Nat) (pid fid ret : Int) (ptr : Option RIBObj_)
    (hp : rib.name_inst_map (get_parent_fqn rib fqn) = some pid) (hpid : pid ≠ -1)
    (hf : rib.name_inst_map fqn = some fid) (hfid : fid ≠ -1)
    (hr : add_obj rib fqn (some obj) fuel = some (ret, rib1, ptr)) :
    1 ≤ ret ∧ (rib.obj_inst_map ret).isSome = true ∧ ptr = none
      ∧ rib1.obj_name_map fqn = some obj ∧ rib1.obj_inst_map ret = some obj
      ∧ rib1.inst_name_map ret = some fqn ∧ rib1.name_inst_map fqn = some ret := by
  simp only [add_obj, __get_obj_inst_id, hp, hf, if_neg hpid, if_neg hfid,
    get_new_inst_id] at hr
  cases hl : get_new_inst_id_loop rib.obj_inst_map fuel rib.next_inst_id with
  | none => simp [hl] at hr
  | some id =>
    obtain ⟨h1, h2⟩ := get_new_inst_id_loop_used _ _ _ _ hl
    simp only [hl, Option.some.injEq, Prod.mk.injEq] at hr
    obtain ⟨hret, hrib, hptr⟩ := hr
    subst hret
    subst hrib
    refine ⟨h1, h2, hptr.symm, ?_, ?_, ?_, ?_⟩ <;> cases obj.delegates <;> simp [map_set]

theorem add_obj_existing_name_overwrites_witness :
    ∃ rib1, add_obj rib_with_root [] (some ⟨200, false⟩) 10 = some (1, rib1, none)
      ∧ rib_with_root.obj_name_map [] = some ⟨100, false⟩
      ∧ rib1.obj_name_map [] = some ⟨200, false⟩ :=
  ⟨_, rfl, rfl,
    (add_obj_existing_name_overwrites rib_with_root _ [] ⟨200, false⟩ 10 1 1 1 none rfl
      (by decide) rfl (by decide) rfl).2.2.2.1⟩

/-! ## The RIB: sequences of calls -/

theorem remove_obj_absent (rib : RIB) (i : Int) (h : rib.obj_inst_map i = none) :
    __remove_obj rib i = (-1, rib) := by
  simp [__remove_obj, get_obj, h]

theorem run_calls_new (fuel : Nat) (separator : Char) (next_inst_id : Int)
    (num_of_deleg : Nat) (calls : List rib_call) :
    run_calls fuel (RIB_new separator next_inst_id num_of_deleg) calls
      = some (RIB_new separator next_inst_id num_of_deleg) := by
  induction calls with
  | nil => rfl
  | cons c cs ih =>
    cases c with
    | add fqn obj_ =>
      have h := add_obj_parent_absent (RIB_new separator next_inst_id num_of_deleg) fqn obj_
        fuel rfl
      simp only [run_calls, h, ih]
    | remove i =>
      have h := remove_obj_absent (RIB_new separator next_inst_id num_of_deleg) i rfl
      simp only [run_calls, remove_obj, h, ih]
    | remove_fqn f =>
      have h := remove_obj_absent (RIB_new separator next_inst_id num_of_deleg)
        (get_obj_inst_id (RIB_new separator next_inst_id num_of_deleg) f) rfl
      simp only [run_calls, remove_obj_fqn, h, ih]

theorem consistent_new (separator : Char) (next_inst_id : Int) (num_of_deleg : Nat) :
    consistent (RIB_new separator next_inst_id num_of_deleg) := by
  refine ⟨fun _ => Iff.rfl, fun _ => Iff.rfl, ?_, ?_⟩
  · intro f i
    simp [RIB_new]
  · intro f i h
    simp [RIB_new] at h

/-- C19: every finite sequence of `add_obj` and `remove_obj` calls on the RIB the
constructor leaves runs to its end and leaves the four indices mutually consistent:
same keys in the two name maps, same keys in the two id maps, name to id and id to
name inverse to each other, and the same object by name and by id. -/
theorem indices_consistent (fuel : Nat) (separator : Char) (next_inst_id : Int)
    (num_of_deleg : Nat) (calls : List rib_call) :
    ∃ rib, run_calls fuel (RIB_new separator next_inst_id num_of_deleg) calls = some rib
      ∧ consistent rib :=
  ⟨_, run_calls_new fuel separator next_inst_id num_of_deleg calls,
    consistent_new separator next_inst_id num_of_deleg⟩

/-! ## The RIB: instance ids -/

/-- C20: what `get_new_inst_id` does. Its loop leaves at the first id that is found in
`obj_inst_map`. So whenever it returns, the id is at least 1 and is a key of the
instance-id index, that is, it belongs to a live object; when no id is in use, the loop
is still running after any number of iterations; and it does return as soon as some id
between 1 and the largest `int64_t` is in use. -/
theorem get_new_inst_id_returns_used (rib : RIB) :
    (∀ fuel id rib1, get_new_inst_id rib fuel = some (id, rib1) →
        1 ≤ id ∧ (rib.obj_inst_map id).isSome = true ∧ rib1.next_inst_id = id)
      ∧ ((∀ k, rib.obj_inst_map k = none) → ∀ fuel, get_new_inst_id rib fuel = none)
      ∧ (∀ k, 1 ≤ k → k ≤ INT64_MAX → (rib.obj_inst_map k).isSome = true →
          rib.next_inst_id ≤ INT64_MAX →
          ∃ fuel id rib1, get_new_inst_id rib fuel = some (id, rib1)) := by
  refine ⟨?_, ?_, ?_⟩
  · intro fuel id rib1 h
    simp only [get_new_inst_id] at h
    cases hl : get_new_inst_id_loop rib.obj_inst_map fuel rib.next_inst_id with
    | none => simp [hl] at h
    | some j =>
      simp only [hl, Option.some.injEq, Prod.mk.injEq] at h
      obtain ⟨h1, h2⟩ := get_new_inst_id_loop_used _ _ _ _ hl
      rw [← h.1, ← h.2]
      exact ⟨h1, h2, rfl⟩
  · intro hm fuel
    simp [get_new_inst_id, get_new_inst_id_loop_empty _ hm]
  · intro k h1 h2 hk hn
    obtain ⟨fuel, id, h⟩ := get_new_inst_id_loop_terminates rib.obj_inst_map k
      rib.next_inst_id hk h1 h2 hn
    exact ⟨fuel, id, { rib with next_inst_id := id }, by simp only [get_new_inst_id, h]⟩

theorem get_new_inst_id_returns_used_witness :
    (∃ rib1, get_new_inst_id rib_with_root 10 = some (1, rib1))
      ∧ rib_with_root.obj_inst_map 1 = some ⟨100, false⟩
      ∧ get_new_inst_id (RIB_new '/' 1 0) 1000 = none :=
  ⟨⟨_, rfl⟩, rfl, (get_new_inst_id_returns_used (RIB_new '/' 1 0)).2.1 (fun _ => rfl) 1000⟩

/-! ## The RIB: removing objects -/

theorem remove_obj_present (rib : RIB) (id : Int) (obj : RIBObj_) (fqn : List Char)
    (ho : rib.obj_inst_map id = some obj) (hf : rib.inst_name_map id = some fqn) :
    __remove_obj rib id =
      (0, { rib with
        obj_inst_map := map_erase rib.obj_inst_map id
        inst_name_map := map_erase rib.inst_name_map id
        name_inst_map := map_erase rib.name_inst_map fqn
        obj_name_map := map_erase rib.obj_name_map fqn
        deleg_cache := if obj.delegates then fun _ => none else rib.deleg_cache
        num_of_deleg := if obj.delegates then (rib.num_of_deleg + 4294967295) % 4294967296
          else rib.num_of_deleg }) := by
  simp only [__remove_obj, get_obj, ho, get_obj_fqn, __get_obj_fqn, hf]
  cases obj.delegates <;> simp

theorem absent_name_no_object (rib : RIB) (fqn : List Char) (hp : ids_positive rib)
    (h : rib.name_inst_map fqn = none) : get_obj rib (get_obj_inst_id rib fqn) = none := by
  simp only [get_obj, get_obj_inst_id, __get_obj_inst_id, h]
  cases hm : rib.obj_inst_map (-1) with
  | none => rfl
  | some o =>
    have := hp (-1) (by simp [hm])
    omega

theorem rib_with_flows_consistent : consistent rib_with_flows := by
  refine ⟨?_, ?_, ?_, ?_⟩
  · intro f
    simp only [rib_with_flows, map_set]
    split_ifs <;> simp
  · intro i
    simp only [rib_with_flows, map_set]
    split_ifs <;> simp
  · intro f i
    simp only [rib_with_flows, map_set]
    constructor
    · intro h
      split_ifs at h with h1 h2
      · simp only [Option.some.injEq] at h
        subst h1 h
        simp
      · simp only [Option.some.injEq] at h
        subst h2 h
        simp
    · intro h
      split_ifs at h with h1 h2
      · simp only [Option.some.injEq] at h
        subst h1 h
        simp
      · simp only [Option.some.injEq] at h
        subst h2 h
        simp
  · intro f i h
    simp only [rib_with_flows, map_set] at h ⊢
    split_ifs at h with h1 h2
    · simp only [Option.some.injEq] at h
      subst h1 h
      simp
    · simp only [Option.some.injEq] at h
      subst h2 h
      simp

theorem rib_with_flows_ids : ids_positive rib_with_flows := by
  intro i
  simp only [rib_with_flows, map_set]
  split_ifs with h1 h2
  · omega
  · omega
  · simp

/-- C21: on a RIB whose four indices agree and whose instance ids are positive,
`remove_obj(id)` returns -1 and leaves the RIB as it was when no object has the id;
otherwise the object has a name, the call returns 0, afterwards the id is no key of the
two id indices and the name no key of the two name indices, every entry under another
id or another name is as before, and the delegation cache is empty if the object
delegates and untouched if not. `remove_obj(fqn)` does what `remove_obj` of the id bound
to the name does, and returns -1 with the RIB unchanged when the name is absent. -/
theorem remove_obj_removes_entry (rib : RIB) (id : Int) (hc : consistent rib)
    (hp : ids_positive rib) :
    (rib.obj_inst_map id = none → remove_obj rib id = (-1, rib))
      ∧ (∀ obj, rib.obj_inst_map id = some obj →
          ∃ fqn, rib.inst_name_map id = some fqn ∧ rib.name_inst_map fqn = some id
            ∧ (remove_obj rib id).1 = 0
            ∧ (remove_obj rib id).2.obj_inst_map id = none
            ∧ (remove_obj rib id).2.inst_name_map id = none
            ∧ (remove_obj rib id).2.name_inst_map fqn = none
            ∧ (remove_obj rib id).2.obj_name_map fqn = none
            ∧ (∀ j, j ≠ id →
                (remove_obj rib id).2.obj_inst_map j = rib.obj_inst_map j
                  ∧ (remove_obj rib id).2.inst_name_map j = rib.inst_name_map j)
            ∧ (∀ g, g ≠ fqn →
                (remove_obj rib id).2.name_inst_map g = rib.name_inst_map g
                  ∧ (remove_obj rib id).2.obj_name_map g = rib.obj_name_map g)
            ∧ (obj.delegates = true → ∀ g, (remove_obj rib id).2.deleg_cache g = none)
            ∧ (obj.delegates = false → (remove_obj rib id).2.deleg_cache = rib.deleg_cache))
      ∧ (∀ fqn i, rib.name_inst_map fqn = some i → remove_obj_fqn rib fqn = remove_obj rib i)
      ∧ (∀ fqn, rib.name_inst_map fqn = none → remove_obj_fqn rib fqn = (-1, rib)) := by
  refine ⟨fun h => remove_obj_absent rib id h, ?_, ?_, ?_⟩
  · intro obj ho
    have hs : (rib.inst_name_map id).isSome = true := (hc.2.1 id).1 (by simp [ho])
    obtain ⟨fqn, hf⟩ := Option.isSome_iff_exists.1 hs
    refine ⟨fqn, hf, (hc.2.2.1 fqn id).2 hf, ?_⟩
    simp only [remove_obj, remove_obj_present rib id obj fqn ho hf, map_erase]
    refine ⟨by simp, by simp, by simp, by simp, by simp, ?_, ?_, ?_, ?_⟩
    · intro j hj
      simp [hj]
    · intro g hg
      simp [hg]
    · intro hd g
      simp [hd]
    · intro hd
      simp [hd]
  · intro fqn i h
    simp [remove_obj_fqn, remove_obj, get_obj_inst_id, __get_obj_inst_id, h]
  · intro fqn h
    have := absent_name_no_object rib fqn hp h
    simp only [remove_obj_fqn, __remove_obj, this]

theorem remove_obj_removes_entry_witness :
    consistent rib_with_flows ∧ ids_positive rib_with_flows
      ∧ remove_obj rib_with_flows 7 = (-1, rib_with_flows)
      ∧ remove_obj_fqn rib_with_flows ['/', 'f', 'l', 'o', 'w', 's']
          = remove_obj rib_with_flows 2
      ∧ remove_obj_fqn rib_with_flows ['/', 'x'] = (-1, rib_with_flows)
      ∧ (remove_obj rib_with_flows 2).1 = 0
      ∧ (remove_obj rib_with_flows 2).2.name_inst_map ['/', 'f', 'l', 'o', 'w', 's'] = none
      ∧ (remove_obj rib_with_flows 2).2.name_inst_map [] = some 1 :=
  ⟨rib_with_flows_consistent, rib_with_flows_ids,
    (remove_obj_removes_entry rib_with_flows 7 rib_with_flows_consistent
      rib_with_flows_ids).1 rfl,
    (remove_obj_removes_entry rib_with_flows 2 rib_with_flows_consistent
      rib_with_flows_ids).2.2.1 _ 2 rfl,
    (remove_obj_removes_entry rib_with_flows 2 rib_with_flows_consistent
      rib_with_flows_ids).2.2.2 _ rfl,
    rfl, rfl, rfl⟩

/-! ## The RIB: parent names -/

theorem find_last_of_absent (c : Char) (l : List Char) (h : c ∉ l) :
    find_last_of c l = none := by
  induction l with
  | nil => rfl
  | cons x xs ih =>
    simp only [List.mem_cons, not_or] at h
    simp only [find_last_of, ih h.2]
    simp [Ne.symm h.1]

theorem find_last_of_split (c : Char) (pre post : List Char) (h : c ∉ post) :
    find_last_of c (pre ++ c :: post) = some pre.length := by
  induction pre with
  | nil => simp [find_last_of, find_last_of_absent c post h]
  | cons x xs ih => simp [find_last_of, ih]

/-- C22: `get_parent_fqn` reads nothing of the RIB but the separator of its schema.
When the name does not contain the separator the result is the empty string; when the
name is `pre`, the separator, and a rest without separator, the result is `pre`, the
part before the last separator. With '/' the parent of "/a/b" is "/a" and the parent of
"/a" is the empty string. Two RIBs with the same separator give the same result. -/
theorem get_parent_fqn_before_last_separator (rib : RIB) (fqn : List Char) :
    (rib.separator ∉ fqn → get_parent_fqn rib fqn = [])
      ∧ (∀ pre post, fqn = pre ++ rib.separator :: post → rib.separator ∉ post →
          get_parent_fqn rib fqn = pre)
      ∧ (rib.separator = '/' →
          get_parent_fqn rib ['/', 'a', '/', 'b'] = ['/', 'a']
            ∧ get_parent_fqn rib ['/', 'a'] = [])
      ∧ (∀ rib2 : RIB, rib2.separator = rib.separator →
          get_parent_fqn rib2 fqn = get_parent_fqn rib fqn) := by
  refine ⟨?_, ?_, ?_, ?_⟩
  · intro h
    simp [get_parent_fqn, find_last_of_absent _ _ h]
  · intro pre post hf hp
    simp [get_parent_fqn, hf, find_last_of_split _ pre post hp]
  · intro hs
    simp only [get_parent_fqn, hs]
    exact ⟨rfl, rfl⟩
  · intro rib2 h
    simp [get_parent_fqn, h]

theorem get_parent_fqn_before_last_separator_witness :
    get_parent_fqn rib_with_flows ['/', 'f', 'l', 'o', 'w', 's', '/', '7']
        = ['/', 'f', 'l', 'o', 'w', 's']
      ∧ get_parent_fqn rib_with_flows ['a', 'b'] = []
      ∧ get_parent_fqn rib_with_root ['/', 'a', '/', 'b']
          = get_parent_fqn rib_with_flows ['/', 'a', '/', 'b'] :=
  ⟨(get_parent_fqn_before_last_separator rib_with_flows _).2.1 ['/', 'f', 'l', 'o', 'w', 's'] ['7'] rfl
      (by decide),
    (get_parent_fqn_before_last_separator rib_with_flows ['a', 'b']).1 (by decide),
    (get_parent_fqn_before_last_separator rib_with_flows _).2.2.2 rib_with_root rfl⟩

/-! ## Requests to the RIB -/

theorem absent_name_of_consistent (rib : RIB) (fqn : List Char) (hc : consistent rib)
    (h : rib.obj_name_map fqn = none) : rib.name_inst_map fqn = none := by
  cases hn : rib.name_inst_map fqn with
  | none => rfl
  | some i =>
    have := (hc.1 fqn).2 (by simp [hn])
    simp [h] at this

theorem present_name_of_consistent (rib : RIB) (fqn : List Char) (o : RIBObj_)
    (hc : consistent rib) (h : rib.obj_name_map fqn = some o) :
    ∃ i, rib.name_inst_map fqn = some i ∧ rib.obj_inst_map i = some o := by
  have hs : (rib.name_inst_map fqn).isSome = true := (hc.1 fqn).1 (by simp [h])
  obtain ⟨i, hi⟩ := Option.isSome_iff_exists.1 hs
  exact ⟨i, hi, by rw [← hc.2.2.2 fqn i hi, h]⟩

theorem absent_target_answers (H : RIBObj_methods) (rib : RIB) (con : con_handle_t)
    (obj : obj_info_t) (invoke_id : Int) (hp : ids_positive rib)
    (h : rib.name_inst_map obj.name_ = none) :
    RIB.read_request H rib con obj invoke_id
        = [event.sent rib_op.read con.port_ (some (empty_reply obj)) flags_t.NONE_FLAGS ⟨-1⟩
            invoke_id]
      ∧ RIB.cancel_read_request H rib con obj invoke_id
        = [event.sent rib_op.cancelRead con.port_ none flags_t.constructed ⟨-1⟩ invoke_id]
      ∧ RIB.write_request H rib con obj invoke_id
        = [event.sent rib_op.write con.port_ none flags_t.constructed ⟨-1⟩ invoke_id]
      ∧ RIB.start_request H rib con obj invoke_id
        = [event.sent rib_op.start con.port_ (some obj) flags_t.constructed ⟨-1⟩ invoke_id]
      ∧ RIB.stop_request H rib con obj invoke_id
        = [event.sent rib_op.stop con.port_ none flags_t.constructed ⟨-1⟩ invoke_id]
      ∧ RIB.delete_request H rib con obj invoke_id = [] := by
  have hn := absent_name_no_object rib obj.name_ hp h
  simp only [RIB.read_request, RIB.cancel_read_request, RIB.write_request,
    RIB.start_request, RIB.stop_request, RIB.delete_request, hn, and_self]

/-- C23: on a RIB whose indices agree and whose ids are positive, with an object `o`
at the parent name of the requested name and no object at the requested name itself,
`create_request` calls the create handler of `o` with the name, the class and the value
of the request, and then hands that handler's result, with the reply value the handler
left, to the provider as the create result on the port of the connection and with the
invoke id of the request. Nothing else is called or sent. -/
theorem create_request_goes_to_parent (H : RIBObj_methods) (rib : RIB) (con : con_handle_t)
    (obj : obj_info_t) (invoke_id : Int) (P : List Char) (o : RIBObj_)
    (hc : consistent rib) (hp : ids_positive rib)
    (hpar : get_parent_fqn rib obj.name_ = P)
    (hP : rib.obj_name_map P = some o) (hchild : rib.obj_name_map obj.name_ = none) :
    RIB.create_request H rib con obj invoke_id
      = [event.invoked rib_op.create o obj.name_ (some obj.class_) (some obj.value_),
          event.sent rib_op.create con.port_
            (some { empty_reply obj with
              value_ := (H.create o obj.name_ obj.class_ obj.value_ ⟨0, none⟩).2 })
            flags_t.NONE_FLAGS (H.create o obj.name_ obj.class_ obj.value_ ⟨0, none⟩).1
            invoke_id] := by
  have hn := absent_name_no_object rib obj.name_ hp (absent_name_of_consistent rib _ hc hchild)
  obtain ⟨i, hi, ho⟩ := present_name_of_consistent rib P o hc hP
  have hg : get_obj rib (get_obj_inst_id rib (get_parent_fqn rib obj.name_)) = some o := by
    simp [get_obj, get_obj_inst_id, __get_obj_inst_id, hpar, hi, ho]
  simp only [RIB.create_request, hn, hg, ite_self, empty_reply]

theorem create_request_goes_to_parent_witness :
    consistent rib_with_flows ∧ ids_positive rib_with_flows
      ∧ get_parent_fqn rib_with_flows example_obj.name_ = ['/', 'f', 'l', 'o', 'w', 's']
      ∧ rib_with_flows.obj_name_map ['/', 'f', 'l', 'o', 'w', 's'] = some ⟨200, true⟩
      ∧ rib_with_flows.obj_name_map example_obj.name_ = none
      ∧ RIB.create_request example_methods rib_with_flows example_con example_obj 7
          = [event.invoked rib_op.create ⟨200, true⟩ example_obj.name_
              (some ['F', 'l', 'o', 'w']) (some ⟨2, some [1, 2]⟩),
            event.sent rib_op.create 5
              (some ⟨example_obj.name_, ['F', 'l', 'o', 'w'], 0, ⟨1, some [9]⟩⟩)
              flags_t.NONE_FLAGS ⟨0⟩ 7] :=
  ⟨rib_with_flows_consistent, rib_with_flows_ids, rfl, rfl, rfl,
    create_request_goes_to_parent example_methods rib_with_flows example_con example_obj 7
      ['/', 'f', 'l', 'o', 'w', 's'] ⟨200, true⟩ rib_with_flows_consistent
      rib_with_flows_ids rfl rfl rfl⟩

/-- C24: what the seven request operations do when neither the requested name nor its
parent name is known to a RIB whose indices agree and whose ids are positive.
`read_request`, `cancel_read_request`, `write_request`, `start_request` and
`stop_request` hand exactly one result, with the code -1, to the provider on the port
of the connection and with the invoke id of the request. `create_request` and
`delete_request` return without having called or sent anything: the request is
dropped. -/
theorem unknown_target_create_delete_dropped (H : RIBObj_methods) (rib : RIB)
    (con : con_handle_t) (obj : obj_info_t) (invoke_id : Int)
    (hc : consistent rib) (hp : ids_positive rib)
    (htarget : rib.obj_name_map obj.name_ = none)
    (hparent : rib.obj_name_map (get_parent_fqn rib obj.name_) = none) :
    RIB.create_request H rib con obj invoke_id = []
      ∧ RIB.delete_request H rib con obj invoke_id = []
      ∧ RIB.read_request H rib con obj invoke_id
        = [event.sent rib_op.read con.port_ (some (empty_reply obj)) flags_t.NONE_FLAGS ⟨-1⟩
            invoke_id]
      ∧ RIB.cancel_read_request H rib con obj invoke_id
        = [event.sent rib_op.cancelRead con.port_ none flags_t.constructed ⟨-1⟩ invoke_id]
      ∧ RIB.write_request H rib con obj invoke_id
        = [event.sent rib_op.write con.port_ none flags_t.constructed ⟨-1⟩ invoke_id]
      ∧ RIB.start_request H rib con obj invoke_id
        = [event.sent rib_op.start con.port_ (some obj) flags_t.constructed ⟨-1⟩ invoke_id]
      ∧ RIB.stop_request H rib con obj invoke_id
        = [event.sent rib_op.stop con.port_ none flags_t.constructed ⟨-1⟩ invoke_id] := by
  have ht := absent_name_of_consistent rib _ hc htarget
  have hn := absent_name_no_object rib obj.name_ hp ht
  have hq := absent_name_no_object rib _ hp (absent_name_of_consistent rib _ hc hparent)
  obtain ⟨h1, h2, h3, h4, h5, h6⟩ := absent_target_answers H rib con obj invoke_id hp ht
  refine ⟨?_, h6, h1, h2, h3, h4, h5⟩
  simp only [RIB.create_request, hn, hq, ite_self]

theorem unknown_target_create_delete_dropped_witness :
    consistent (RIB_new '/' 1 0) ∧ ids_positive (RIB_new '/' 1 0)
      ∧ (RIB_new '/' 1 0).obj_name_map example_obj.name_ = none
      ∧ (RIB_new '/' 1 0).obj_name_map (get_parent_fqn (RIB_new '/' 1 0) example_obj.name_)
          = none
      ∧ RIB.create_request RIBObj_base (RIB_new '/' 1 0) example_con example_obj 7 = []
      ∧ RIB.delete_request RIBObj_base (RIB_new '/' 1 0) example_con example_obj 7 = [] :=
  ⟨consistent_new '/' 1 0, fun _ h => absurd h (by simp [RIB_new]), rfl, rfl,
    (unknown_target_create_delete_dropped RIBObj_base (RIB_new '/' 1 0) example_con
      example_obj 7 (consistent_new '/' 1 0) (fun _ h => absurd h (by simp [RIB_new]))
      rfl rfl).1,
    (unknown_target_create_delete_dropped RIBObj_base (RIB_new '/' 1 0) example_con
      example_obj 7 (consistent_new '/' 1 0) (fun _ h => absurd h (by simp [RIB_new]))
      rfl rfl).2.1⟩

/-- C25 (counterexample): the RIB holds a delegating object at "/flows", the parent
name of "/flows/7", and none at "/flows/7"; every handler would answer 0. A
`read_request` for "/flows/7" calls no handler and hands the result -1 to the
provider. -/
theorem read_request_ignores_parent :
    get_parent_fqn rib_with_flows example_obj.name_ = ['/', 'f', 'l', 'o', 'w', 's']
      ∧ rib_with_flows.obj_name_map ['/', 'f', 'l', 'o', 'w', 's'] = some ⟨200, true⟩
      ∧ rib_with_flows.obj_name_map example_obj.name_ = none
      ∧ (example_methods.read ⟨200, true⟩ example_obj.name_ ⟨0, none⟩).1 = ⟨0⟩
      ∧ RIB.read_request example_methods rib_with_flows example_con example_obj 7
          = [event.sent rib_op.read 5
              (some ⟨example_obj.name_, ['F', 'l', 'o', 'w'], 0, ⟨0, none⟩⟩)
              flags_t.NONE_FLAGS ⟨-1⟩ 7] :=
  ⟨rfl, rfl, rfl, rfl, rfl⟩

/-- C25 (as amended): `read_request`, `cancel_read_request`, `write_request`,
`start_request` and `stop_request` for a name that is absent from a RIB whose indices
agree and whose ids are positive call no handler and hand exactly one result, with the
code -1, to the provider on the port of the connection and with the invoke id of the
request, whether the parent name is present or not. -/
theorem absent_target_not_delegated (H : RIBObj_methods) (rib : RIB) (con : con_handle_t)
    (obj : obj_info_t) (invoke_id : Int) (hc : consistent rib) (hp : ids_positive rib)
    (htarget : rib.obj_name_map obj.name_ = none) :
    RIB.read_request H rib con obj invoke_id
        = [event.sent rib_op.read con.port_ (some (empty_reply obj)) flags_t.NONE_FLAGS ⟨-1⟩
            invoke_id]
      ∧ RIB.cancel_read_request H rib con obj invoke_id
        = [event.sent rib_op.cancelRead con.port_ none flags_t.constructed ⟨-1⟩ invoke_id]
      ∧ RIB.write_request H rib con obj invoke_id
        = [event.sent rib_op.write con.port_ none flags_t.constructed ⟨-1⟩ invoke_id]
      ∧ RIB.start_request H rib con obj invoke_id
        = [event.sent rib_op.start con.port_ (some obj) flags_t.constructed ⟨-1⟩ invoke_id]
      ∧ RIB.stop_request H rib con obj invoke_id
        = [event.sent rib_op.stop con.port_ none flags_t.constructed ⟨-1⟩ invoke_id] := by
  obtain ⟨h1, h2, h3, h4, h5, _⟩ := absent_target_answers H rib con obj invoke_id hp
    (absent_name_of_consistent rib _ hc htarget)
  exact ⟨h1, h2, h3, h4, h5⟩

theorem absent_target_not_delegated_witness :
    consistent rib_with_flows ∧ ids_positive rib_with_flows
      ∧ rib_with_flows.obj_name_map example_obj.name_ = none
      ∧ RIB.stop_request example_methods rib_with_flows example_con example_obj 7
          = [event.sent rib_op.stop 5 none flags_t.constructed ⟨-1⟩ 7] :=
  ⟨rib_with_flows_consistent, rib_with_flows_ids, rfl,
    (absent_target_not_delegated example_methods rib_with_flows example_con example_obj 7
      rib_with_flows_consistent rib_with_flows_ids rfl).2.2.2.2⟩

/-! ## The RIB daemon: requests on a port without RIB -/

/-- C26: when no RIB is bound to the port of the connection, each of the seven request
callbacks of the daemon hands exactly one result, with the code -1, to the provider on
that port and with the invoke id of the request, calls no handler of any object, and
leaves the registry as it was. -/
theorem daemon_request_without_rib (H : RIBObj_methods) (d : RIBDaemon) (con : con_handle_t)
    (obj : obj_info_t) (invoke_id : Int) (h : getByPortId d con.port_ = none) :
    RIBDaemon.create_request H d con obj invoke_id
        = ([event.sent rib_op.create con.port_ (some obj) flags_t.constructed ⟨-1⟩ invoke_id],
            d)
      ∧ RIBDaemon.delete_request H d con obj invoke_id
        = ([event.sent rib_op.delete_ con.port_ (some obj) flags_t.constructed ⟨-1⟩
            invoke_id], d)
      ∧ RIBDaemon.read_request H d con obj invoke_id
        = ([event.sent rib_op.read con.port_ (some obj) flags_t.constructed ⟨-1⟩ invoke_id],
            d)
      ∧ RIBDaemon.cancel_read_request H d con obj invoke_id
        = ([event.sent rib_op.cancelRead con.port_ none flags_t.constructed ⟨-1⟩ invoke_id],
            d)
      ∧ RIBDaemon.write_request H d con obj invoke_id
        = ([event.sent rib_op.write con.port_ none flags_t.constructed ⟨-1⟩ invoke_id], d)
      ∧ RIBDaemon.start_request H d con obj invoke_id
        = ([event.sent rib_op.start con.port_ (some obj) flags_t.constructed ⟨-1⟩ invoke_id],
            d)
      ∧ RIBDaemon.stop_request H d con obj invoke_id
        = ([event.sent rib_op.stop con.port_ none flags_t.constructed ⟨-1⟩ invoke_id], d) := by
  simp only [RIBDaemon.create_request, RIBDaemon.delete_request, RIBDaemon.read_request,
    RIBDaemon.cancel_read_request, RIBDaemon.write_request, RIBDaemon.start_request,
    RIBDaemon.stop_request, h, and_self]

theorem daemon_request_without_rib_witness :
    getByPortId example_daemon example_con.port_ = none
      ∧ RIBDaemon.stop_request example_methods example_daemon example_con example_obj 7
          = ([event.sent rib_op.stop 5 none flags_t.constructed ⟨-1⟩ 7], example_daemon) :=
  ⟨rfl,
    (daemon_request_without_rib example_methods example_daemon example_con example_obj 7
      rfl).2.2.2.2.2.2⟩

/-! ## The RIB daemon: handles -/

theorem get_new_handle_loop_first (m : Int → Option rib_object) (fuel : Nat) (n : Int)
    (h : 1 ≤ n) : get_new_handle_loop m (fuel + 1) n n = some (-1, n) := by
  simp [get_new_handle_loop, if_neg (show ¬ n < 1 by omega)]

theorem get_new_handle_loop_used (m : Int → Option rib_object) (fuel : Nat)
    (curr next handle nx : Int) (h : get_new_handle_loop m fuel curr next = some (handle, nx))
    (h0 : 0 ≤ handle) : 1 ≤ handle ∧ (m handle).isSome = true := by
  induction fuel generalizing curr next with
  | zero => simp [get_new_handle_loop] at h
  | succ fuel ih =>
    simp only [get_new_handle_loop] at h
    have hn : (1 : Int) ≤ (if next < 1 then 1 else next) := by split <;> omega
    generalize (if next < 1 then (1 : Int) else next) = n at h hn
    by_cases hc : curr = n
    · simp only [hc, if_true, Option.some.injEq, Prod.mk.injEq] at h
      omega
    · simp only [hc, if_false] at h
      by_cases hm : (m n).isSome = true
      · simp only [hm, if_true, Option.some.injEq, Prod.mk.injEq] at h
        rw [← h.1]
        exact ⟨hn, hm⟩
      · simp only [hm] at h
        exact ih _ _ h

theorem createRIB_no_handle (d : RIBDaemon) (version : Nat) (schema : RIBSchema)
    (fuel addr : Nat) (next_inst_id : Int) (num_of_deleg : Nat)
    (hs : d.ver_schema_map version = some schema) (hn : 1 ≤ d.next_handle_id) :
    RIBDaemon.createRIB d version (fuel + 1) addr next_inst_id num_of_deleg
      = some (Except.error (raised.Exception "Invalid RIB handle"), d) := by
  simp [RIBDaemon.createRIB, hs, get_new_handle,
    get_new_handle_loop_first d.handle_rib_map fuel d.next_handle_id hn]

/-- C27: what `createRIB` does. Without a schema for the version it throws
`eSchemaNotFound` and leaves the registry as it was. With a schema and a
`next_handle_id` of at least 1, the value the constructor of the daemon sets and the
least value `get_new_handle` ever leaves, `get_new_handle` gives -1 in its first
iteration and `createRIB` throws "Invalid RIB handle", the registry unchanged; so does
the first `createRIB` after `createSchema` on the registry the constructor leaves.
Whenever `createRIB` does return a handle, that handle is at least 1 and was a key of
the handle map before the call. -/
theorem createRIB_gets_no_new_handle (d : RIBDaemon) (version addr : Nat)
    (next_inst_id : Int) (num_of_deleg : Nat) :
    (d.ver_schema_map version = none → ∀ fuel,
        RIBDaemon.createRIB d version fuel addr next_inst_id num_of_deleg
          = some (Except.error raised.eSchemaNotFound, d))
      ∧ (∀ schema fuel, d.ver_schema_map version = some schema → 1 ≤ d.next_handle_id →
          RIBDaemon.createRIB d version (fuel + 1) addr next_inst_id num_of_deleg
            = some (Except.error (raised.Exception "Invalid RIB handle"), d))
      ∧ (∀ separator fuel,
          RIBDaemon.createRIB (RIBDaemon.createSchema RIBDaemon_new version separator).2
              version (fuel + 1) addr next_inst_id num_of_deleg
            = some (Except.error (raised.Exception "Invalid RIB handle"),
                (RIBDaemon.createSchema RIBDaemon_new version separator).2))
      ∧ (∀ fuel handle d1,
          RIBDaemon.createRIB d version fuel addr next_inst_id num_of_deleg
            = some (Except.ok handle, d1) →
          1 ≤ handle ∧ (d.handle_rib_map handle).isSome = true) := by
  refine ⟨?_, ?_, ?_, ?_⟩
  · intro h fuel
    simp [RIBDaemon.createRIB, h]
  · intro schema fuel hs hn
    exact createRIB_no_handle d version schema fuel addr next_inst_id num_of_deleg hs hn
  · intro separator fuel
    exact createRIB_no_handle _ version ⟨version, separator, 0⟩ fuel addr next_inst_id
      num_of_deleg (by simp [RIBDaemon.createSchema, RIBDaemon_new, map_set])
      (by simp [RIBDaemon.createSchema, RIBDaemon_new])
  · intro fuel handle d1 h
    simp only [RIBDaemon.createRIB] at h
    cases hs : d.ver_schema_map version with
    | none => simp [hs] at h
    | some schema =>
      simp only [hs, get_new_handle] at h
      cases hl : get_new_handle_loop d.handle_rib_map fuel d.next_handle_id
          d.next_handle_id with
      | none => simp [hl] at h
      | some r =>
        obtain ⟨hd, nx⟩ := r
        simp only [hl] at h
        by_cases hneg : hd < 0
        · simp [hneg] at h
        · simp only [hneg, if_false, Option.some.injEq, Prod.mk.injEq, Except.ok.injEq] at h
          rw [← h.1]
          exact get_new_handle_loop_used _ _ _ _ _ _ hl (by omega)

theorem createRIB_gets_no_new_handle_witness :
    example_daemon.ver_schema_map 1 = some ⟨1, '/', 2⟩ ∧ 1 ≤ example_daemon.next_handle_id
      ∧ RIBDaemon.createRIB example_daemon 1 10 3000 1 0
          = some (Except.error (raised.Exception "Invalid RIB handle"), example_daemon)
      ∧ RIBDaemon.createRIB example_daemon 8 10 3000 1 0
          = some (Except.error raised.eSchemaNotFound, example_daemon)
      ∧ RIBDaemon.createRIB (RIBDaemon.createSchema RIBDaemon_new 1 '/').2 1 10 3000 1 0
          = some (Except.error (raised.Exception "Invalid RIB handle"),
              (RIBDaemon.createSchema RIBDaemon_new 1 '/').2) :=
  ⟨rfl, by decide,
    (createRIB_gets_no_new_handle example_daemon 1 3000 1 0).2.1 ⟨1, '/', 2⟩ 9 rfl
      (by decide),
    (createRIB_gets_no_new_handle example_daemon 8 3000 1 0).1 rfl 10,
    (createRIB_gets_no_new_handle example_daemon 1 3000 1 0).2.2.1 '/' 9⟩

/-! ## The RIB daemon: application entities -/

theorem example_daemon_handles : handles_agree example_daemon := by
  intro h rib
  simp only [example_daemon, map_set]
  split_ifs with h1 h2
  · intro e
    simp only [Option.some.injEq] at e
    rw [← e, h1]
    rfl
  · intro e
    simp only [Option.some.injEq] at e
    rw [← e, h2]
    rfl
  · intro e
    simp at e

/-- C28: on a registry in which every RIB carries the handle it is stored under,
`associateRIBtoAE(handle, ae)` throws `eRIBNotFound` exactly when the handle is no key
of the handle map. With the RIB found, it throws `eRIBAlreadyAssociated` exactly when
the pair of `ae` and the version of that RIB is bound already; when the pair is free the
call returns, the pair is bound to that RIB, `get(version, ae)` gives the handle, and
every other binding and every other map is as before. When it throws, the registry is
unchanged. -/
theorem associateRIBtoAE_binds_pair (d : RIBDaemon) (handle : Int) (ae : List Char)
    (hw : handles_agree d) :
    ((RIBDaemon.associateRIBtoAE d handle ae).1 = Except.error raised.eRIBNotFound
        ↔ d.handle_rib_map handle = none)
      ∧ (∀ rib, d.handle_rib_map handle = some rib →
          ((RIBDaemon.associateRIBtoAE d handle ae).1
              = Except.error raised.eRIBAlreadyAssociated
            ↔ (d.aeversion_rib_map (ae, rib.version)).isSome = true)
          ∧ (d.aeversion_rib_map (ae, rib.version) = none →
              (RIBDaemon.associateRIBtoAE d handle ae).1 = Except.ok ()
                ∧ (RIBDaemon.associateRIBtoAE d handle ae).2.aeversion_rib_map
                    (ae, rib.version) = some rib
                ∧ RIBDaemon.get (RIBDaemon.associateRIBtoAE d handle ae).2 rib.version ae
                    = Except.ok handle
                ∧ (∀ k, k ≠ (ae, rib.version) →
                    (RIBDaemon.associateRIBtoAE d handle ae).2.aeversion_rib_map k
                      = d.aeversion_rib_map k)
                ∧ (RIBDaemon.associateRIBtoAE d handle ae).2.handle_rib_map
                    = d.handle_rib_map
                ∧ (RIBDaemon.associateRIBtoAE d handle ae).2.ver_schema_map
                    = d.ver_schema_map
                ∧ (RIBDaemon.associateRIBtoAE d handle ae).2.port_id_rib_map
                    = d.port_id_rib_map
                ∧ (RIBDaemon.associateRIBtoAE d handle ae).2.next_handle_id
                    = d.next_handle_id))
      ∧ (∀ e, (RIBDaemon.associateRIBtoAE d handle ae).1 = Except.error e →
          (RIBDaemon.associateRIBtoAE d handle ae).2 = d) := by
  cases hr : d.handle_rib_map handle with
  | none => simp [RIBDaemon.associateRIBtoAE, getRIB, hr]
  | some rib =>
    have hh := hw handle rib hr
    cases hb : d.aeversion_rib_map (ae, rib.version) with
    | none =>
      simp [RIBDaemon.associateRIBtoAE, getRIB, hr, hb, RIBDaemon.get, map_set, hh]
      intro a b hk ha hv
      exact absurd hv (hk ha)
    | some other => simp [RIBDaemon.associateRIBtoAE, getRIB, hr, hb]

theorem associateRIBtoAE_binds_pair_witness :
    handles_agree example_daemon
      ∧ (RIBDaemon.associateRIBtoAE example_daemon 9 ['b']).1
          = Except.error raised.eRIBNotFound
      ∧ (RIBDaemon.associateRIBtoAE example_daemon 2 ['a', 'e']).1
          = Except.error raised.eRIBAlreadyAssociated
      ∧ RIBDaemon.get (RIBDaemon.associateRIBtoAE example_daemon 2 ['b']).2 1 ['b']
          = Except.ok 2 :=
  ⟨example_daemon_handles,
    (associateRIBtoAE_binds_pair example_daemon 9 ['b'] example_daemon_handles).1.2 rfl,
    ((associateRIBtoAE_binds_pair example_daemon 2 ['a', 'e']
      example_daemon_handles).2.1 example_rib_2 rfl).1.2 rfl,
    (((associateRIBtoAE_binds_pair example_daemon 2 ['b']
      example_daemon_handles).2.1 example_rib_2 rfl).2 rfl).2.2.1⟩

/-- C29: what `deassociateRIBfromAE(handle, ae)` does when the pair of `ae` and the
version of the RIB under the handle is bound to another RIB, one at another address: it
does not throw `eRIBNotAssociated`; it returns and erases the binding of that other
RIB. Every other binding and every other map is as before. -/
theorem deassociate_unbinds_other_rib (d : RIBDaemon) (handle : Int) (ae : List Char)
    (rib other : rib_object) (hr : d.handle_rib_map handle = some rib)
    (hb : d.aeversion_rib_map (ae, rib.version) = some other)
    (hne : other.addr ≠ rib.addr) :
    d.aeversion_rib_map (ae, rib.version) ≠ some rib
      ∧ RIBDaemon.deassociateRIBfromAE d handle ae
        = (Except.ok (),
            { d with aeversion_rib_map := map_erase d.aeversion_rib_map (ae, rib.version) })
      ∧ (RIBDaemon.deassociateRIBfromAE d handle ae).2.aeversion_rib_map (ae, rib.version)
        = none := by
  refine ⟨?_, ?_, ?_⟩
  · rw [hb]
    intro e
    simp only [Option.some.injEq] at e
    exact hne (by rw [e])
  · simp [RIBDaemon.deassociateRIBfromAE, getRIB, hr, hb]
  · simp [RIBDaemon.deassociateRIBfromAE, getRIB, hr, hb, map_erase]

theorem deassociate_unbinds_other_rib_witness :
    example_daemon.handle_rib_map 2 = some example_rib_2
      ∧ example_daemon.aeversion_rib_map (['a', 'e'], 1) = some example_rib_1
      ∧ example_rib_1.addr ≠ example_rib_2.addr
      ∧ (RIBDaemon.deassociateRIBfromAE example_daemon 2 ['a', 'e']).1 = Except.ok ()
      ∧ (RIBDaemon.deassociateRIBfromAE example_daemon 2 ['a', 'e']).2.aeversion_rib_map
          (['a', 'e'], 1) = none :=
  ⟨rfl, rfl, by decide, rfl,
    (deassociate_unbinds_other_rib example_daemon 2 ['a', 'e'] example_rib_2 example_rib_1
      rfl rfl (by decide)).2.2⟩

/-! ## The RIB daemon: connections -/

theorem map_erase_set_absent {K V : Type} [DecidableEq K] (m : K → Option V) (k : K) (v : V)
    (h : m k = none) : map_erase (map_set m k v) k = m := by
  funext x
  by_cases hx : x = k
  · simp [map_erase, hx, h]
  · simp [map_erase, map_set, hx]

/-- C30: when the pair of the destination AE name and the version of a connection is
bound to the RIB `r` and its port is bound to nothing, `store_connection` returns,
`getByPortId` of the port is `r` afterwards, and every other port and every other map is
as before; a following `remove_connection` returns and leaves `getByPortId` of the port
null, the registry being again what it was before the two calls. When the pair is bound
to no RIB, `store_connection` throws `eRIBNotFound` and changes nothing. -/
theorem store_connection_binds_port (d : RIBDaemon) (con : con_handle_t) :
    (∀ r, d.aeversion_rib_map (con.dest_ae_name_, con.version_) = some r →
        getByPortId d con.port_ = none →
        (RIBDaemon.store_connection d con).1 = Except.ok ()
          ∧ getByPortId (RIBDaemon.store_connection d con).2 con.port_ = some r
          ∧ (∀ p, p ≠ con.port_ →
              getByPortId (RIBDaemon.store_connection d con).2 p = getByPortId d p)
          ∧ (RIBDaemon.store_connection d con).2.handle_rib_map = d.handle_rib_map
          ∧ (RIBDaemon.store_connection d con).2.ver_schema_map = d.ver_schema_map
          ∧ (RIBDaemon.store_connection d con).2.aeversion_rib_map = d.aeversion_rib_map
          ∧ (RIBDaemon.store_connection d con).2.next_handle_id = d.next_handle_id
          ∧ (RIBDaemon.remove_connection (RIBDaemon.store_connection d con).2 con).1
              = Except.ok ()
          ∧ getByPortId
              (RIBDaemon.remove_connection (RIBDaemon.store_connection d con).2 con).2
              con.port_ = none
          ∧ (RIBDaemon.remove_connection (RIBDaemon.store_connection d con).2 con).2 = d)
      ∧ (d.aeversion_rib_map (con.dest_ae_name_, con.version_) = none →
          RIBDaemon.store_connection d con = (Except.error raised.eRIBNotFound, d)) := by
  refine ⟨?_, ?_⟩
  · intro r hr hp
    simp only [getByPortId] at hp
    have hs : RIBDaemon.store_connection d con
        = (Except.ok (),
            { d with port_id_rib_map := map_set d.port_id_rib_map con.port_ r }) := by
      simp [RIBDaemon.store_connection, hr, hp]
    have hm : RIBDaemon.remove_connection
        { d with port_id_rib_map := map_set d.port_id_rib_map con.port_ r } con
        = (Except.ok (), d) := by
      simp [RIBDaemon.remove_connection, getByPortId, map_set,
        map_erase_set_absent d.port_id_rib_map con.port_ r hp]
    rw [hs]
    simp only [hm]
    refine ⟨trivial, by simp [getByPortId, map_set], ?_, trivial, trivial, trivial,
      trivial, trivial, hp, trivial⟩
    intro p hpne
    simp [getByPortId, map_set, hpne]
  · intro h
    simp [RIBDaemon.store_connection, h]

theorem store_connection_binds_port_witness :
    example_daemon.aeversion_rib_map (example_con.dest_ae_name_, example_con.version_)
        = some example_rib_1
      ∧ getByPortId example_daemon example_con.port_ = none
      ∧ getByPortId (RIBDaemon.store_connection example_daemon example_con).2 5
          = some example_rib_1
      ∧ RIBDaemon.store_connection example_daemon ⟨5, 2, ['a', 'e']⟩
          = (Except.error raised.eRIBNotFound, example_daemon) :=
  ⟨rfl, rfl,
    ((store_connection_binds_port example_daemon example_con).1 example_rib_1 rfl rfl).2.1,
    (store_connection_binds_port example_daemon ⟨5, 2, ['a', 'e']⟩).2 rfl⟩

/-! ## The RIB: the invariants are kept by `remove_obj` -/

theorem remove_obj_consistent (rib : RIB) (id : Int) (hc : consistent rib) :
    consistent (remove_obj rib id).2 := by
  cases ho : rib.obj_inst_map id with
  | none =>
    rw [remove_obj, remove_obj_absent rib id ho]
    exact hc
  | some obj =>
    have hs : (rib.inst_name_map id).isSome = true := (hc.2.1 id).1 (by simp [ho])
    obtain ⟨fqn, hf⟩ := Option.isSome_iff_exists.1 hs
    have hn : rib.name_inst_map fqn = some id := (hc.2.2.1 fqn id).2 hf
    rw [remove_obj, remove_obj_present rib id obj fqn ho hf]
    refine ⟨?_, ?_, ?_, ?_⟩
    · intro f
      simp only [map_erase]
      split_ifs
      · simp
      · exact hc.1 f
    · intro i
      simp only [map_erase]
      split_ifs
      · simp
      · exact hc.2.1 i
    · intro f i
      simp only [map_erase]
      by_cases h1 : f = fqn
      · by_cases h2 : i = id
        · simp [h1, h2]
        · simp only [h1, h2, if_true, if_false]
          constructor
          · intro h
            simp at h
          · intro h
            have := (hc.2.2.1 fqn i).2 h
            rw [hn] at this
            simp only [Option.some.injEq] at this
            exact absurd this.symm h2
      · by_cases h2 : i = id
        · simp only [h1, h2, if_true, if_false]
          constructor
          · intro h
            have := (hc.2.2.1 f id).1 h
            rw [hf] at this
            simp only [Option.some.injEq] at this
            exact absurd this.symm h1
          · intro h
            simp at h
        · simp only [h1, h2, if_false]
          exact hc.2.2.1 f i
    · intro f i
      simp only [map_erase]
      by_cases h1 : f = fqn
      · simp [h1]
      · simp only [h1, if_false]
        intro h
        have h2 : i ≠ id := by
          intro e
          have := (hc.2.2.1 f i).1 h
          rw [e, hf] at this
          simp only [Option.some.injEq] at this
          exact h1 this.symm
        simp only [h2, if_false]
        exact hc.2.2.2 f i h

theorem remove_obj_ids_positive (rib : RIB) (id : Int) (hp : ids_positive rib) :
    ids_positive (remove_obj rib id).2 := by
  cases ho : rib.obj_inst_map id with
  | none =>
    rw [remove_obj, remove_obj_absent rib id ho]
    exact hp
  | some obj =>
    intro i
    simp only [remove_obj, __remove_obj, get_obj, ho, map_erase]
    cases obj.delegates <;>
    · simp only [Bool.false_eq_true, if_false, if_true]
      unfold map_erase
      split_ifs
      · simp
      · exact hp i

/-! ## The RIB daemon: the handle a RIB carries -/

theorem handles_agree_new : handles_agree RIBDaemon_new := by
  intro h rib e
  simp [RIBDaemon_new] at e

theorem createRIB_handles_agree (d d1 : RIBDaemon) (version fuel addr : Nat)
    (next_inst_id : Int) (num_of_deleg : Nat) (r : Except raised Int)
    (hw : handles_agree d)
    (h : RIBDaemon.createRIB d version fuel addr next_inst_id num_of_deleg = some (r, d1)) :
    handles_agree d1 := by
  simp only [RIBDaemon.createRIB] at h
  cases hs : d.ver_schema_map version with
  | none =>
    simp only [hs, Option.some.injEq, Prod.mk.injEq] at h
    rw [← h.2]
    exact hw
  | some schema =>
    simp only [hs, get_new_handle] at h
    cases hl : get_new_handle_loop d.handle_rib_map fuel d.next_handle_id
        d.next_handle_id with
    | none => simp [hl] at h
    | some p =>
      obtain ⟨hd, nx⟩ := p
      simp only [hl] at h
      by_cases hneg : hd < 0
      · simp only [hneg, if_true, Option.some.injEq, Prod.mk.injEq] at h
        rw [← h.2]
        exact hw
      · simp only [hneg, if_false, Option.some.injEq, Prod.mk.injEq] at h
        rw [← h.2]
        intro k rib
        simp only [map_set]
        split_ifs with hk
        · intro e
          simp only [Option.some.injEq] at e
          rw [← e, hk]
        · exact hw k rib

/-! ## Names as strings: validity of a serialised name -/

theorem rina_sername_valid_loop_iff (s : List Nat) (cnt : Nat) (h : cnt ≤ 3) :
    rina_sername_valid_loop s cnt = true ↔ cnt + s.count 58 ≤ 3 := by
  induction s generalizing cnt with
  | nil => simp [rina_sername_valid_loop, h]
  | cons c s ih =>
    by_cases hc : c = 58
    · subst hc
      simp only [rina_sername_valid_loop, if_true, List.count_cons_self]
      by_cases h3 : cnt + 1 > 3
      · simp only [h3, if_true]
        constructor
        · intro hf
          cases hf
        · intro hle
          omega
      · simp only [h3, if_false]
        rw [ih (cnt + 1) (by omega)]
        omega
    · simp only [rina_sername_valid_loop, hc, if_false]
      rw [ih cnt h, List.count_cons_of_ne (Ne.symm hc)]

theorem rina_sername_valid_some (s : List Nat) :
    rina_sername_valid (some s)
      = if s ≠ [] ∧ s.count 58 ≤ 3 ∧ s.head? ≠ some 58 then 1 else 0 := by
  have hl := rina_sername_valid_loop_iff s 0 (by omega)
  simp only [Nat.zero_add] at hl
  cases s with
  | nil => simp [rina_sername_valid]
  | cons c t =>
    simp only [rina_sername_valid, List.length_cons, Nat.add_one_ne_zero, if_false, ne_eq,
      reduceCtorEq, not_false_eq_true, true_and]
    by_cases hv : rina_sername_valid_loop (c :: t) 0 = true
    · have hcount := hl.1 hv
      simp only [hv, if_true, hcount, true_and]
      by_cases hh : (c :: t).head? = some 58
      · simp [hh]
      · simp [hh]
    · have hcount : ¬ List.count 58 (c :: t) ≤ 3 := fun hle => hv (hl.2 hle)
      simp [hv, hcount]

/-- C31: `rina_sername_valid` returns 1 exactly when the string is not null, not empty,
holds at most three ':' characters and does not begin with ':'; in every other case it
returns 0. So it accepts every non-empty string without a colon and rejects every
string with four or more colons. -/
theorem sername_valid_iff (str : Option (List Nat)) :
    (rina_sername_valid str = 1
        ↔ ∃ s, str = some s ∧ s ≠ [] ∧ s.count 58 ≤ 3 ∧ s.head? ≠ some 58)
      ∧ (rina_sername_valid str ≠ 1 → rina_sername_valid str = 0)
      ∧ (∀ s, s ≠ [] → 58 ∉ s → rina_sername_valid (some s) = 1)
      ∧ (∀ s, 4 ≤ s.count 58 → rina_sername_valid (some s) = 0) := by
  refine ⟨?_, ?_, ?_, ?_⟩
  · cases str with
    | none => simp [rina_sername_valid]
    | some s =>
      rw [rina_sername_valid_some]
      constructor
      · intro h
        split at h
        · rename_i hc
          exact ⟨s, rfl, hc⟩
        · simp at h
      · rintro ⟨t, ht, hc⟩
        simp only [Option.some.injEq] at ht
        subst ht
        rw [if_pos hc]
  · cases str with
    | none => simp [rina_sername_valid]
    | some s =>
      rw [rina_sername_valid_some]
      split <;> simp
  · intro s hne hn
    rw [rina_sername_valid_some, if_pos]
    refine ⟨hne, ?_, ?_⟩
    · rw [List.count_eq_zero_of_not_mem hn]
      omega
    · cases s with
      | nil => simp
      | cons c t =>
        simp only [List.head?_cons, ne_eq, Option.some.injEq]
        intro hc
        exact hn (by simp [hc])
  · intro s h4
    rw [rina_sername_valid_some, if_neg]
    intro h
    omega

theorem sername_valid_iff_witness :
    rina_sername_valid (some example_str) = 1
      ∧ rina_sername_valid (some [97, 98]) = 1
      ∧ rina_sername_valid (some [97, 58, 58, 58, 58]) = 0
      ∧ rina_sername_valid (some [58, 97]) = 0
      ∧ rina_sername_valid none = 0 :=
  ⟨(sername_valid_iff (some example_str)).1.2 ⟨example_str, rfl, by decide⟩,
    (sername_valid_iff none).2.2.1 [97, 98] (by decide) (by decide),
    (sername_valid_iff none).2.2.2 [97, 58, 58, 58, 58] (by decide),
    (sername_valid_iff (some [58, 97])).2.1 (by decide),
    (sername_valid_iff none).2.1 (by decide)⟩

/-! ## Names: comparison -/

theorem same_field_iff_eq (a b : Option (List Nat)) : same_field a b ↔ a = b := by
  cases a <;> cases b <;> simp [same_field]
  exact eq_comm

theorem field_differs_false_iff (a b : Option (List Nat)) :
    field_differs a b = false ↔ same_field a b := by
  rw [same_field_iff_eq]
  cases a <;> cases b <;> simp [field_differs]

theorem rina_name_cmp_some (a b : name) :
    rina_name_cmp (some a) (some b)
      = if same_field a.process_name b.process_name
            ∧ same_field a.process_instance b.process_instance
            ∧ same_field a.entity_name b.entity_name
            ∧ same_field a.entity_instance b.entity_instance then 0 else -1 := by
  simp only [rina_name_cmp, ← field_differs_false_iff]
  cases field_differs a.process_name b.process_name <;>
    cases field_differs a.process_instance b.process_instance <;>
    cases field_differs a.entity_name b.entity_name <;>
    cases field_differs a.entity_instance b.entity_instance <;> simp

/-- C33: for two names that are not null, `rina_name_cmp` returns 0 exactly when each of
the four fields is absent in both or present in both with the same contents, and -1
otherwise; with a null argument it returns 0 when both are null and 1 when one is. A
name compares equal to itself, and `a` compares equal to `b` exactly when `b` compares
equal to `a`. -/
theorem name_cmp_zero_iff (a b : name) :
    (rina_name_cmp (some a) (some b) = 0
        ↔ same_field a.process_name b.process_name
          ∧ same_field a.process_instance b.process_instance
          ∧ same_field a.entity_name b.entity_name
          ∧ same_field a.entity_instance b.entity_instance)
      ∧ (rina_name_cmp (some a) (some b) ≠ 0 → rina_name_cmp (some a) (some b) = -1)
      ∧ rina_name_cmp none none = 0
      ∧ rina_name_cmp none (some a) = 1
      ∧ rina_name_cmp (some a) none = 1
      ∧ rina_name_cmp (some a) (some a) = 0
      ∧ (rina_name_cmp (some a) (some b) = 0 ↔ rina_name_cmp (some b) (some a) = 0) := by
  refine ⟨?_, ?_, rfl, rfl, rfl, ?_, ?_⟩
  · rw [rina_name_cmp_some]
    split <;> simp [*]
  · rw [rina_name_cmp_some]
    split <;> simp
  · rw [rina_name_cmp_some, if_pos]
    simp [same_field_iff_eq]
  · rw [rina_name_cmp_some, rina_name_cmp_some]
    simp only [same_field_iff_eq]
    constructor
    · intro h
      split at h
      · rename_i hc
        rw [if_pos ⟨hc.1.symm, hc.2.1.symm, hc.2.2.1.symm, hc.2.2.2.symm⟩]
      · simp at h
    · intro h
      split at h
      · rename_i hc
        rw [if_pos ⟨hc.1.symm, hc.2.1.symm, hc.2.2.1.symm, hc.2.2.2.symm⟩]
      · simp at h

theorem name_cmp_zero_iff_witness :
    rina_name_cmp (some example_name) (some ⟨some [97], some [98], none, none⟩) = 0
      ∧ rina_name_cmp (some example_name) (some ⟨some [97], some [98], some [], none⟩) = -1 :=
  ⟨(name_cmp_zero_iff example_name ⟨some [97], some [98], none, none⟩).1.2
      ⟨Or.inr ⟨_, rfl, rfl⟩, Or.inr ⟨_, rfl, rfl⟩, Or.inl ⟨rfl, rfl⟩, Or.inl ⟨rfl, rfl⟩⟩,
    (name_cmp_zero_iff example_name ⟨some [97], some [98], some [], none⟩).2.1 (by decide)⟩

/-! ## Names as strings: parsing -/

theorem strsep_scan_splitOn (s : List Nat) :
    s.splitOn 58
      = (strsep_scan 58 s).1
          :: (match (strsep_scan 58 s).2 with
              | none => []
              | some r => r.splitOn 58) := by
  induction s with
  | nil => rfl
  | cons c s ih =>
    simp only [List.splitOn] at ih ⊢
    rw [List.splitOnP_cons]
    by_cases hc : c = 58
    · simp [strsep_scan, hc]
    · have hb : (c == 58) = false := by simp [hc]
      simp only [strsep_scan, hc, if_false, hb, Bool.false_eq_true]
      rw [ih]
      rfl

theorem strsep_parts (strp : Option (List Nat)) :
    (strsep strp 58).1 = ((strp.map (fun s => s.splitOn 58)).getD [])[0]?
      ∧ (((strsep strp 58).2).map (fun s => s.splitOn 58)).getD []
          = ((strp.map (fun s => s.splitOn 58)).getD []).tail := by
  cases strp with
  | none => simp [strsep]
  | some s =>
    simp only [strsep, Option.map_some', Option.getD_some]
    rw [strsep_scan_splitOn s]
    cases (strsep_scan 58 s).2 <;> simp

theorem fill_field_heap_ok (s : Option (List Nat)) :
    fill_field s heap_ok = (norm_str s, heap_ok) ∧ fill_failed s (norm_str s) = false := by
  cases s with
  | none => simp [fill_field, fill_failed, norm_str]
  | some l =>
    cases l with
    | nil => simp [fill_field, fill_failed, norm_str]
    | cons c t => simp [fill_field, fill_failed, norm_str, COMMON_STRDUP, alloc_heap_ok]

theorem delimited_field_eq (str : List Nat) (i : Nat) :
    delimited_field str i = norm_str ((str.splitOn 58)[i]?) := by
  simp only [delimited_field, norm_str]
  cases (str.splitOn 58)[i]? with
  | none => simp
  | some f => simp

theorem rina_name_from_string_heap_ok (str : List Nat) :
    rina_name_from_string str heap_ok
      = (0, some ⟨delimited_field str 0, delimited_field str 1, delimited_field str 2,
          delimited_field str 3⟩, heap_ok) := by
  have h1 := strsep_parts (some str)
  have h2 := strsep_parts (strsep (some str) 58).2
  have h3 := strsep_parts (strsep (strsep (some str) 58).2 58).2
  have h4 := strsep_parts (strsep (strsep (strsep (some str) 58).2 58).2 58).2
  simp only [Option.map_some', Option.getD_some] at h1
  rw [h1.2] at h2
  rw [h2.2] at h3
  rw [h3.2] at h4
  have e1 : (strsep (some str) 58).1 = (str.splitOn 58)[0]? := h1.1
  have e2 : (strsep (strsep (some str) 58).2 58).1 = (str.splitOn 58)[1]? := by
    rw [h2.1]
    cases str.splitOn 58 <;> simp
  have e3 : (strsep (strsep (strsep (some str) 58).2 58).2 58).1 = (str.splitOn 58)[2]? := by
    rw [h3.1]
    rcases str.splitOn 58 with _ | ⟨a, _ | ⟨b, l⟩⟩ <;> simp
  have e4 : (strsep (strsep (strsep (strsep (some str) 58).2 58).2 58).2 58).1
      = (str.splitOn 58)[3]? := by
    rw [h4.1]
    rcases str.splitOn 58 with _ | ⟨a, _ | ⟨b, _ | ⟨c, l⟩⟩⟩ <;> simp
  have hapn : ∃ t, (strsep (some str) 58).1 = some t := ⟨_, rfl⟩
  obtain ⟨t, ht⟩ := hapn
  simp only [rina_name_from_string, __rina_name_from_string, COMMON_STRDUP, alloc_heap_ok,
    __rina_name_fill]
  rw [ht]
  simp only []
  rw [← ht, e1, e2, e3, e4]
  simp only [(fill_field_heap_ok _).1, (fill_field_heap_ok _).2, delimited_field_eq,
    Bool.or_self, Bool.false_eq_true, if_false]

theorem splitOn_four (a b c d : List Nat) (ha : 58 ∉ a) (hb : 58 ∉ b) (hc : 58 ∉ c)
    (tl : List Nat) :
    (a ++ 58 :: (b ++ 58 :: (c ++ 58 :: (d ++ tl)))).splitOn 58
      = a :: b :: c :: (d ++ tl).splitOn 58 := by
  have hp : ∀ l : List Nat, 58 ∉ l → ∀ x ∈ l, ¬ (x == 58) = true := by
    intro l hl x hx
    simp only [beq_iff_eq]
    intro e
    exact hl (e ▸ hx)
  simp only [List.splitOn]
  rw [List.splitOnP_first _ _ (hp a ha) 58 (by simp),
    List.splitOnP_first _ _ (hp b hb) 58 (by simp),
    List.splitOnP_first _ _ (hp c hc) 58 (by simp)]

theorem splitOn_last (d : List Nat) (hd : 58 ∉ d) (rest : List Nat) :
    d.splitOn 58 = [d] ∧ (d ++ 58 :: rest).splitOn 58 = d :: rest.splitOn 58 := by
  have hp : ∀ x ∈ d, ¬ (x == 58) = true := by
    intro x hx
    simp only [beq_iff_eq]
    intro e
    exact hd (e ▸ hx)
  simp only [List.splitOn]
  exact ⟨List.splitOnP_eq_single _ _ hp, List.splitOnP_first _ _ hp 58 (by simp) rest⟩

/-- C32: when no allocation fails, `rina_name_from_string` returns 0 for every string
and sets the process name, the process instance, the entity name and the entity instance
to the first, second, third and fourth of the parts the string falls into at its ':'
characters; a part that is missing or empty gives an absent field. What follows the
':' after the fourth part is not looked at: the string of four parts and the same
string with a ':' and more text after it give the same name. For "a:b" the process name
is "a", the process instance is "b" and both entity fields are absent. -/
theorem name_from_string_fields (str : List Nat) :
    rina_name_from_string str heap_ok
        = (0, some ⟨delimited_field str 0, delimited_field str 1, delimited_field str 2,
            delimited_field str 3⟩, heap_ok)
      ∧ (∀ a b c d rest, 58 ∉ a → 58 ∉ b → 58 ∉ c → 58 ∉ d →
          str = a ++ 58 :: (b ++ 58 :: (c ++ 58 :: (d ++ 58 :: rest))) →
          rina_name_from_string str heap_ok
            = rina_name_from_string (a ++ 58 :: (b ++ 58 :: (c ++ 58 :: d))) heap_ok)
      ∧ rina_name_from_string [97, 58, 98] heap_ok
        = (0, some ⟨some [97], some [98], none, none⟩, heap_ok) := by
  refine ⟨rina_name_from_string_heap_ok str, ?_, ?_⟩
  · intro a b c d rest ha hb hc hd hs
    rw [rina_name_from_string_heap_ok, rina_name_from_string_heap_ok]
    have h1 := splitOn_four a b c d ha hb hc (58 :: rest)
    have h2 := splitOn_four a b c d ha hb hc []
    simp only [List.append_nil] at h2
    have h3 := splitOn_last d hd rest
    simp [delimited_field, hs, h1, h2, h3.1, h3.2]
  · rw [rina_name_from_string_heap_ok]
    rfl

theorem name_from_string_fields_witness :
    rina_name_from_string example_str heap_ok = (0, some example_name, heap_ok)
      ∧ rina_name_from_string [97, 58, 98, 58, 99, 58, 100, 58, 101, 58, 102] heap_ok
          = rina_name_from_string [97, 58, 98, 58, 99, 58, 100] heap_ok :=
  ⟨(name_from_string_fields []).2.2,
    (name_from_string_fields [97, 58, 98, 58, 99, 58, 100, 58, 101, 58, 102]).2.1
      [97] [98] [99] [100] [101, 58, 102] (by decide) (by decide) (by decide) (by decide)
      rfl⟩

/-! ## Names as strings: writing a name and reading it back -/

theorem cstr_append_nul (s r : List Nat) (h : cstr_ok s) : cstr (s ++ 0 :: r) = s := by
  induction s with
  | nil => simp [cstr]
  | cons c t ih =>
    have hc : c ≠ 0 := by
      have := (h c (by simp)).1
      omega
    have ht : cstr_ok t := fun b hb => h b (by simp [hb])
    have := ih ht
    simp only [cstr] at this ⊢
    rw [List.cons_append, List.takeWhile_cons]
    simp only [ne_eq, hc, not_false_eq_true, decide_True, if_true, this]

theorem plain_field_getD (s : Option (List Nat)) (h : plain_field s) :
    cstr_ok (s.getD []) ∧ 58 ∉ s.getD [] ∧ norm_str (some (s.getD [])) = s
      ∧ (s.getD [] = [] ↔ s = none) := by
  cases s with
  | none => simp [cstr_ok, norm_str]
  | some l =>
    obtain ⟨h1, h2, h3⟩ := h l rfl
    simp [norm_str, h1, h2, h3]

theorem field_len_eq (s : Option (List Nat)) (h : (s.getD []).length < 4294967296) :
    field_len s = (s.getD []).length ∧ (s.getD []).take (field_len s) = s.getD [] := by
  cases s with
  | none => simp [field_len]
  | some l =>
    simp only [Option.getD_some] at h
    simp [field_len, Nat.mod_eq_of_lt h]

theorem joined_fields_eq (n : name) :
    joined_fields n
      = n.process_name.getD [] ++ 58 :: (n.process_instance.getD []
          ++ 58 :: (n.entity_name.getD [] ++ 58 :: (n.entity_instance.getD [] ++ []))) := by
  simp [joined_fields]

theorem joined_fields_length (n : name) :
    (joined_fields n).length
      = (n.process_name.getD []).length + (n.process_instance.getD []).length
        + (n.entity_name.getD []).length + (n.entity_instance.getD []).length + 3 := by
  simp only [joined_fields, List.length_append, List.length_singleton]
  omega

theorem rina_name_to_string_fits (n : name)
    (h1 : plain_field n.process_name) (h2 : plain_field n.process_instance)
    (h3 : plain_field n.entity_name) (h4 : plain_field n.entity_instance)
    (hlen : (joined_fields n).length + 1 < 4294967296) :
    rina_name_to_string (some n) heap_ok = Except.ok (some (joined_fields n), heap_ok) := by
  rw [joined_fields_length] at hlen
  obtain ⟨a1, a2⟩ := field_len_eq n.process_name (by omega)
  obtain ⟨b1, b2⟩ := field_len_eq n.process_instance (by omega)
  obtain ⟨c1, c2⟩ := field_len_eq n.entity_name (by omega)
  obtain ⟨d1, d2⟩ := field_len_eq n.entity_instance (by omega)
  have hok : cstr_ok (joined_fields n) := by
    intro b hb
    simp only [joined_fields, List.mem_append, List.mem_singleton] at hb
    rcases hb with (((((hb | hb) | hb) | hb) | hb) | hb) | hb
    · exact (plain_field_getD _ h1).1 b hb
    · omega
    · exact (plain_field_getD _ h2).1 b hb
    · omega
    · exact (plain_field_getD _ h3).1 b hb
    · omega
    · exact (plain_field_getD _ h4).1 b hb
  have hw : (n.process_name.getD []).take (field_len n.process_name) ++ [58]
      ++ (n.process_instance.getD []).take (field_len n.process_instance) ++ [58]
      ++ (n.entity_name.getD []).take (field_len n.entity_name) ++ [58]
      ++ (n.entity_instance.getD []).take (field_len n.entity_instance) ++ [0]
      = joined_fields n ++ 0 :: [] := by
    rw [a2, b2, c2, d2]
    rfl
  simp only [rina_name_to_string, __rina_name_to_string, alloc_heap_ok, hw,
    cstr_append_nul _ _ hok]
  rw [if_neg]
  rw [a1, b1, c1, d1, List.length_append, joined_fields_length, List.length_singleton,
    Nat.mod_eq_of_lt (by omega)]
  omega

theorem joined_fields_splitOn (n : name)
    (h1 : plain_field n.process_name) (h2 : plain_field n.process_instance)
    (h3 : plain_field n.entity_name) (h4 : plain_field n.entity_instance) :
    (joined_fields n).splitOn 58
      = [n.process_name.getD [], n.process_instance.getD [], n.entity_name.getD [],
          n.entity_instance.getD []] := by
  rw [joined_fields_eq, splitOn_four _ _ _ _ (plain_field_getD _ h1).2.1
    (plain_field_getD _ h2).2.1 (plain_field_getD _ h3).2.1, List.append_nil,
    (splitOn_last _ (plain_field_getD _ h4).2.1 []).1]

theorem rina_name_from_string_joined (n : name)
    (h1 : plain_field n.process_name) (h2 : plain_field n.process_instance)
    (h3 : plain_field n.entity_name) (h4 : plain_field n.entity_instance) :
    rina_name_from_string (joined_fields n) heap_ok = (0, some n, heap_ok) := by
  rw [rina_name_from_string_heap_ok]
  simp only [delimited_field_eq, joined_fields_splitOn n h1 h2 h3 h4]
  have e0 := (plain_field_getD _ h1).2.2.1
  have e1 := (plain_field_getD _ h2).2.2.1
  have e2 := (plain_field_getD _ h3).2.2.1
  have e3 := (plain_field_getD _ h4).2.2.1
  simp only [List.getElem?_cons_zero, List.getElem?_cons_succ, e0, e1, e2, e3]

theorem sername_valid_joined (n : name)
    (h1 : plain_field n.process_name) (h2 : plain_field n.process_instance)
    (h3 : plain_field n.entity_name) (h4 : plain_field n.entity_instance) :
    rina_sername_valid (some (joined_fields n)) = rina_name_valid (some n) := by
  rw [rina_sername_valid_some]
  have hne : joined_fields n ≠ [] := by
    intro e
    have := congrArg List.length e
    rw [joined_fields_length] at this
    simp at this
  have hcount : (joined_fields n).count 58 = 3 := by
    simp only [joined_fields, List.count_append,
      List.count_eq_zero_of_not_mem (plain_field_getD _ h1).2.1,
      List.count_eq_zero_of_not_mem (plain_field_getD _ h2).2.1,
      List.count_eq_zero_of_not_mem (plain_field_getD _ h3).2.1,
      List.count_eq_zero_of_not_mem (plain_field_getD _ h4).2.1]
    rfl
  cases hp : n.process_name with
  | none =>
    have : (joined_fields n).head? = some 58 := by simp [joined_fields, hp]
    simp [this, rina_name_valid, hp]
  | some l =>
    obtain ⟨l1, _, l3⟩ := h1 l hp
    cases l with
    | nil => exact absurd rfl l1
    | cons c t =>
      have hc : c ≠ 58 := fun e => l3 (by simp [e])
      have : (joined_fields n).head? = some c := by simp [joined_fields, hp]
      simp [this, hc, hne, hcount, rina_name_valid, hp]

theorem plain_replicate (k : Nat) (hk : k ≠ 0) : plain_field (some (List.replicate k 97)) := by
  intro l hl
  simp only [Option.some.injEq] at hl
  subst hl
  refine ⟨?_, ?_, ?_⟩
  · intro e
    have := congrArg List.length e
    simp only [List.length_replicate, List.length_nil] at this
    exact hk this
  · intro b hb
    rw [List.eq_of_mem_replicate hb]
    omega
  · intro hb
    have := List.eq_of_mem_replicate hb
    exact absurd this (by decide)

theorem rina_name_to_string_wraps (l : List Nat) (hl : l.length = 4294967296) :
    rina_name_to_string (some ⟨some l, none, none, none⟩) heap_ok
        = Except.ok (some [58, 58, 58], heap_ok)
      ∧ joined_fields ⟨some l, none, none, none⟩ ≠ [58, 58, 58] := by
  constructor
  · simp only [rina_name_to_string, __rina_name_to_string, field_len, hl, Nat.mod_self,
      alloc_heap_ok, List.take_zero, Option.getD_none, Option.getD_some, List.nil_append]
    rfl
  · intro e
    have := congrArg List.length e
    rw [joined_fields_length] at this
    simp only [Option.getD_some, Option.getD_none, List.length_nil, hl, List.length_cons]
      at this
    omega

/-- C37 (counterexample): a name whose process name is 2 ^ 32 letters 'a' and whose
other fields are absent. Every present field is non-empty and without ':', yet the
lengths are kept in `unsigned int`, the process name counts as 0 bytes and
`rina_name_to_string` returns ":::", which is not the four fields joined by ':'. -/
theorem name_to_string_of_4GiB_field :
    plain_field (some (List.replicate 4294967296 97)) ∧ plain_field none
      ∧ rina_name_to_string (some ⟨some (List.replicate 4294967296 97), none, none, none⟩)
          heap_ok = Except.ok (some [58, 58, 58], heap_ok)
      ∧ joined_fields ⟨some (List.replicate 4294967296 97), none, none, none⟩
          ≠ [58, 58, 58] :=
  ⟨plain_replicate 4294967296 (by decide), fun _ h => absurd h (by simp),
    (rina_name_to_string_wraps _ (List.length_replicate 4294967296 97)).1,
    (rina_name_to_string_wraps _ (List.length_replicate 4294967296 97)).2⟩

/-- C37 (as amended): for a name whose present fields are non-empty C strings without
':' and whose fields and the four bytes added to them are together fewer than 2 ^ 32
bytes, when no allocation fails: `rina_name_to_string` returns the four fields joined by
three ':' characters, an absent field contributing nothing; `rina_name_from_string` on
that string returns 0 and yields the name itself, which `rina_name_cmp` finds equal to
the one started from; and `rina_sername_valid` returns for that string what
`rina_name_valid` returns for the name, 1 when the process name is present and 0 when it
is absent. -/
theorem name_string_round_trip (n : name)
    (h1 : plain_field n.process_name) (h2 : plain_field n.process_instance)
    (h3 : plain_field n.entity_name) (h4 : plain_field n.entity_instance)
    (hlen : (joined_fields n).length + 1 < 4294967296) :
    rina_name_to_string (some n) heap_ok = Except.ok (some (joined_fields n), heap_ok)
      ∧ (rina_name_from_string (joined_fields n) heap_ok).1 = 0
      ∧ (rina_name_from_string (joined_fields n) heap_ok).2.1 = some n
      ∧ rina_name_cmp (rina_name_from_string (joined_fields n) heap_ok).2.1 (some n) = 0
      ∧ rina_sername_valid (some (joined_fields n)) = rina_name_valid (some n)
      ∧ (rina_name_valid (some n) = 1 ↔ n.process_name ≠ none)
      ∧ (rina_name_valid (some n) ≠ 1 → rina_name_valid (some n) = 0) := by
  have hf := rina_name_from_string_joined n h1 h2 h3 h4
  refine ⟨rina_name_to_string_fits n h1 h2 h3 h4 hlen, by rw [hf], by rw [hf], ?_,
    sername_valid_joined n h1 h2 h3 h4, ?_, ?_⟩
  · rw [hf, rina_name_cmp_some, if_pos]
    simp [same_field_iff_eq]
  · cases hp : n.process_name with
    | none => simp [rina_name_valid, hp]
    | some l =>
      have := (h1 l hp).1
      cases l with
      | nil => exact absurd rfl this
      | cons c t => simp [rina_name_valid, hp]
  · cases hp : n.process_name with
    | none => simp [rina_name_valid, hp]
    | some l =>
      cases l with
      | nil => simp [rina_name_valid, hp]
      | cons c t => simp [rina_name_valid, hp]

theorem name_string_round_trip_witness :
    plain_field example_name.process_name ∧ plain_field example_name.entity_name
      ∧ rina_name_to_string (some example_name) heap_ok
          = Except.ok (some [97, 58, 98, 58, 58], heap_ok)
      ∧ (rina_name_from_string [97, 58, 98, 58, 58] heap_ok).2.1 = some example_name
      ∧ rina_sername_valid (some [97, 58, 98, 58, 58]) = rina_name_valid (some example_name) := by
  have hp : ∀ l : List Nat, l ≠ [] ∧ cstr_ok l ∧ 58 ∉ l → plain_field (some l) := by
    intro l h k hk
    simp only [Option.some.injEq] at hk
    exact hk ▸ h
  have hn : plain_field none := fun _ h => absurd h (by simp)
  have h := name_string_round_trip example_name (hp [97] (by decide)) (hp [98] (by decide))
    hn hn (by decide)
  exact ⟨hp [97] (by decide), hn, h.1, h.2.2.1, h.2.2.2.2.1⟩

/-! ## The class map of a RIB schema stays empty -/

theorem ribSchemaDefContRelation_new (c : relation_call) :
    ribSchemaDefContRelation rib_schema_new c.cont_class_name c.class_name c.mandatory
        c.max_objs
      = (rib_schema_res.RIB_SCHEMA_FORMAT_ERR, rib_schema_new) := rfl

/-- C38: on the class map a freshly constructed `RIBSchema` holds, every call of every
sequence of `ribSchemaDefContRelation` calls returns `RIB_SCHEMA_FORMAT_ERR`, whatever
container and class names it is given, and the map is empty after the sequence: a
relation is inserted only when its container class is a key of the map, and no key is
ever there. -/
theorem schema_relations_all_rejected (calls : List relation_call) :
    (run_relations rib_schema_new calls).1
        = List.replicate calls.length rib_schema_res.RIB_SCHEMA_FORMAT_ERR
      ∧ (run_relations rib_schema_new calls).2 = rib_schema_new
      ∧ (∀ class_name, (run_relations rib_schema_new calls).2 class_name = none) := by
  have h : (run_relations rib_schema_new calls).1
        = List.replicate calls.length rib_schema_res.RIB_SCHEMA_FORMAT_ERR
      ∧ (run_relations rib_schema_new calls).2 = rib_schema_new := by
    induction calls with
    | nil => exact ⟨rfl, rfl⟩
    | cons c cs ih =>
      simp only [run_relations, ribSchemaDefContRelation_new, ih.1, ih.2, List.length_cons,
        List.replicate_succ, and_self]
  exact ⟨h.1, h.2, fun class_name => by rw [h.2]; rfl⟩

/-! ## The IPC manager: results of flow allocation requests -/

/-- C39: when the sequence number of the event has no pending flow allocation, the
handler calls nobody and leaves the IPC manager as it was. Otherwise it tells the slave
IPC process the result, notifies the application manager exactly once with the pending
request, whose port id is that of the event when the result is 0 and the slave IPC
process did not raise, and -1 in every other case, and then removes that pending entry;
every other pending entry is as before. -/
theorem flow_request_result_handled (raises : Bool)
    (event : IpcmAllocateFlowRequestResultEvent) (ipcm : IPCManager) :
    (ipcm.pending_flow_allocations event.sequenceNumber = none →
        ipcm_allocate_flow_request_result_handler raises event ipcm = ([], ipcm))
      ∧ (∀ p, ipcm.pending_flow_allocations event.sequenceNumber = some p →
          (ipcm_allocate_flow_request_result_handler raises event ipcm).1
              = [ipcm_call.allocateFlowResult p.slave_ipcp event.sequenceNumber
                  (decide (event.result = 0)) event.portId,
                ipcm_call.flowAllocated
                  { p.req_event with
                    portId := if event.result = 0 ∧ raises = false then event.portId
                      else -1 }]
            ∧ (ipcm_allocate_flow_request_result_handler raises event
                ipcm).2.pending_flow_allocations event.sequenceNumber = none
            ∧ (∀ k, k ≠ event.sequenceNumber →
                (ipcm_allocate_flow_request_result_handler raises event
                  ipcm).2.pending_flow_allocations k = ipcm.pending_flow_allocations k)) := by
  refine ⟨?_, ?_⟩
  · intro h
    simp [ipcm_allocate_flow_request_result_handler, h]
  · intro p h
    simp only [ipcm_allocate_flow_request_result_handler, h, map_erase]
    refine ⟨?_, by simp, ?_⟩
    · cases raises <;> by_cases hr : event.result = 0 <;> simp [hr]
    · intro k hk
      simp [hk]

theorem flow_request_result_handled_witness :
    example_ipcm.pending_flow_allocations 9 = none
      ∧ ipcm_allocate_flow_request_result_handler false ⟨9, 0, 33⟩ example_ipcm
          = ([], example_ipcm)
      ∧ (ipcm_allocate_flow_request_result_handler false ⟨4, 0, 33⟩ example_ipcm).1
          = [ipcm_call.allocateFlowResult 500 4 true 33,
              ipcm_call.flowAllocated ⟨33, ['a'], ['b']⟩]
      ∧ (ipcm_allocate_flow_request_result_handler true ⟨4, 0, 33⟩ example_ipcm).1
          = [ipcm_call.allocateFlowResult 500 4 true 33,
              ipcm_call.flowAllocated ⟨-1, ['a'], ['b']⟩]
      ∧ (ipcm_allocate_flow_request_result_handler false ⟨4, -2, 33⟩ example_ipcm).1
          = [ipcm_call.allocateFlowResult 500 4 false 33,
              ipcm_call.flowAllocated ⟨-1, ['a'], ['b']⟩] :=
  ⟨rfl, (flow_request_result_handled false ⟨9, 0, 33⟩ example_ipcm).1 rfl,
    ((flow_request_result_handled false ⟨4, 0, 33⟩ example_ipcm).2 _ rfl).1,
    ((flow_request_result_handled true ⟨4, 0, 33⟩ example_ipcm).2 _ rfl).1,
    ((flow_request_result_handled false ⟨4, -2, 33⟩ example_ipcm).2 _ rfl).1⟩

/-! ## Flow specifications and QoS cubes: getters and setters -/

/-- C40: what the getters of `QoSCube` and `FlowSpecification` do. `QoSCube::getDelay`
calls itself and nothing else: after `setDelay(d)` the member `delay` holds `d`, but
`getDelay` has returned nothing after any number of nested calls. Every other integer
or boolean getter of the two classes returns the value its setter stored, and on an
object as the constructor leaves it the value the constructor set: -1 for the maximum
allowable gap, true for partial delivery, false for ordered delivery, 0 for the other
numbers. -/
theorem QoSCube_getDelay_never_returns (q : QoSCube) (f : FlowSpecification) (d : Nat)
    (g : Int) (b : Bool) (name : List Char) (id : Int) :
    (∀ fuel, QoSCube.getDelay (q.setDelay d) fuel = none)
      ∧ (q.setDelay d).delay = d
      ∧ (∀ fuel, QoSCube.getDelay (QoSCube_new name id) fuel = none)
      ∧ ((q.setAverageBandwidth d).getAverageBandwidth = d
        ∧ (q.setAverageSduBandwidth d).getAverageSduBandwidth = d
        ∧ (q.setJitter d).getJitter = d
        ∧ (q.setMaxAllowableGap g).getMaxAllowableGap = g
        ∧ (q.setOrderedDelivery b).isOrderedDelivery = b
        ∧ (q.setPartialDelivery b).isPartialDelivery = b
        ∧ (q.setPeakBandwidthDuration d).getPeakBandwidthDuration = d
        ∧ (q.setPeakSduBandwidthDuration d).getPeakSduBandwidthDuration = d)
      ∧ ((f.setAverageBandwidth d).getAverageBandwidth = d
        ∧ (f.setAverageSduBandwidth d).getAverageSduBandwidth = d
        ∧ (f.setDelay d).getDelay = d
        ∧ (f.setJitter d).getJitter = d
        ∧ (f.setMaxAllowableGap g).getMaxAllowableGap = g
        ∧ (f.setMaxSDUSize d).getMaxSDUSize = d
        ∧ (f.setOrderedDelivery b).isOrderedDelivery = b
        ∧ (f.setPartialDelivery b).isPartialDelivery = b
        ∧ (f.setPeakBandwidthDuration d).getPeakBandwidthDuration = d
        ∧ (f.setPeakSduBandwidthDuration d).getPeakSduBandwidthDuration = d)
      ∧ ((QoSCube_new name id).getAverageBandwidth = 0
        ∧ (QoSCube_new name id).getAverageSduBandwidth = 0
        ∧ (QoSCube_new name id).getJitter = 0
        ∧ (QoSCube_new name id).getMaxAllowableGap = -1
        ∧ (QoSCube_new name id).isOrderedDelivery = false
        ∧ (QoSCube_new name id).isPartialDelivery = true
        ∧ (QoSCube_new name id).getPeakBandwidthDuration = 0
        ∧ (QoSCube_new name id).getPeakSduBandwidthDuration = 0)
      ∧ (FlowSpecification_new.getAverageBandwidth = 0
        ∧ FlowSpecification_new.getAverageSduBandwidth = 0
        ∧ FlowSpecification_new.getDelay = 0
        ∧ FlowSpecification_new.getJitter = 0
        ∧ FlowSpecification_new.getMaxAllowableGap = -1
        ∧ FlowSpecification_new.getMaxSDUSize = 0
        ∧ FlowSpecification_new.isOrderedDelivery = false
        ∧ FlowSpecification_new.isPartialDelivery = true
        ∧ FlowSpecification_new.getPeakBandwidthDuration = 0
        ∧ FlowSpecification_new.getPeakSduBandwidthDuration = 0) := by
  have hloop : ∀ (q : QoSCube) (fuel : Nat), QoSCube.getDelay q fuel = none := by
    intro q fuel
    induction fuel with
    | zero => rfl
    | succ k ih => exact ih
  exact ⟨hloop _, rfl, hloop _,
    ⟨rfl, rfl, rfl, rfl, rfl, rfl, rfl, rfl⟩,
    ⟨rfl, rfl, rfl, rfl, rfl, rfl, rfl, rfl, rfl, rfl⟩,
    ⟨rfl, rfl, rfl, rfl, rfl, rfl, rfl, rfl⟩,
    ⟨rfl, rfl, rfl, rfl, rfl, rfl, rfl, rfl, rfl, rfl⟩⟩

theorem QoSCube_getDelay_never_returns_witness :
    QoSCube.getDelay ((QoSCube_new ['q'] 1).setDelay 5) 1000 = none
      ∧ ((QoSCube_new ['q'] 1).setDelay 5).delay = 5
      ∧ (FlowSpecification_new.setDelay 5).getDelay = 5 :=
  ⟨(QoSCube_getDelay_never_returns (QoSCube_new ['q'] 1) FlowSpecification_new 5 0 true
      ['q'] 1).1 1000,
    (QoSCube_getDelay_never_returns (QoSCube_new ['q'] 1) FlowSpecification_new 5 0 true
      ['q'] 1).2.1,
    rfl⟩

/-! ## The flow allocator instance -/

theorem fai_step_retries (P : Flow → Bool) (fai : FlowAllocatorInstance) (c : fai_call)
    (h : fai.flow_.create_flow_retries_ ≤ fai.flow_.max_create_flow_retries_) :
    (fai_step P fai c).1.flow_.max_create_flow_retries_ = fai.flow_.max_create_flow_retries_
      ∧ (fai_step P fai c).1.flow_.create_flow_retries_
          ≤ fai.flow_.max_create_flow_retries_ := by
  cases c with
  | createResponse positive =>
    cases positive
    · simp only [fai_step]
      split_ifs with h1 h2
      · exact ⟨rfl, h2.2⟩
      · exact ⟨rfl, h⟩
      · exact ⟨rfl, h⟩
    · simp only [fai_step]
      split_ifs <;> exact ⟨rfl, h⟩
  | submitAllocateResponse accepted =>
    cases accepted <;>
    · simp only [fai_step]
      split_ifs <;> exact ⟨rfl, h⟩
  | _ =>
    simp only [fai_step]
    split_ifs <;> exact ⟨rfl, h⟩

theorem fai_run_retries (P : Flow → Bool) (fai : FlowAllocatorInstance) (calls : List fai_call)
    (h : fai.flow_.create_flow_retries_ ≤ fai.flow_.max_create_flow_retries_) :
    (fai_run P fai calls).1.flow_.max_create_flow_retries_ = fai.flow_.max_create_flow_retries_
      ∧ (fai_run P fai calls).1.flow_.create_flow_retries_
          ≤ fai.flow_.max_create_flow_retries_ := by
  induction calls generalizing fai with
  | nil => exact ⟨rfl, h⟩
  | cons c cs ih =>
    obtain ⟨h1, h2⟩ := fai_step_retries P fai c h
    have := ih (fai_step P fai c).1 (by rw [h1]; exact h2)
    simp only [fai_run]
    rw [← h1]
    exact this

/-- C34: on the state machine of section 4.5. Along every sequence of calls on an
instance that starts with no more retries counted than its limit, and so on the
instance before any call, `create_flow_retries_` never exceeds
`max_create_flow_retries_`. With the limit 2, the peer's create request sent and a
retry policy that authorises the first two retries, three negative create responses
are answered by a new create request with the timer reset, twice, and then by the
allocation failure notified to the application and nothing else; the instance is
`FINISHED` with two retries counted, whatever the policy says the third time. -/
theorem create_retries_capped (P : Flow → Bool) :
    (∀ fai calls,
        fai.flow_.create_flow_retries_ ≤ fai.flow_.max_create_flow_retries_ →
        (fai_run P fai calls).1.flow_.create_flow_retries_
          ≤ (fai_run P fai calls).1.flow_.max_create_flow_retries_)
      ∧ (∀ limit port_id calls,
          (fai_run P (fai_new limit port_id) calls).1.flow_.create_flow_retries_ ≤ limit)
      ∧ (∀ port_id, P ⟨2, 0⟩ = true → P ⟨2, 1⟩ = true →
          fai_run P ⟨FAIState.MESSAGE_TO_PEER_FAI_SENT, ⟨2, 0⟩, port_id⟩
              [fai_call.createResponse false, fai_call.createResponse false,
                fai_call.createResponse false]
            = (⟨FAIState.FINISHED, ⟨2, 2⟩, port_id⟩,
                [fai_action.create_request_sent, fai_action.create_timer_reset,
                  fai_action.create_request_sent, fai_action.create_timer_reset,
                  fai_action.allocation_failure_notified])) := by
  refine ⟨?_, ?_, ?_⟩
  · intro fai calls h
    obtain ⟨h1, h2⟩ := fai_run_retries P fai calls h
    rw [h1]
    exact h2
  · intro limit port_id calls
    exact (fai_run_retries P (fai_new limit port_id) calls (Nat.zero_le _)).2
  · intro port_id p0 p1
    simp [fai_run, fai_step, p0, p1]

theorem create_retries_capped_witness :
    (fai_new 2 7).flow_.create_flow_retries_ ≤ (fai_new 2 7).flow_.max_create_flow_retries_
      ∧ (fai_run (fun _ => true) (fai_new 2 7)
            [fai_call.submitAllocateRequest, fai_call.processCreateConnectionResponseEvent,
              fai_call.createResponse false, fai_call.createResponse false,
              fai_call.createResponse false]).1.flow_.create_flow_retries_ ≤ 2
      ∧ fai_run (fun _ => true) ⟨FAIState.MESSAGE_TO_PEER_FAI_SENT, ⟨2, 0⟩, 7⟩
            [fai_call.createResponse false, fai_call.createResponse false,
              fai_call.createResponse false]
          = (⟨FAIState.FINISHED, ⟨2, 2⟩, 7⟩,
              [fai_action.create_request_sent, fai_action.create_timer_reset,
                fai_action.create_request_sent, fai_action.create_timer_reset,
                fai_action.allocation_failure_notified]) :=
  ⟨by decide,
    (create_retries_capped (fun _ => true)).1 (fai_new 2 7) _ (by decide),
    (create_retries_capped (fun _ => true)).2.2 7 rfl rfl⟩

theorem fai_step_waiting (P : Flow → Bool) (fai : FlowAllocatorInstance) (c : fai_call)
    (hw : fai.state_ = FAIState.WAITING_2_MPL_BEFORE_TEARING_DOWN)
    (hc : c ≠ fai_call.TearDownFlowTimerTask_run) : fai_step P fai c = (fai, []) := by
  cases c with
  | createResponse positive => cases positive <;> simp [fai_step, hw]
  | submitAllocateResponse accepted => cases accepted <;> simp [fai_step, hw]
  | TearDownFlowTimerTask_run => exact absurd rfl hc
  | _ => simp [fai_step, hw]

theorem fai_run_waiting (P : Flow → Bool) (fai : FlowAllocatorInstance)
    (calls : List fai_call) (hw : fai.state_ = FAIState.WAITING_2_MPL_BEFORE_TEARING_DOWN)
    (hc : fai_call.TearDownFlowTimerTask_run ∉ calls) : fai_run P fai calls = (fai, []) := by
  induction calls with
  | nil => rfl
  | cons c cs ih =>
    simp only [List.mem_cons, not_or] at hc
    simp only [fai_run, fai_step_waiting P fai c hw (Ne.symm hc.1), ih hc.2, List.nil_append]

/-- C35: on the state machine of section 4.5, for an instance that is in
`WAITING_2_MPL_BEFORE_TEARING_DOWN`. Along every sequence of calls in which its
`TearDownFlowTimerTask` does not run, the instance stays as it is and does nothing: its
port id is not released and it is not removed from the flow allocator, so the port id is
free for no new flow. The run of the timer task makes it `FINISHED`, releases the port
id and removes the instance from the flow allocator. So an instance that is `FINISHED`
after a sequence of calls, or one that released a port id in it, had its timer task run
in that sequence. -/
theorem teardown_waits_for_timer (P : Flow → Bool) (fai : FlowAllocatorInstance)
    (calls : List fai_call) (hw : fai.state_ = FAIState.WAITING_2_MPL_BEFORE_TEARING_DOWN) :
    (fai_call.TearDownFlowTimerTask_run ∉ calls → fai_run P fai calls = (fai, []))
      ∧ fai_step P fai fai_call.TearDownFlowTimerTask_run
        = ({ fai with state_ := FAIState.FINISHED },
            [fai_action.port_id_released fai.port_id_,
              fai_action.removed_from_flow_allocator fai.port_id_])
      ∧ ((fai_run P fai calls).1.state_ = FAIState.FINISHED →
          fai_call.TearDownFlowTimerTask_run ∈ calls)
      ∧ (∀ port_id, fai_action.port_id_released port_id ∈ (fai_run P fai calls).2 →
          fai_call.TearDownFlowTimerTask_run ∈ calls)
      ∧ (∀ pre post, calls = pre ++ fai_call.TearDownFlowTimerTask_run :: post →
          fai_call.TearDownFlowTimerTask_run ∉ pre →
          (fai_run P fai pre).1 = fai
            ∧ fai_action.port_id_released fai.port_id_ ∉ (fai_run P fai pre).2) := by
  refine ⟨fai_run_waiting P fai calls hw, by simp [fai_step, hw], ?_, ?_, ?_⟩
  · intro hf
    by_contra hn
    rw [fai_run_waiting P fai calls hw hn, hw] at hf
    cases hf
  · intro port_id hm
    by_contra hn
    rw [fai_run_waiting P fai calls hw hn] at hm
    cases hm
  · intro pre post _ hpre
    rw [fai_run_waiting P fai pre hw hpre]
    exact ⟨rfl, by simp⟩

theorem teardown_waits_for_timer_witness :
    (⟨FAIState.WAITING_2_MPL_BEFORE_TEARING_DOWN, ⟨2, 0⟩, 7⟩ : FlowAllocatorInstance).state_
        = FAIState.WAITING_2_MPL_BEFORE_TEARING_DOWN
      ∧ fai_run (fun _ => true) ⟨FAIState.WAITING_2_MPL_BEFORE_TEARING_DOWN, ⟨2, 0⟩, 7⟩
            [fai_call.submitAllocateRequest, fai_call.submitDeallocate,
              fai_call.connection_destroyed]
          = (⟨FAIState.WAITING_2_MPL_BEFORE_TEARING_DOWN, ⟨2, 0⟩, 7⟩, [])
      ∧ fai_step (fun _ => true) ⟨FAIState.WAITING_2_MPL_BEFORE_TEARING_DOWN, ⟨2, 0⟩, 7⟩
            fai_call.TearDownFlowTimerTask_run
          = (⟨FAIState.FINISHED, ⟨2, 0⟩, 7⟩,
              [fai_action.port_id_released 7, fai_action.removed_from_flow_allocator 7]) :=
  ⟨rfl,
    (teardown_waits_for_timer (fun _ => true)
      ⟨FAIState.WAITING_2_MPL_BEFORE_TEARING_DOWN, ⟨2, 0⟩, 7⟩
      [fai_call.submitAllocateRequest, fai_call.submitDeallocate,
        fai_call.connection_destroyed] rfl).1 (by decide),
    (teardown_waits_for_timer (fun _ => true)
      ⟨FAIState.WAITING_2_MPL_BEFORE_TEARING_DOWN, ⟨2, 0⟩, 7⟩ [] rfl).2.1⟩

end Irati
